import Mathlib

/-! Instrumentation library of `prometheus-issue`.

A shallow embedding of the metric adapters under
`vendor/github.com/sliide/shared-go-libs/metric/prometheus` and of
`internal/monitoring/metrics.go`.

Modelling conventions
* The process-wide collectors (`promauto.New*Vec` package variables) are one
  explicit `Registry` value that every operation takes and returns.
* A series is addressed by the metric name and the label pairs, the pairs in the
  order of the label names of the descriptor. A series that was never touched
  reads as zero / no observation; `With(..)` creates it on first use.
* `time.Now()` is an explicit argument `now` in nanoseconds; a histogram keeps the
  list of observed values (durations in nanoseconds, sizes in bytes).
* Gauges hold integers, counters hold naturals.
-/

namespace Prom

/-! ## Strings -/

/-- Go `strings.ToLower` as far as this development evaluates it: the ASCII letters `A`
to `Z` are lowercased and every other character is kept, whereas the function of the Go
library lowercases every Unicode letter. It serves where a lowercased value only names a
label; what depends on which strings agree after lowercasing is stated for every
lowercasing function, the function being a parameter `ToLower` of the definitions
whose names end in `Using`. -/
def toLower (s : String) : String :=
  String.mk (s.data.map Char.toLower)

/-! ## Registry -/

/-- The value of `prometheus.Labels` resolved against a descriptor: label name and
label value, in the order of the label names of the descriptor. -/
abbrev Labels := List (String × String)

/-- Identity of one series: fully qualified metric name and its label pairs. -/
structure SeriesKey where
  name : String
  labels : Labels
deriving DecidableEq, Repr

/-- The children of the metric vectors of one kind, in order of creation. -/
abbrev Series (α : Type) := List (SeriesKey × α)

/-- Current value of a series; `d` is the value of a series not yet created. -/
def Series.read {α : Type} (d : α) (k : SeriesKey) : Series α → α
  | [] => d
  | (k', v) :: rest => if k' = k then v else Series.read d k rest

/-- The effect of `vec.With(labels)` followed by one update `f` of the child: the
child is created with value `d` when it does not exist yet. -/
def Series.update {α : Type} (d : α) (f : α → α) (k : SeriesKey) : Series α → Series α
  | [] => [(k, f d)]
  | (k', v) :: rest =>
    if k' = k then (k', f v) :: rest else (k', v) :: Series.update d f k rest

/-- The state of the default registry: every gauge, counter and histogram child. -/
structure Registry where
  gauges : Series Int
  counters : Series Nat
  histograms : Series (List Int)
deriving DecidableEq, Repr

/-- The registry right after the package variables are initialised. -/
def Registry.empty : Registry := ⟨[], [], []⟩

/-- Value of a gauge series. -/
def Registry.gauge (r : Registry) (k : SeriesKey) : Int := Series.read 0 k r.gauges

/-- Value of a counter series. -/
def Registry.counter (r : Registry) (k : SeriesKey) : Nat := Series.read 0 k r.counters

/-- Observations of a histogram series, oldest first. -/
def Registry.histogram (r : Registry) (k : SeriesKey) : List Int :=
  Series.read [] k r.histograms

/-- Go `Gauge.Inc`. -/
def Registry.gaugeInc (r : Registry) (k : SeriesKey) : Registry :=
  { r with gauges := Series.update 0 (fun v => v + 1) k r.gauges }

/-- Go `Gauge.Dec`. -/
def Registry.gaugeDec (r : Registry) (k : SeriesKey) : Registry :=
  { r with gauges := Series.update 0 (fun v => v - 1) k r.gauges }

/-- Go `Gauge.Set`. -/
def Registry.gaugeSet (r : Registry) (k : SeriesKey) (x : Int) : Registry :=
  { r with gauges := Series.update 0 (fun _ => x) k r.gauges }

/-- Go `Counter.Inc`. -/
def Registry.counterInc (r : Registry) (k : SeriesKey) : Registry :=
  { r with counters := Series.update 0 (fun v => v + 1) k r.counters }

/-- Go `Histogram.Observe`. -/
def Registry.observe (r : Registry) (k : SeriesKey) (x : Int) : Registry :=
  { r with histograms := Series.update [] (fun v => v ++ [x]) k r.histograms }

/-! ## worker.go -/

/-- The fields of `WorkerMetrics` that are not pointers to package variables. -/
structure WorkerMetrics where
  queue : String
  t : Int
  begin : Bool
deriving DecidableEq, Repr

/-- Go `NewWorkerMetrics`. -/
def NewWorkerMetrics (queue : String) (now : Int) : WorkerMetrics :=
  { queue := queue, t := now, begin := false }

/-- Go `WorkerMetrics.label`. -/
def WorkerMetrics.label (m : WorkerMetrics) : Labels :=
  [("queue", toLower m.queue)]

/-- Go `WorkerMetrics.labelWithCode`. -/
def WorkerMetrics.labelWithCode (m : WorkerMetrics) (code : String) : Labels :=
  m.label ++ [("code", toLower code)]

/-- Go `WorkerMetrics.processed`. -/
def WorkerMetrics.processed (m : WorkerMetrics) (code : String) (r : Registry) : Registry :=
  r.counterInc ⟨"worker_messages_total", m.labelWithCode code⟩

/-- Go `WorkerMetrics.IncDeadLetter`. -/
def WorkerMetrics.IncDeadLetter (m : WorkerMetrics) (r : Registry) : Registry :=
  r.counterInc ⟨"worker_dead_letter_messages_total", m.label⟩

/-- Go `WorkerMetrics.incInFlight`. -/
def WorkerMetrics.incInFlight (m : WorkerMetrics) (r : Registry) : Registry :=
  r.gaugeInc ⟨"worker_messages_in_flight", m.label⟩

/-- Go `WorkerMetrics.decInFlight`. -/
def WorkerMetrics.decInFlight (m : WorkerMetrics) (r : Registry) : Registry :=
  r.gaugeDec ⟨"worker_messages_in_flight", m.label⟩

/-- Go `WorkerMetrics.observeProcessingTime`. -/
def WorkerMetrics.observeProcessingTime (m : WorkerMetrics) (code : String) (t : Int)
    (r : Registry) : Registry :=
  r.observe ⟨"worker_messages_processing_duration_seconds", m.labelWithCode code⟩ t

/-- Go `WorkerMetrics.Begin`, called at time `now`. -/
def WorkerMetrics.Begin (m : WorkerMetrics) (now : Int) (r : Registry) :
    WorkerMetrics × Registry :=
  if m.begin then (m, r)
  else
    let m1 := { m with t := now }
    let r1 := m1.incInFlight r
    ({ m1 with begin := true }, r1)

/-- Go `WorkerMetrics.End`, called at time `now`. -/
def WorkerMetrics.End (m : WorkerMetrics) (code : String) (now : Int) (r : Registry) :
    WorkerMetrics × Registry :=
  if !m.begin then (m, r)
  else
    let r1 := m.decInFlight r
    let r2 := m.processed code r1
    let r3 := m.observeProcessingTime code (now - m.t) r2
    ({ m with begin := false }, r3)

/-- One call on a `WorkerMetrics` value, with the time at which it is made. -/
inductive WorkerCall where
  | Begin (now : Int) : WorkerCall
  | End (code : String) (now : Int) : WorkerCall
  | IncDeadLetter : WorkerCall
deriving DecidableEq, Repr

/-- The effect of one call on the `WorkerMetrics` value and on the registry. -/
def WorkerMetrics.call (s : WorkerMetrics × Registry) : WorkerCall →
    WorkerMetrics × Registry
  | .Begin now => s.1.Begin now s.2
  | .End code now => s.1.End code now s.2
  | .IncDeadLetter => (s.1, s.1.IncDeadLetter s.2)

/-- The effect of a sequence of calls made one after another. -/
def WorkerMetrics.run (s : WorkerMetrics × Registry) (calls : List WorkerCall) :
    WorkerMetrics × Registry :=
  calls.foldl WorkerMetrics.call s

/-- The calls are `Begin`/`End` pairs run one after another, with `IncDeadLetter`
calls anywhere between them; `inSession` tells whether a `Begin` is waiting for its
`End` when the sequence starts. -/
def WorkerCall.paired (inSession : Bool) : List WorkerCall → Bool
  | [] => !inSession
  | .Begin _ :: rest => !inSession && WorkerCall.paired true rest
  | .End _ _ :: rest => inSession && WorkerCall.paired false rest
  | .IncDeadLetter :: rest => WorkerCall.paired inSession rest

/-- The number of `End` calls of the sequence whose lowercased code is `c`. -/
def WorkerCall.codeCount (c : String) : List WorkerCall → Nat
  | [] => 0
  | .End code _ :: rest =>
    (if toLower code = c then 1 else 0) + WorkerCall.codeCount c rest
  | _ :: rest => WorkerCall.codeCount c rest

/-- The number of `IncDeadLetter` calls of the sequence. -/
def WorkerCall.deadLetters : List WorkerCall → Nat
  | [] => 0
  | .IncDeadLetter :: rest => 1 + WorkerCall.deadLetters rest
  | _ :: rest => WorkerCall.deadLetters rest

/-- Nine messages processed one after another, seven ending with code ok (in various
letter cases) and two with code failed, the last one also routed to the dead-letter
queue while it is being processed. -/
def tallyScenario : List WorkerCall :=
  [.Begin 0, .End "ok" 3, .Begin 4, .End "OK" 5, .Begin 6, .End "ok" 9,
   .Begin 10, .End "failed" 12, .Begin 13, .End "Ok" 14, .Begin 15, .End "ok" 16,
   .Begin 17, .End "ok" 18, .Begin 19, .End "ok" 21,
   .Begin 22, .IncDeadLetter, .End "FAILED" 25]

/-! ## Errors -/

/-- Go error values as far as `errors.Is` inspects them: the two sentinels of package
`context`, an error without `Unwrap` (or whose `Unwrap` returns nil), an error whose
`Unwrap` returns one error (`fmt.Errorf` with `%w`) and an error whose `Unwrap`
returns a slice (`errors.Join`), nil elements left out; and the same three shapes for an
error type that has a method `Is(error) bool`, `accepts` being what that method returns
for `context.Canceled`. The sentinels have no such method. -/
inductive GoError where
  | Canceled : GoError
  | DeadlineExceeded : GoError
  | leaf (msg : String) : GoError
  | wrap (msg : String) (inner : GoError) : GoError
  | join (errs : List GoError) : GoError
  | leafIs (msg : String) (accepts : Bool) : GoError
  | wrapIs (msg : String) (accepts : Bool) (inner : GoError) : GoError
  | joinIs (accepts : Bool) (errs : List GoError) : GoError

/-- A Go `error` interface value; `none` is nil. -/
abbrev Error := Option GoError

mutual
/-- The loop of Go `errors.Is(err, context.Canceled)` for a non-nil `err`: the error is
the target, or its own `Is` method accepts the target, or the loop goes on with what
`Unwrap` returns. -/
def GoError.isCanceled : GoError → Bool
  | .Canceled => true
  | .DeadlineExceeded => false
  | .leaf _ => false
  | .wrap _ e => GoError.isCanceled e
  | .join errs => GoError.anyCanceled errs
  | .leafIs _ accepts => accepts
  | .wrapIs _ accepts e => accepts || GoError.isCanceled e
  | .joinIs accepts errs => accepts || GoError.anyCanceled errs
/-- The range loop over the result of `Unwrap() []error`. -/
def GoError.anyCanceled : List GoError → Bool
  | [] => false
  | e :: rest => GoError.isCanceled e || GoError.anyCanceled rest
end

/-- Go `errors.Is(err, context.Canceled)`. -/
def errorsIsCanceled : Error → Bool
  | none => false
  | some e => e.isCanceled

/-- The error is `context.Canceled` or wraps it somewhere in its unwrap chain: it is
the sentinel itself, or its `Unwrap` returns an error that is or wraps the sentinel,
or its `Unwrap` returns a slice one of whose elements is or wraps the sentinel. -/
inductive GoError.WrapsCanceled : GoError → Prop where
  | self : GoError.WrapsCanceled .Canceled
  | wrap (msg : String) (e : GoError) :
      GoError.WrapsCanceled e → GoError.WrapsCanceled (.wrap msg e)
  | join (errs : List GoError) (e : GoError) :
      e ∈ errs → GoError.WrapsCanceled e → GoError.WrapsCanceled (.join errs)
  | wrapIs (msg : String) (accepts : Bool) (e : GoError) :
      GoError.WrapsCanceled e → GoError.WrapsCanceled (.wrapIs msg accepts e)
  | joinIs (accepts : Bool) (errs : List GoError) (e : GoError) :
      e ∈ errs → GoError.WrapsCanceled e → GoError.WrapsCanceled (.joinIs accepts errs)

/-- What `errors.Is(err, context.Canceled)` decides: the error is `context.Canceled`, or
it has an `Is` method that accepts `context.Canceled`, or an error that its `Unwrap`
returns is such an error in turn. -/
inductive GoError.MatchesCanceled : GoError → Prop where
  | self : GoError.MatchesCanceled .Canceled
  | leafIs (msg : String) : GoError.MatchesCanceled (.leafIs msg true)
  | wrapIsSelf (msg : String) (e : GoError) : GoError.MatchesCanceled (.wrapIs msg true e)
  | joinIsSelf (errs : List GoError) : GoError.MatchesCanceled (.joinIs true errs)
  | wrap (msg : String) (e : GoError) :
      GoError.MatchesCanceled e → GoError.MatchesCanceled (.wrap msg e)
  | join (errs : List GoError) (e : GoError) :
      e ∈ errs → GoError.MatchesCanceled e → GoError.MatchesCanceled (.join errs)
  | wrapIs (msg : String) (accepts : Bool) (e : GoError) :
      GoError.MatchesCanceled e → GoError.MatchesCanceled (.wrapIs msg accepts e)
  | joinIs (accepts : Bool) (errs : List GoError) (e : GoError) :
      e ∈ errs → GoError.MatchesCanceled e → GoError.MatchesCanceled (.joinIs accepts errs)

/-! ## api.go -/

/-- Go constant `apiCallOK`. -/
def apiCallOK : String := "ok"

/-- Go constant `apiCallFailed`. -/
def apiCallFailed : String := "failed"

/-- Go constant `apiCallCanceled`. -/
def apiCallCanceled : String := "canceled"

/-- Go `apiCallResultFromError`. -/
def apiCallResultFromError (err : Error) : String :=
  match err with
  | none => apiCallOK
  | some _ => if errorsIsCanceled err then apiCallCanceled else apiCallFailed

/-- Go struct `APICallMetrics`. -/
structure APICallMetrics where
  apiName : String
  apiMethod : String
  start : Int
deriving DecidableEq, Repr

/-- Go `NewAPICallMetrics`; `start` is the zero time. -/
def NewAPICallMetrics (apiName apiMethod : String) : APICallMetrics :=
  { apiName := apiName, apiMethod := apiMethod, start := 0 }

/-- Go `APICallMetrics.labels`. -/
def APICallMetrics.labels (a : APICallMetrics) : Labels :=
  [("api_name", a.apiName), ("api_method", a.apiMethod)]

/-- Go `APICallMetrics.labelsWithResult`. -/
def APICallMetrics.labelsWithResult (a : APICallMetrics) (err : Error) : Labels :=
  a.labels ++ [("result", apiCallResultFromError err)]

/-- Go `APICallMetrics.end`, called at time `now`. -/
def APICallMetrics.end' (a : APICallMetrics) (err : Error) (now : Int) (r : Registry) :
    Registry :=
  let labels := a.labels
  let r1 := r.gaugeDec ⟨"third_party_api_requests_in_flight", labels⟩
  let r2 := r1.observe ⟨"third_party_api_request_duration_seconds", labels⟩ (now - a.start)
  r2.counterInc ⟨"third_party_api_requests_total", a.labelsWithResult err⟩

/-- Go `APICallMetrics.Begin`, called at time `now`: the registry after the increment
of the gauge, and the returned method value, bound to the copy of the receiver whose
`start` was set. -/
def APICallMetrics.Begin (a : APICallMetrics) (now : Int) (r : Registry) :
    Registry × (Error → Int → Registry → Registry) :=
  let a1 := { a with start := now }
  let r1 := r.gaugeInc ⟨"third_party_api_requests_in_flight", a1.labels⟩
  (r1, a1.end')

/-! ## internal/strconv -/

/-- Go `FormatDecimalInt`, that is `strconv.FormatInt(i, 10)`. -/
def FormatDecimalInt (i : Int) : String :=
  String.mk ((if i < 0 then ['-'] else []) ++ Nat.toDigits 10 i.natAbs)

/-- The error kinds of Go `strconv.NumError`: `ErrSyntax` and `ErrRange`. -/
inductive NumError where
  | ErrSyntax : NumError
  | ErrRange : NumError
deriving DecidableEq, Repr

/-- The loop of Go `strconv.ParseUint(s, 10, 64)` over the characters still to read,
`n` being the value read so far, a 64-bit unsigned integer. A character that is not a
decimal digit is a syntax error with value 0; a value that does not fit is a range
error with value `2^64 - 1`. -/
def parseUintLoop (n : Nat) : List Char → Nat × Option NumError
  | [] => (n, none)
  | c :: rest =>
    if c.toNat < 48 ∨ 57 < c.toNat then (0, some .ErrSyntax)
    else
      let d := c.toNat - 48
      if n ≥ (2 ^ 64 - 1) / 10 + 1 then (2 ^ 64 - 1, some .ErrRange)
      else
        let n10 := n * 10
        let n1 := (n10 + d) % 2 ^ 64
        if n1 < n10 ∨ n1 > 2 ^ 64 - 1 then (2 ^ 64 - 1, some .ErrRange)
        else parseUintLoop n1 rest

/-- Go `strconv.ParseUint(s, 10, 64)`. -/
def ParseUint (s : List Char) : Nat × Option NumError :=
  if s = [] then (0, some .ErrSyntax) else parseUintLoop 0 s

/-- Go `strconv.ParseInt(s, 10, 64)`: the value and the error. -/
def ParseInt (s : List Char) : Int × Option NumError :=
  if s = [] then (0, some .ErrSyntax)
  else
    let signed : Bool × List Char :=
      match s with
      | '+' :: rest => (false, rest)
      | '-' :: rest => (true, rest)
      | _ => (false, s)
    let neg := signed.1
    let out := ParseUint signed.2
    let un := out.1
    if out.2 = some .ErrSyntax then (0, out.2)
    else
      let cutoff : Nat := 2 ^ 63
      if !neg && decide (un ≥ cutoff) then ((cutoff : Int) - 1, some .ErrRange)
      else if neg && decide (un > cutoff) then (-(cutoff : Int), some .ErrRange)
      else (if neg then -(un : Int) else (un : Int), none)

/-- Go `ParseDecimalInt`. -/
def ParseDecimalInt (s : String) : Int × Option NumError :=
  ParseInt s.data

/-- The number that a list of decimal digits denotes when read from the left, `acc` being
the number read so far. -/
def digitsValue (acc : Nat) : List Char → Nat
  | [] => acc
  | c :: rest => digitsValue (acc * 10 + (c.toNat - 48)) rest

/-- Every character of the list is one of the decimal digits `0` to `9`. -/
def IsDigits (l : List Char) : Prop := ∀ c ∈ l, 48 ≤ c.toNat ∧ c.toNat ≤ 57

/-! ## http.go -/

/-- Go `m[name]` on a `prometheus.Labels` map: the empty string when the key is absent. -/
def Labels.value (l : Labels) (name : String) : String :=
  match l.lookup name with
  | some v => v
  | none => ""

/-- Go struct `httpHandlerMetric`. -/
structure httpHandlerMetric where
  labels : Labels
deriving DecidableEq, Repr

/-- Go `NewHTTPHandlerMetric`, with the function `strings.ToLower` of the Go library as
the parameter `ToLower`. -/
def NewHTTPHandlerMetricUsing (ToLower : String → String) (method handler : String) :
    httpHandlerMetric :=
  { labels := [("method", ToLower method), ("handler", ToLower handler)] }

/-- Go `NewHTTPHandlerMetric`, evaluated with `toLower`. -/
def NewHTTPHandlerMetric (method handler : String) : httpHandlerMetric :=
  NewHTTPHandlerMetricUsing toLower method handler

/-- Go `httpMetric.WithHandler`. -/
def httpMetric.WithHandler (method handler : String) : httpHandlerMetric :=
  NewHTTPHandlerMetric method handler

/-- Go `httpHandlerMetric.IncInFlight`. -/
def httpHandlerMetric.IncInFlight (m : httpHandlerMetric) (r : Registry) : Registry :=
  r.gaugeInc ⟨"http_requests_in_flight", m.labels⟩

/-- Go `httpHandlerMetric.DecInFlight`. -/
def httpHandlerMetric.DecInFlight (m : httpHandlerMetric) (r : Registry) : Registry :=
  r.gaugeDec ⟨"http_requests_in_flight", m.labels⟩

/-- Go `httpHandlerMetric.Inc`. -/
def httpHandlerMetric.Inc (m : httpHandlerMetric) (statusCode : Int) (r : Registry) :
    Registry :=
  r.counterInc ⟨"http_requests_total",
    [("method", m.labels.value "method"), ("handler", m.labels.value "handler"),
     ("code", FormatDecimalInt statusCode)]⟩

/-- Go `httpHandlerMetric.ObserveRequestSize`. -/
def httpHandlerMetric.ObserveRequestSize (m : httpHandlerMetric) (sizeInBytes : Int)
    (r : Registry) : Registry :=
  r.observe ⟨"http_requests_size_bytes", m.labels⟩ sizeInBytes

/-- Go `httpHandlerMetric.ObserveResponseSize`. -/
def httpHandlerMetric.ObserveResponseSize (m : httpHandlerMetric) (sizeInBytes : Int)
    (r : Registry) : Registry :=
  r.observe ⟨"http_responses_size_bytes", m.labels⟩ sizeInBytes

/-- Go `httpHandlerMetric.ObserveDuration`. -/
def httpHandlerMetric.ObserveDuration (m : httpHandlerMetric) (duration : Int)
    (r : Registry) : Registry :=
  r.observe ⟨"http_requests_duration_seconds", m.labels⟩ duration

/-! ## cache.go -/

/-- Go constant `success`. -/
def success : String := "success"

/-- Go constant `failure`. -/
def failure : String := "failure"

/-- Go struct `CacheMetrics`. -/
structure CacheMetrics where
  cacheName : String
deriving DecidableEq, Repr

/-- Go `NewCacheMetrics`. -/
def NewCacheMetrics (cacheName : String) : CacheMetrics :=
  { cacheName := cacheName }

/-- Go `CacheMetrics.IncGet`. -/
def CacheMetrics.IncGet (c : CacheMetrics) (err : Error) (r : Registry) : Registry :=
  if err.isSome then r.counterInc ⟨"cache_misses_total", [("cache_name", c.cacheName)]⟩
  else r.counterInc ⟨"cache_hits_total", [("cache_name", c.cacheName)]⟩

/-- Go `CacheMetrics.IncSet`. -/
def CacheMetrics.IncSet (c : CacheMetrics) (err : Error) (r : Registry) : Registry :=
  let result := if err.isSome then failure else success
  r.counterInc ⟨"cache_sets_total", [("cache_name", c.cacheName), ("result", result)]⟩

/-! ## search.go -/

/-- Go struct `SearchMetrics`. -/
structure SearchMetrics where
  providerName : String
deriving DecidableEq, Repr

/-- Go `NewSearchMetrics`. -/
def NewSearchMetrics (providerName : String) : SearchMetrics :=
  { providerName := providerName }

/-- Go `SearchMetrics.BeginCreateIndex`, called at time `now`, with the function
`strings.ToLower` of the Go library as the parameter `ToLower`: the registry after the
increment of the gauge, and the returned closure, which takes the code and the time
of its call. -/
def SearchMetrics.BeginCreateIndexUsing (ToLower : String → String) (m : SearchMetrics)
    (index : String) (now : Int) (r : Registry) :
    Registry × (String → Int → Registry → Registry) :=
  let start := now
  let index := ToLower index
  let r1 := r.gaugeInc
    ⟨"search_create_index_in_flight", [("provider", m.providerName), ("index", index)]⟩
  (r1, fun code now1 r2 =>
    let code := ToLower code
    let r3 := r2.gaugeDec
      ⟨"search_create_index_in_flight", [("provider", m.providerName), ("index", index)]⟩
    let r4 := r3.counterInc ⟨"search_create_index_total",
      [("provider", m.providerName), ("index", index), ("code", code)]⟩
    r4.observe ⟨"search_create_index_duration_seconds",
      [("provider", m.providerName), ("index", index), ("code", code)]⟩ (now1 - start))

/-- Go `SearchMetrics.BeginCreateIndex`, evaluated with `toLower`. -/
def SearchMetrics.BeginCreateIndex (m : SearchMetrics) (index : String) (now : Int)
    (r : Registry) : Registry × (String → Int → Registry → Registry) :=
  SearchMetrics.BeginCreateIndexUsing toLower m index now r

/-- Go `SearchMetrics.BeginIndexDocument`, called at time `now`, with the function
`strings.ToLower` of the Go library as the parameter `ToLower`. -/
def SearchMetrics.BeginIndexDocumentUsing (ToLower : String → String) (m : SearchMetrics)
    (index : String) (now : Int)
    (r : Registry) : Registry × (String → Int → Registry → Registry) :=
  let start := now
  let index := ToLower index
  let r1 := r.gaugeInc
    ⟨"search_index_document_in_flight", [("provider", m.providerName), ("index", index)]⟩
  (r1, fun code now1 r2 =>
    let code := ToLower code
    let r3 := r2.gaugeDec ⟨"search_index_document_in_flight",
      [("provider", m.providerName), ("index", index)]⟩
    let r4 := r3.counterInc ⟨"search_index_document_total",
      [("provider", m.providerName), ("index", index), ("code", code)]⟩
    r4.observe ⟨"search_index_document_duration_seconds",
      [("provider", m.providerName), ("index", index), ("code", code)]⟩ (now1 - start))

/-- Go `SearchMetrics.BeginIndexDocument`, evaluated with `toLower`. -/
def SearchMetrics.BeginIndexDocument (m : SearchMetrics) (index : String) (now : Int)
    (r : Registry) : Registry × (String → Int → Registry → Registry) :=
  SearchMetrics.BeginIndexDocumentUsing toLower m index now r

/-- Go `SearchMetrics.BeginGetDocument`, called at time `now`, with the function
`strings.ToLower` of the Go library as the parameter `ToLower`. -/
def SearchMetrics.BeginGetDocumentUsing (ToLower : String → String) (m : SearchMetrics)
    (index : String) (now : Int)
    (r : Registry) : Registry × (String → Int → Registry → Registry) :=
  let start := now
  let index := ToLower index
  let r1 := r.gaugeInc
    ⟨"search_get_document_in_flight", [("provider", m.providerName), ("index", index)]⟩
  (r1, fun code now1 r2 =>
    let code := ToLower code
    let r3 := r2.gaugeDec ⟨"search_get_document_in_flight",
      [("provider", m.providerName), ("index", index)]⟩
    let r4 := r3.counterInc ⟨"search_get_document_total",
      [("provider", m.providerName), ("index", index), ("code", code)]⟩
    r4.observe ⟨"search_get_document_duration_seconds",
      [("provider", m.providerName), ("index", index), ("code", code)]⟩ (now1 - start))

/-- Go `SearchMetrics.BeginGetDocument`, evaluated with `toLower`. -/
def SearchMetrics.BeginGetDocument (m : SearchMetrics) (index : String) (now : Int)
    (r : Registry) : Registry × (String → Int → Registry → Registry) :=
  SearchMetrics.BeginGetDocumentUsing toLower m index now r

/-- Go `a < b` on strings, as a comparison of the character lists: the lexicographic
order of the bytes, which for UTF-8 is that of the code points. -/
def charsLess : List Char → List Char → Bool
  | _, [] => false
  | [], _ :: _ => true
  | a :: as, b :: bs =>
    if a.toNat < b.toNat then true
    else if b.toNat < a.toNat then false
    else charsLess as bs

/-- Go `a < b` on strings. -/
def stringLess (a b : String) : Bool := charsLess a.data b.data

/-- Go `sort.Strings`: the strings in increasing order. The order being total, the
result does not depend on the sorting algorithm; it is computed by insertion. -/
def sortStrings (x : List String) : List String :=
  x.insertionSort (fun a b => stringLess b a = false)

/-- Go `strings.Join`. -/
def stringsJoin (elems : List String) (sep : String) : String :=
  match elems with
  | [] => ""
  | e :: rest => rest.foldl (fun acc s => acc ++ sep ++ s) e

/-- Memory of string arrays, the backing arrays of the Go slices of strings: the array
at address `a` is the entry `a` of the list. -/
abbrev Heap := List (List String)

/-- Go slice of strings: the address of its backing array, the offset of its first
element in that array, and its length. -/
structure Slice where
  array : Nat
  off : Nat
  len : Nat
deriving DecidableEq, Repr

/-- Go `s[i]`, read. -/
def Heap.index (h : Heap) (s : Slice) (i : Nat) : String :=
  (h.getD s.array []).getD (s.off + i) ""

/-- Go `s[i] = v`. -/
def Heap.setIndex (h : Heap) (s : Slice) (i : Nat) (v : String) : Heap :=
  h.set s.array ((h.getD s.array []).set (s.off + i) v)

/-- The elements of a slice, `s[0]` to `s[len(s)-1]`. -/
def Heap.read (h : Heap) (s : Slice) : List String :=
  (List.range s.len).map (Heap.index h s)

/-- Go `make([]string, n)`: a new array of `n` empty strings at an address not in use,
and the slice of all of it. -/
def Heap.make (h : Heap) (n : Nat) : Heap × Slice :=
  (h ++ [List.replicate n ""], ⟨h.length, 0, n⟩)

/-- Go `sort.Strings(s)`: the elements of the slice are sorted in place, in its backing
array. -/
def Heap.sortStrings (h : Heap) (s : Slice) : Heap :=
  h.set s.array
    ((h.getD s.array []).take s.off ++ Prom.sortStrings (Heap.read h s) ++
      (h.getD s.array []).drop (s.off + s.len))

/-- Go `strFromSlice`, statement by statement over the memory, with the function
`strings.ToLower` of the Go library as the parameter `ToLower`: the memory at the
return and the string returned. Iteration `i` of the loop reads `slice[i]` and writes
`result[i]`. -/
def Heap.strFromSlice (ToLower : String → String) (h : Heap) (slice : Slice) :
    Heap × String :=
  let made := Heap.make h slice.len
  let h1 := made.1
  let result := made.2
  let h2 := (List.range slice.len).foldl
    (fun hh i => Heap.setIndex hh result i (ToLower (Heap.index hh slice i))) h1
  let h3 := Heap.sortStrings h2 result
  (h3, stringsJoin (Heap.read h3 result) ",")

/-- Go `strFromSlice`, the string returned as a function of the elements of the
argument; `Heap.strFromSlice` is the function over the memory, and it returns this
string (`heap_strFromSlice_eq`). -/
def strFromSliceUsing (ToLower : String → String) (slice : List String) : String :=
  let result := slice.map ToLower
  let result := sortStrings result
  stringsJoin result ","

/-- Go `strFromSlice`, evaluated with `toLower`. -/
def strFromSlice (slice : List String) : String :=
  strFromSliceUsing toLower slice

/-- Go `SearchMetrics.BeginSearchDocuments`, called at time `now` with a slice of the
elements `indexes`, with the function `strings.ToLower` of the Go library as the
parameter `ToLower`. -/
def SearchMetrics.BeginSearchDocumentsUsing (ToLower : String → String)
    (m : SearchMetrics) (indexes : List String)
    (now : Int) (r : Registry) : Registry × (String → Int → Registry → Registry) :=
  let indexesStr := strFromSliceUsing ToLower indexes
  let start := now
  let r1 := r.gaugeInc ⟨"search_query_documents_in_flight",
    [("provider", m.providerName), ("index", indexesStr)]⟩
  (r1, fun code now1 r2 =>
    let code := ToLower code
    let r3 := r2.gaugeDec ⟨"search_query_documents_in_flight",
      [("provider", m.providerName), ("index", indexesStr)]⟩
    let r4 := r3.counterInc ⟨"search_query_documents_total",
      [("provider", m.providerName), ("index", indexesStr), ("code", code)]⟩
    r4.observe ⟨"search_query_documents_duration_seconds",
      [("provider", m.providerName), ("index", indexesStr), ("code", code)]⟩
      (now1 - start))

/-- Go `SearchMetrics.BeginSearchDocuments`, evaluated with `toLower`. -/
def SearchMetrics.BeginSearchDocuments (m : SearchMetrics) (indexes : List String)
    (now : Int) (r : Registry) : Registry × (String → Int → Registry → Registry) :=
  SearchMetrics.BeginSearchDocumentsUsing toLower m indexes now r

/-- Go `SearchMetrics.BeginPointInTimeRequest`, called at time `now`, with the function
`strings.ToLower` of the Go library as the parameter `ToLower`. -/
def SearchMetrics.BeginPointInTimeRequestUsing (ToLower : String → String) (m : SearchMetrics)
    (operation : String)
    (now : Int) (r : Registry) : Registry × (String → Int → Registry → Registry) :=
  let start := now
  let operation := ToLower operation
  let r1 := r.gaugeInc ⟨"search_point_in_time_requests_in_flight",
    [("provider", m.providerName), ("operation", operation)]⟩
  (r1, fun code now1 r2 =>
    let code := ToLower code
    let r3 := r2.gaugeDec ⟨"search_point_in_time_requests_in_flight",
      [("provider", m.providerName), ("operation", operation)]⟩
    let r4 := r3.counterInc ⟨"search_point_in_time_requests_total",
      [("provider", m.providerName), ("operation", operation), ("code", code)]⟩
    r4.observe ⟨"search_point_in_time_request_duration_seconds",
      [("provider", m.providerName), ("operation", operation), ("code", code)]⟩
      (now1 - start))

/-- Go `SearchMetrics.BeginPointInTimeRequest`, evaluated with `toLower`. -/
def SearchMetrics.BeginPointInTimeRequest (m : SearchMetrics) (operation : String)
    (now : Int) (r : Registry) : Registry × (String → Int → Registry → Registry) :=
  SearchMetrics.BeginPointInTimeRequestUsing toLower m operation now r

/-! ## db_stats.go -/

/-- Go `time.Duration` as `refreshDBStatsMetricFunc` uses it: the length in nanoseconds,
and `Seconds`, which stands for the float64 that the method `Seconds()` returns
(50333291 ns give 0.050333291). The gauges of this development hold whole numbers, so
that value is not computed from the nanoseconds: the duration carries it, as the value
the gauge is set to. -/
structure Duration where
  Nanoseconds : Int
  Seconds : Int
deriving DecidableEq, Repr

/-- Go `sql.DBStats`. -/
structure DBStats where
  MaxOpenConnections : Int
  OpenConnections : Int
  InUse : Int
  Idle : Int
  WaitCount : Int
  WaitDuration : Duration
  MaxIdleClosed : Int
  MaxLifetimeClosed : Int
deriving DecidableEq, Repr

/-- A live `sql.DB`: what `db.Stats()` returns at a given time. -/
structure DB where
  Stats : Int → DBStats

/-- Go `refreshDBStatsMetricFunc`: the returned closure, run at time `now`. -/
def refreshDBStatsMetricFunc (db : DB) (name : String) : Int → Registry → Registry :=
  let labels : Labels := [("database", name)]
  fun now r =>
    let stats := db.Stats now
    let r1 := r.gaugeSet ⟨"database_stats_max_open_connections", labels⟩
      stats.MaxOpenConnections
    let r2 := r1.gaugeSet ⟨"database_stats_open_connections", labels⟩ stats.OpenConnections
    let r3 := r2.gaugeSet ⟨"database_stats_in_use", labels⟩ stats.InUse
    let r4 := r3.gaugeSet ⟨"database_stats_idle", labels⟩ stats.Idle
    let r5 := r4.gaugeSet ⟨"database_stats_wait_count", labels⟩ stats.WaitCount
    let r6 := r5.gaugeSet ⟨"database_stats_wait_duration_in_seconds", labels⟩
      stats.WaitDuration.Seconds
    let r7 := r6.gaugeSet ⟨"database_stats_max_idle_closed", labels⟩ stats.MaxIdleClosed
    r7.gaugeSet ⟨"database_stats_max_lifetime_closed", labels⟩ stats.MaxLifetimeClosed

/-- One goroutine started by `startTick`: its ticker interval, the function it runs
on every tick, and whether the context it selects on has been cancelled. -/
structure Ticker where
  interval : Int
  tickFunc : Int → Registry → Registry
  cancelled : Bool

/-- The goroutines started by `startTick` so far, oldest first. -/
structure Runtime where
  tickers : List Ticker

/-- A `context.CancelFunc` returned by `startTick`: the position, in the runtime, of
the goroutine whose context it cancels. -/
abbrev CancelFunc := Nat

/-- Go `startTick`: starts one goroutine and returns its cancel function and a nil
error. -/
def startTick (tickFunc : Int → Registry → Registry) (interval : Int) (rt : Runtime) :
    Runtime × Option CancelFunc × Error :=
  (Runtime.mk (rt.tickers ++ [Ticker.mk interval tickFunc false]),
   some rt.tickers.length, none)

/-- Go `WatchDBStats`; a nil `db` is `none`, a nil cancel function is `none`. -/
def WatchDBStats (db : Option DB) (name : String) (refreshInterval : Int) (rt : Runtime) :
    Runtime × Option CancelFunc × Error :=
  match db with
  | none => (rt, none, some (.leaf "db is nil"))
  | some d =>
    if refreshInterval ≤ 0 then
      (rt, none, some (.leaf "refresh interval is less or equal to zero"))
    else
      let tickFunc := refreshDBStatsMetricFunc d name
      startTick tickFunc refreshInterval rt

/-- Where the goroutine started by `startTick` is: blocked in (or about to evaluate) the
`select`, inside a call of `tickFunc`, or returned. -/
inductive LoopPhase where
  | selecting : LoopPhase
  | running : LoopPhase
  | returned : LoopPhase
deriving DecidableEq, Repr

/-- The state of the goroutine started by `startTick` and of what it selects on:
`pending` says that a tick sits in the channel `timer.C`, which buffers one tick;
`cancelled` says that `ctx.Done()` is closed; `runs` counts the calls of `tickFunc`
started so far and `runsAfterCancel` those started after the cancel function was
invoked. -/
structure TickLoop where
  phase : LoopPhase
  pending : Bool
  cancelled : Bool
  runs : Nat
  runsAfterCancel : Nat
deriving DecidableEq, Repr

/-- The goroutine right after `startTick` returns: at the `select`, no tick delivered,
the context not cancelled. -/
def TickLoop.start : TickLoop := TickLoop.mk .selecting false false 0 0

/-- What can happen to the loop: the ticker delivers a tick, the caller invokes the
cancel function, the `select` takes the case `<-ctx.Done()`, the `select` takes the case
`<-timer.C`, the call of `tickFunc` returns. -/
inductive LoopEvent where
  | tick : LoopEvent
  | cancel : LoopEvent
  | selectDone : LoopEvent
  | selectTick : LoopEvent
  | finish : LoopEvent
deriving DecidableEq, Repr

/-- One step of the loop of `startTick`. A tick is buffered unless one is buffered
already or the ticker was stopped by the deferred `timer.Stop()`. A case of the `select`
is taken only when it is ready; when both are ready either may be taken, as a Go `select`
chooses among its ready cases. An event that cannot happen in the state leaves it
unchanged. -/
def TickLoop.step (s : TickLoop) : LoopEvent → TickLoop
  | .tick =>
    if s.phase = .returned then s
    else TickLoop.mk s.phase true s.cancelled s.runs s.runsAfterCancel
  | .cancel => TickLoop.mk s.phase s.pending true s.runs s.runsAfterCancel
  | .selectDone =>
    if s.phase = .selecting ∧ s.cancelled = true then
      TickLoop.mk .returned s.pending s.cancelled s.runs s.runsAfterCancel
    else s
  | .selectTick =>
    if s.phase = .selecting ∧ s.pending = true then
      TickLoop.mk .running false s.cancelled (s.runs + 1)
        (s.runsAfterCancel + (if s.cancelled = true then 1 else 0))
    else s
  | .finish =>
    if s.phase = .running then
      TickLoop.mk .selecting s.pending s.cancelled s.runs s.runsAfterCancel
    else s

/-- The loop after a sequence of events. -/
def TickLoop.exec (es : List LoopEvent) (s : TickLoop) : TickLoop :=
  es.foldl TickLoop.step s

/-- How many ticks the ticker delivered in a sequence of events. -/
def ticksDelivered : List LoopEvent → Nat
  | [] => 0
  | .tick :: es => ticksDelivered es + 1
  | _ :: es => ticksDelivered es

/-- A schedule in which `tickFunc` outlasts the interval: during each of `n` calls a
tick is delivered, and after the call the `select` takes that tick; then the last call
returns and the `select` takes `<-ctx.Done()`. -/
def overrunRuns : Nat → List LoopEvent
  | 0 => [.finish, .selectDone]
  | n + 1 => [.tick, .finish, .selectTick] ++ overrunRuns n

/-- A schedule with `n` calls of `tickFunc` started after cancel: the first tick starts
a call, cancel is invoked during it, then `overrunRuns n`. -/
def overrunSchedule (n : Nat) : List LoopEvent :=
  [.tick, .selectTick, .cancel] ++ overrunRuns n

/-! ## logs.go -/

/-- Go `logrus.Level`, an unsigned integer. -/
abbrev Level := Nat

/-- Go `logrus.PanicLevel`. -/
def PanicLevel : Level := 0

/-- Go `logrus.FatalLevel`. -/
def FatalLevel : Level := 1

/-- Go `logrus.ErrorLevel`. -/
def ErrorLevel : Level := 2

/-- Go `logrus.WarnLevel`. -/
def WarnLevel : Level := 3

/-- Go `logrus.InfoLevel`. -/
def InfoLevel : Level := 4

/-- Go `logrus.DebugLevel`. -/
def DebugLevel : Level := 5

/-- Go `logrus.TraceLevel`. -/
def TraceLevel : Level := 6

/-- Go `logrus.Level.String`. -/
def Level.String (lv : Level) : String :=
  match lv with
  | 0 => "panic"
  | 1 => "fatal"
  | 2 => "error"
  | 3 => "warning"
  | 4 => "info"
  | 5 => "debug"
  | 6 => "trace"
  | _ => "unknown"

/-- A value held in `logrus.Fields`, by its dynamic type; `other` stands for the
types that are none of string, integer, boolean and nil, by their printed form. -/
inductive FieldValue where
  | str (s : String) : FieldValue
  | int (i : Int) : FieldValue
  | bool (b : Bool) : FieldValue
  | null : FieldValue
  | other (repr : String) : FieldValue
deriving DecidableEq, Repr

/-- The parts of `logrus.Entry` read by the hook; `Data` lists the entries of the
field map, the first pair of a key being its entry. -/
structure Entry where
  Level : Level
  Data : List (String × FieldValue)
deriving DecidableEq, Repr

/-- Go `entry.Data[key].(string)`: the value and `ok`, as an option. -/
def Entry.stringField (entry : Entry) (key : String) : Option String :=
  match entry.Data.lookup key with
  | some (.str s) => some s
  | _ => none

/-- Go `defaultLogrusHookLevels`. -/
def defaultLogrusHookLevels : List Level :=
  [DebugLevel, InfoLevel, WarnLevel, ErrorLevel, FatalLevel, PanicLevel]

/-- Go `logrusMetricReporter.Inc`. -/
def logrusMetricReporter.Inc (lv : Level) (r : Registry) : Registry :=
  r.counterInc ⟨"logrus_logs_total", [("level", toLower lv.String)]⟩

/-- Go `logrusMetricReporter.IncHTTP`. -/
def logrusMetricReporter.IncHTTP (lv : Level) (method handler : String) (r : Registry) :
    Registry :=
  r.counterInc ⟨"http_logrus_logs_total",
    [("level", toLower lv.String), ("method", toLower method),
     ("handler", toLower handler)]⟩

/-- Go `logrusMetricReporter.IncRPC`. -/
def logrusMetricReporter.IncRPC (lv : Level) (grpcService grpcMethod : String)
    (r : Registry) : Registry :=
  r.counterInc ⟨"grpc_logrus_logs_total",
    [("level", toLower lv.String), ("grpc_service", toLower grpcService),
     ("grpc_method", toLower grpcMethod)]⟩

/-- Go `logrusHook.Levels`. -/
def logrusHook.Levels : List Level := defaultLogrusHookLevels

/-- Go `logrusHook.Fire` with the reporter made by `LogsMetrics.Hook`: the registry
after the call and the returned error. -/
def logrusHook.Fire (entry : Entry) (r : Registry) : Registry × Error :=
  let lv := entry.Level
  let r1 := logrusMetricReporter.Inc lv r
  let r2 :=
    match entry.stringField "grpc_service" with
    | some service =>
      match entry.stringField "grpc_method" with
      | some method => logrusMetricReporter.IncRPC lv service method r1
      | none => r1
    | none =>
      match entry.stringField "handler" with
      | some service =>
        match entry.stringField "method" with
        | some method => logrusMetricReporter.IncHTTP lv service method r1
        | none => r1
      | none => r1
  (r2, none)

/-! ## db.go -/

/-- The fields of `DBQueryMetrics` that are not pointers to package variables. -/
structure DBQueryMetrics where
  database : String
  method : String
  t : Int
  begin : Bool
deriving DecidableEq, Repr

/-- Go `NewDBQueryMetrics`, called at time `now`. -/
def NewDBQueryMetrics (database method : String) (now : Int) : DBQueryMetrics :=
  { database := database, method := method, t := now, begin := false }

/-- Go `DBQueryMetrics.label`. -/
def DBQueryMetrics.label (m : DBQueryMetrics) : Labels :=
  [("database", toLower m.database), ("method", toLower m.method)]

/-- Go `DBQueryMetrics.processed`. -/
def DBQueryMetrics.processed (m : DBQueryMetrics) (code : String) (r : Registry) :
    Registry :=
  let label := m.label ++ [("code", toLower code)]
  r.counterInc ⟨"database_queries_total", label⟩

/-- Go `DBQueryMetrics.incInFlight`. -/
def DBQueryMetrics.incInFlight (m : DBQueryMetrics) (r : Registry) : Registry :=
  r.gaugeInc ⟨"database_queries_in_flight", m.label⟩

/-- Go `DBQueryMetrics.decInFlight`. -/
def DBQueryMetrics.decInFlight (m : DBQueryMetrics) (r : Registry) : Registry :=
  r.gaugeDec ⟨"database_queries_in_flight", m.label⟩

/-- Go `DBQueryMetrics.observeProcessingTime`. -/
def DBQueryMetrics.observeProcessingTime (m : DBQueryMetrics) (t : Int) (r : Registry) :
    Registry :=
  r.observe ⟨"database_queries_duration_seconds", m.label⟩ t

/-- Go `DBQueryMetrics.Begin`, called at time `now`. -/
def DBQueryMetrics.Begin (m : DBQueryMetrics) (now : Int) (r : Registry) :
    DBQueryMetrics × Registry :=
  if m.begin then (m, r)
  else
    let m1 := { m with t := now }
    let r1 := m1.incInFlight r
    ({ m1 with begin := true }, r1)

/-- Go `DBQueryMetrics.End`. -/
def DBQueryMetrics.End (m : DBQueryMetrics) (r : Registry) : DBQueryMetrics × Registry :=
  if !m.begin then (m, r)
  else
    let r1 := m.decInFlight r
    ({ m with begin := false }, r1)

/-- Go `DBQueryMetrics.Processed`, called at time `now`. -/
def DBQueryMetrics.Processed (m : DBQueryMetrics) (code : String) (now : Int)
    (r : Registry) : Registry :=
  let r1 := m.processed code r
  m.observeProcessingTime (now - m.t) r1

/-- The usage given in the comment of `NewDBQueryMetrics`: `m.Begin()`, the deferred
`m.End()`, and `m.Processed(code)` before the function returns; the three calls run in
the order `Begin`, `Processed`, `End`, at the times `tBegin` and `tProcessed`. -/
def DBQueryMetrics.documentedUsage (m : DBQueryMetrics) (code : String)
    (tBegin tProcessed : Int) (r : Registry) : DBQueryMetrics × Registry :=
  let s1 := m.Begin tBegin r
  let r2 := s1.1.Processed code tProcessed s1.2
  s1.1.End r2

/-! ## s3.go -/

/-- Go struct `S3Metrics`. -/
structure S3Metrics where
  bucket : String
deriving DecidableEq, Repr

/-- Go `NewS3Metrics`. -/
def NewS3Metrics (bucket : String) : S3Metrics :=
  { bucket := bucket }

/-- Go struct `actionMetrics`; the two vectors are given by their metric names. -/
structure actionMetrics where
  total : String
  durationSecs : String
  bucket : String
  start : Int
deriving DecidableEq, Repr

/-- Go `actionMetrics.label`. -/
def actionMetrics.label (m : actionMetrics) : Labels :=
  [("bucket", toLower m.bucket)]

/-- Go `actionMetrics.labelWithCode`. -/
def actionMetrics.labelWithCode (m : actionMetrics) (code : String) : Labels :=
  m.label ++ [("code", toLower code)]

/-- Go `actionMetrics.begin`, called at time `now`. -/
def actionMetrics.begin (m : actionMetrics) (now : Int) : actionMetrics :=
  { m with start := now }

/-- Go `actionMetrics.end`, called at time `now`. -/
def actionMetrics.end' (m : actionMetrics) (code : String) (now : Int) (r : Registry) :
    Registry :=
  let r1 := r.counterInc ⟨m.total, m.labelWithCode code⟩
  r1.observe ⟨m.durationSecs, m.labelWithCode code⟩ (now - m.start)

/-- Go `S3Metrics.BeginPut`, called at time `now`: the returned closure. The struct
literal of the source sets `total` and `durationSecs` only, so `bucket` is the empty
string. -/
def S3Metrics.BeginPut (_m : S3Metrics) (now : Int) : String → Int → Registry → Registry :=
  let metric : actionMetrics :=
    actionMetrics.mk "s3_objects_put_total" "s3_objects_put_duration_seconds" "" 0
  let metric := metric.begin now
  metric.end'

/-- Go `S3Metrics.BeginGet`, called at time `now`: the returned closure. The struct
literal of the source sets `total` and `durationSecs` only, so `bucket` is the empty
string. -/
def S3Metrics.BeginGet (_m : S3Metrics) (now : Int) : String → Int → Registry → Registry :=
  let metric : actionMetrics :=
    actionMetrics.mk "s3_objects_get_total" "s3_objects_got_duration_seconds" "" 0
  let metric := metric.begin now
  metric.end'

/-! ## dynamodb.go -/

/-- Go struct `DynamoDBMetrics`. -/
structure DynamoDBMetrics where
  table : String
deriving DecidableEq, Repr

/-- Go `NewDynamoDBMetrics`. -/
def NewDynamoDBMetrics (table : String) : DynamoDBMetrics :=
  { table := table }

/-- Go struct `dynamoMetrics`; the two vectors are given by their metric names. -/
structure dynamoMetrics where
  total : String
  durationSecs : String
  table : String
  start : Int
deriving DecidableEq, Repr

/-- Go `dynamoMetrics.label`. -/
def dynamoMetrics.label (m : dynamoMetrics) : Labels :=
  [("table", toLower m.table)]

/-- Go `dynamoMetrics.labelWithCode`. -/
def dynamoMetrics.labelWithCode (m : dynamoMetrics) (code : String) : Labels :=
  m.label ++ [("code", toLower code)]

/-- Go `dynamoMetrics.begin`, called at time `now`. -/
def dynamoMetrics.begin (m : dynamoMetrics) (now : Int) : dynamoMetrics :=
  { m with start := now }

/-- Go `dynamoMetrics.end`, called at time `now`. -/
def dynamoMetrics.end' (m : dynamoMetrics) (code : String) (now : Int) (r : Registry) :
    Registry :=
  let r1 := r.counterInc ⟨m.total, m.labelWithCode code⟩
  r1.observe ⟨m.durationSecs, m.labelWithCode code⟩ (now - m.start)

/-- Go `DynamoDBMetrics.BeginPut`, called at time `now`: the returned closure. -/
def DynamoDBMetrics.BeginPut (m : DynamoDBMetrics) (now : Int) :
    String → Int → Registry → Registry :=
  let metric : dynamoMetrics :=
    dynamoMetrics.mk "dynamo_put_total" "dynamo_put_duration_seconds" m.table 0
  let metric := metric.begin now
  metric.end'

/-- Go `DynamoDBMetrics.BeginGet`, called at time `now`: the returned closure. -/
def DynamoDBMetrics.BeginGet (m : DynamoDBMetrics) (now : Int) :
    String → Int → Registry → Registry :=
  let metric : dynamoMetrics :=
    dynamoMetrics.mk "dynamo_get_total" "dynamo_get_duration_seconds" m.table 0
  let metric := metric.begin now
  metric.end'

/-! ## service.go -/

/-- Go constant `ActivityStarting`. -/
def ActivityStarting : String := "starting"

/-- Go constant `ActivityStopped`. -/
def ActivityStopped : String := "stopped"

/-- Go struct `serviceMetrics`. -/
structure serviceMetrics where
  daemon : String
deriving DecidableEq, Repr

/-- Go `NewServiceMetrics`. -/
def NewServiceMetrics (daemon : String) : serviceMetrics :=
  { daemon := daemon }

/-- Go `serviceMetrics.labels`. -/
def serviceMetrics.labels (m : serviceMetrics) : Labels :=
  [("daemon", toLower m.daemon)]

/-- Go `serviceMetrics.ServiceStarting`. -/
def serviceMetrics.ServiceStarting (m : serviceMetrics) (r : Registry) : Registry :=
  let labels := m.labels ++ [("activity", ActivityStarting)]
  r.counterInc ⟨"service_activities_total", labels⟩

/-- Go `serviceMetrics.ServiceStopped`. -/
def serviceMetrics.ServiceStopped (m : serviceMetrics) (r : Registry) : Registry :=
  let labels := m.labels ++ [("activity", ActivityStopped)]
  r.counterInc ⟨"service_activities_total", labels⟩

/-! ## rpc.go -/

/-- Go `codes.Code`, an unsigned integer. -/
abbrev Code := Nat

/-- Go `codes.Code.String`. -/
def Code.String (c : Code) : String :=
  match c with
  | 0 => "OK"
  | 1 => "Canceled"
  | 2 => "Unknown"
  | 3 => "InvalidArgument"
  | 4 => "DeadlineExceeded"
  | 5 => "NotFound"
  | 6 => "AlreadyExists"
  | 7 => "PermissionDenied"
  | 8 => "ResourceExhausted"
  | 9 => "FailedPrecondition"
  | 10 => "Aborted"
  | 11 => "OutOfRange"
  | 12 => "Unimplemented"
  | 13 => "Internal"
  | 14 => "Unavailable"
  | 15 => "DataLoss"
  | 16 => "Unauthenticated"
  | n => "Code(" ++ FormatDecimalInt n ++ ")"

/-- A non-nil error returned by a unary handler, as far as `status.FromError` inspects
it: an error that carries a gRPC status of some code, an error whose `GRPCStatus`
method returns nil, and an error without a gRPC status. -/
inductive HandlerError where
  | status (code : Code) (msg : String) : HandlerError
  | nilStatus (msg : String) : HandlerError
  | plain (e : GoError) : HandlerError

/-- Go `status.FromError(err)` followed by `Code()`: the code of the status derived
from the error; a nil error gives `OK`, an error without a status gives `Unknown`. -/
def statusCodeFromError : Option HandlerError → Code
  | none => 0
  | some (.status code _) => code
  | some (.nilStatus _) => 2
  | some (.plain _) => 2

/-- Go `strings.TrimPrefix(s, "/")`, on the characters of `s`. -/
def trimLeadingSlash : List Char → List Char
  | '/' :: rest => rest
  | s => s

/-- Go `strings.Index(s, "/")`, on the characters of `s`; `none` is the result -1. The
separator is one byte, so that cutting at this position in the characters is cutting
at the byte index in the bytes. -/
def indexSlash : List Char → Option Nat
  | [] => none
  | c :: rest => if c = '/' then some 0 else (indexSlash rest).map (fun i => i + 1)

/-- Go `grpcSplitMethodName`. -/
def grpcSplitMethodName (fullMethodName : String) : String × String :=
  let s := trimLeadingSlash fullMethodName.data
  match indexSlash s with
  | some i => (String.mk (s.take i), String.mk (s.drop (i + 1)))
  | none => ("unknown", String.mk s)

/-- Go struct `rpcReporter`, without the pointer to the package variables. -/
structure rpcReporter where
  serviceName : String
  methodName : String
  startTime : Int
deriving DecidableEq, Repr

/-- Go `newRPCReporter`, called at time `now`. -/
def newRPCReporter (grpcFullMethodName : String) (now : Int) : rpcReporter :=
  let split := grpcSplitMethodName grpcFullMethodName
  { serviceName := split.1, methodName := split.2, startTime := now }

/-- Go `rpcReporter.label`. -/
def rpcReporter.label (rep : rpcReporter) : Labels :=
  [("grpc_service", toLower rep.serviceName), ("grpc_method", toLower rep.methodName)]

/-- Go `rpcReporter.labelCode`. -/
def rpcReporter.labelCode (rep : rpcReporter) (code : Code) : Labels :=
  rep.label ++ [("grpc_code", toLower code.String)]

/-- Go `rpcReporter.since`, called at time `now`. -/
def rpcReporter.since (rep : rpcReporter) (now : Int) : Int :=
  now - rep.startTime

/-- Go `rpcReporter.IncInFlight`. -/
def rpcReporter.IncInFlight (rep : rpcReporter) (r : Registry) : Registry :=
  r.gaugeInc ⟨"grpc_unary_requests_in_flight", rep.label⟩

/-- Go `rpcReporter.DecInFlight`. -/
def rpcReporter.DecInFlight (rep : rpcReporter) (r : Registry) : Registry :=
  r.gaugeDec ⟨"grpc_unary_requests_in_flight", rep.label⟩

/-- Go `rpcReporter.Handled`, called at time `now`. -/
def rpcReporter.Handled (rep : rpcReporter) (code : Code) (now : Int) (r : Registry) :
    Registry :=
  let r1 := r.counterInc ⟨"grpc_unary_requests_total", rep.labelCode code⟩
  r1.observe ⟨"grpc_unary_requests_duration_seconds", rep.label⟩ (rep.since now)

/-- Go `RPCMetrics.UnaryServerInterceptor`: the returned interceptor, called at time
`now0` for the method `fullMethod` with a handler that returns. The handler, already
given its context and request, maps the registry it finds to the registry it leaves,
its response and its error; `now1` is the time at which it returns. The deferred
`DecInFlight` runs last. -/
def RPCMetrics.UnaryServerInterceptor {α : Type} (fullMethod : String)
    (handler : Registry → Registry × α × Option HandlerError) (now0 now1 : Int)
    (r : Registry) : Registry × α × Option HandlerError :=
  let reporter := newRPCReporter fullMethod now0
  let r1 := reporter.IncInFlight r
  let out := handler r1
  let resp := out.2.1
  let err := out.2.2
  let code := statusCodeFromError err
  let r2 := reporter.Handled code now1 out.1
  let r3 := reporter.DecInFlight r2
  (r3, resp, err)

/-! ## Concurrent callers -/

/-- One update of a single series, the unit that the metric types of the Prometheus
client carry out atomically: `Inc` and `Dec` of a gauge child, `Inc` of a counter child,
`Observe` of a histogram child, each after the look-up of the child in its vector. -/
inductive Update where
  | gaugeInc (k : SeriesKey) : Update
  | gaugeDec (k : SeriesKey) : Update
  | counterInc (k : SeriesKey) : Update
  | observe (k : SeriesKey) (x : Int) : Update
deriving DecidableEq, Repr

/-- The effect of one update on the registry. -/
def Update.apply : Update → Registry → Registry
  | .gaugeInc k, r => r.gaugeInc k
  | .gaugeDec k, r => r.gaugeDec k
  | .counterInc k, r => r.counterInc k
  | .observe k x, r => r.observe k x

/-- The effect of a sequence of updates, carried out one after the other. -/
def Update.run (us : List Update) (r : Registry) : Registry :=
  us.foldl (fun r u => u.apply r) r

/-- What one update adds to the gauge series `g`. -/
def Update.gaugeDelta (g : SeriesKey) : Update → Int
  | .gaugeInc k => if g = k then 1 else 0
  | .gaugeDec k => if g = k then -1 else 0
  | .counterInc _ => 0
  | .observe _ _ => 0

/-- The updates of a goroutine that calls `IncInFlight` and later `DecInFlight` on the
handler metric `m`, one call of the Prometheus client each: this sequence is a pair in
the sense of `IsInFlightPair` (`httpHandlerMetric.inFlightPair_isPair`). -/
def httpHandlerMetric.inFlightPair (m : httpHandlerMetric) : List Update :=
  [.gaugeInc ⟨"http_requests_in_flight", m.labels⟩,
   .gaugeDec ⟨"http_requests_in_flight", m.labels⟩]

/-- The updates of a goroutine that calls `BeginCreateIndex` at time `start` and the
returned function, with `code`, at time `finish`, one call of the Prometheus client
each; a pair in the sense of `IsInFlightPair`, as are the four sequences below. -/
def SearchMetrics.createIndexPair (m : SearchMetrics) (index code : String)
    (start finish : Int) : List Update :=
  [.gaugeInc ⟨"search_create_index_in_flight",
      [("provider", m.providerName), ("index", toLower index)]⟩,
   .gaugeDec ⟨"search_create_index_in_flight",
      [("provider", m.providerName), ("index", toLower index)]⟩,
   .counterInc ⟨"search_create_index_total",
      [("provider", m.providerName), ("index", toLower index), ("code", toLower code)]⟩,
   .observe ⟨"search_create_index_duration_seconds",
      [("provider", m.providerName), ("index", toLower index), ("code", toLower code)]⟩
      (finish - start)]

/-- The updates of a goroutine that calls `BeginIndexDocument` and the returned
function. -/
def SearchMetrics.indexDocumentPair (m : SearchMetrics) (index code : String)
    (start finish : Int) : List Update :=
  [.gaugeInc ⟨"search_index_document_in_flight",
      [("provider", m.providerName), ("index", toLower index)]⟩,
   .gaugeDec ⟨"search_index_document_in_flight",
      [("provider", m.providerName), ("index", toLower index)]⟩,
   .counterInc ⟨"search_index_document_total",
      [("provider", m.providerName), ("index", toLower index), ("code", toLower code)]⟩,
   .observe ⟨"search_index_document_duration_seconds",
      [("provider", m.providerName), ("index", toLower index), ("code", toLower code)]⟩
      (finish - start)]

/-- The updates of a goroutine that calls `BeginGetDocument` and the returned
function. -/
def SearchMetrics.getDocumentPair (m : SearchMetrics) (index code : String)
    (start finish : Int) : List Update :=
  [.gaugeInc ⟨"search_get_document_in_flight",
      [("provider", m.providerName), ("index", toLower index)]⟩,
   .gaugeDec ⟨"search_get_document_in_flight",
      [("provider", m.providerName), ("index", toLower index)]⟩,
   .counterInc ⟨"search_get_document_total",
      [("provider", m.providerName), ("index", toLower index), ("code", toLower code)]⟩,
   .observe ⟨"search_get_document_duration_seconds",
      [("provider", m.providerName), ("index", toLower index), ("code", toLower code)]⟩
      (finish - start)]

/-- The updates of a goroutine that calls `BeginSearchDocuments` and the returned
function. -/
def SearchMetrics.searchDocumentsPair (m : SearchMetrics) (indexes : List String)
    (code : String) (start finish : Int) : List Update :=
  [.gaugeInc ⟨"search_query_documents_in_flight",
      [("provider", m.providerName), ("index", strFromSlice indexes)]⟩,
   .gaugeDec ⟨"search_query_documents_in_flight",
      [("provider", m.providerName), ("index", strFromSlice indexes)]⟩,
   .counterInc ⟨"search_query_documents_total",
      [("provider", m.providerName), ("index", strFromSlice indexes),
       ("code", toLower code)]⟩,
   .observe ⟨"search_query_documents_duration_seconds",
      [("provider", m.providerName), ("index", strFromSlice indexes),
       ("code", toLower code)]⟩
      (finish - start)]

/-- The updates of a goroutine that calls `BeginPointInTimeRequest` and the returned
function. -/
def SearchMetrics.pointInTimePair (m : SearchMetrics) (operation code : String)
    (start finish : Int) : List Update :=
  [.gaugeInc ⟨"search_point_in_time_requests_in_flight",
      [("provider", m.providerName), ("operation", toLower operation)]⟩,
   .gaugeDec ⟨"search_point_in_time_requests_in_flight",
      [("provider", m.providerName), ("operation", toLower operation)]⟩,
   .counterInc ⟨"search_point_in_time_requests_total",
      [("provider", m.providerName), ("operation", toLower operation),
       ("code", toLower code)]⟩,
   .observe ⟨"search_point_in_time_request_duration_seconds",
      [("provider", m.providerName), ("operation", toLower operation),
       ("code", toLower code)]⟩
      (finish - start)]

/-- The goroutines considered. A goroutine is the sequence `t` of the series updates
that it carries out, and it runs one Begin/End pair of the code: carried out one after
the other from any registry, the updates of `t` give the registry that the code gives,
that is `DecInFlight` after `IncInFlight` of a handler metric, or a `Begin*` of the
search metrics, for any lowercasing function, followed by the function it returned. -/
inductive IsInFlightPair : List Update → Prop
  | http (m : httpHandlerMetric) (t : List Update)
      (h : ∀ r, Update.run t r = m.DecInFlight (m.IncInFlight r)) : IsInFlightPair t
  | createIndex (ToLower : String → String) (m : SearchMetrics) (index code : String)
      (start finish : Int) (t : List Update)
      (h : ∀ r, Update.run t r =
        (m.BeginCreateIndexUsing ToLower index start r).2 code finish
          (m.BeginCreateIndexUsing ToLower index start r).1) : IsInFlightPair t
  | indexDocument (ToLower : String → String) (m : SearchMetrics) (index code : String)
      (start finish : Int) (t : List Update)
      (h : ∀ r, Update.run t r =
        (m.BeginIndexDocumentUsing ToLower index start r).2 code finish
          (m.BeginIndexDocumentUsing ToLower index start r).1) : IsInFlightPair t
  | getDocument (ToLower : String → String) (m : SearchMetrics) (index code : String)
      (start finish : Int) (t : List Update)
      (h : ∀ r, Update.run t r =
        (m.BeginGetDocumentUsing ToLower index start r).2 code finish
          (m.BeginGetDocumentUsing ToLower index start r).1) : IsInFlightPair t
  | searchDocuments (ToLower : String → String) (m : SearchMetrics)
      (indexes : List String) (code : String) (start finish : Int) (t : List Update)
      (h : ∀ r, Update.run t r =
        (m.BeginSearchDocumentsUsing ToLower indexes start r).2 code finish
          (m.BeginSearchDocumentsUsing ToLower indexes start r).1) : IsInFlightPair t
  | pointInTime (ToLower : String → String) (m : SearchMetrics)
      (operation code : String) (start finish : Int) (t : List Update)
      (h : ∀ r, Update.run t r =
        (m.BeginPointInTimeRequestUsing ToLower operation start r).2 code finish
          (m.BeginPointInTimeRequestUsing ToLower operation start r).1) :
      IsInFlightPair t

/-- The schedules of goroutines that run concurrently: `Interleaving ts trace` says that
`trace` carries out every update of every goroutine of `ts` exactly once, the updates of
one goroutine in their order; at each step any goroutine that has an update left may be
the one that moves. -/
inductive Interleaving : List (List Update) → List Update → Prop
  | done (ts : List (List Update)) (h : ∀ t ∈ ts, t = []) : Interleaving ts []
  | step (ts1 ts2 : List (List Update)) (u : Update) (t trace : List Update)
      (h : Interleaving (ts1 ++ t :: ts2) trace) :
      Interleaving (ts1 ++ (u :: t) :: ts2) (u :: trace)

/-! ## The logger and its records -/

/-- Go `logrus.AllLevels`: the levels at which a logger emits. -/
def AllLevels : List Level :=
  [PanicLevel, FatalLevel, ErrorLevel, WarnLevel, InfoLevel, DebugLevel, TraceLevel]

/-- Go `logrus.LevelHooks.Fire` for a logger to which the hook of `LogsMetrics.Hook`
was added with `AddHook`: `AddHook` files the hook under the levels of `Levels()`, and
an emitted entry runs the hooks filed under its level. -/
def fireHooks (entry : Entry) (r : Registry) : Registry :=
  if entry.Level ∈ logrusHook.Levels then (logrusHook.Fire entry r).1 else r

/-- The entry carries an RPC context: string fields for the service name and for the
method name. -/
def Entry.hasRPCContext (entry : Entry) : Bool :=
  (entry.stringField "grpc_service").isSome && (entry.stringField "grpc_method").isSome

/-- The entry carries an HTTP context: string fields for the method and for the
handler. -/
def Entry.hasHTTPContext (entry : Entry) : Bool :=
  (entry.stringField "method").isSome && (entry.stringField "handler").isSome

/-- The sum of the values of all the series of the counter vector `name`. -/
def Registry.counterTotal (r : Registry) (name : String) : Nat :=
  ((r.counters.filter (fun p => p.1.name = name)).map Prod.snd).sum

/-! ## Operations of the adapters -/

/-- One call of an operation of an adapter, with its receiver and its arguments. For
a closure returned by a `Begin*` method, `start` is the time of the `Begin*` call and
`now` the time of the call of the closure. -/
inductive AdapterOp where
  | workerBegin (m : WorkerMetrics) (now : Int) : AdapterOp
  | workerEnd (m : WorkerMetrics) (code : String) (now : Int) : AdapterOp
  | workerIncDeadLetter (m : WorkerMetrics) : AdapterOp
  | dbBegin (m : DBQueryMetrics) (now : Int) : AdapterOp
  | dbEnd (m : DBQueryMetrics) : AdapterOp
  | dbProcessed (m : DBQueryMetrics) (code : String) (now : Int) : AdapterOp
  | cacheIncGet (c : CacheMetrics) (err : Error) : AdapterOp
  | cacheIncSet (c : CacheMetrics) (err : Error) : AdapterOp
  | httpInc (m : httpHandlerMetric) (statusCode : Int) : AdapterOp
  | s3PutEnd (m : S3Metrics) (start : Int) (code : String) (now : Int) : AdapterOp
  | s3GetEnd (m : S3Metrics) (start : Int) (code : String) (now : Int) : AdapterOp
  | dynamoPutEnd (m : DynamoDBMetrics) (start : Int) (code : String) (now : Int) :
      AdapterOp
  | dynamoGetEnd (m : DynamoDBMetrics) (start : Int) (code : String) (now : Int) :
      AdapterOp
  | searchCreateIndexEnd (m : SearchMetrics) (index : String) (start : Int)
      (code : String) (now : Int) : AdapterOp
  | searchIndexDocumentEnd (m : SearchMetrics) (index : String) (start : Int)
      (code : String) (now : Int) : AdapterOp
  | searchGetDocumentEnd (m : SearchMetrics) (index : String) (start : Int)
      (code : String) (now : Int) : AdapterOp
  | searchSearchDocumentsEnd (m : SearchMetrics) (indexes : List String) (start : Int)
      (code : String) (now : Int) : AdapterOp
  | searchPointInTimeEnd (m : SearchMetrics) (operation : String) (start : Int)
      (code : String) (now : Int) : AdapterOp
  | apiEnd (a : APICallMetrics) (start : Int) (err : Error) (now : Int) : AdapterOp
  | serviceStarting (m : serviceMetrics) : AdapterOp
  | serviceStopped (m : serviceMetrics) : AdapterOp
  | fire (entry : Entry) : AdapterOp

/-- The effect of one call on the registry. The closure returned by a `Begin*`
method of `SearchMetrics` or `APICallMetrics` does not depend on the registry on
which `Begin*` ran. -/
def AdapterOp.apply (r : Registry) : AdapterOp → Registry
  | .workerBegin m now => (m.Begin now r).2
  | .workerEnd m code now => (m.End code now r).2
  | .workerIncDeadLetter m => m.IncDeadLetter r
  | .dbBegin m now => (m.Begin now r).2
  | .dbEnd m => (m.End r).2
  | .dbProcessed m code now => m.Processed code now r
  | .cacheIncGet c err => c.IncGet err r
  | .cacheIncSet c err => c.IncSet err r
  | .httpInc m statusCode => m.Inc statusCode r
  | .s3PutEnd m start code now => m.BeginPut start code now r
  | .s3GetEnd m start code now => m.BeginGet start code now r
  | .dynamoPutEnd m start code now => m.BeginPut start code now r
  | .dynamoGetEnd m start code now => m.BeginGet start code now r
  | .searchCreateIndexEnd m index start code now =>
    (m.BeginCreateIndex index start r).2 code now r
  | .searchIndexDocumentEnd m index start code now =>
    (m.BeginIndexDocument index start r).2 code now r
  | .searchGetDocumentEnd m index start code now =>
    (m.BeginGetDocument index start r).2 code now r
  | .searchSearchDocumentsEnd m indexes start code now =>
    (m.BeginSearchDocuments indexes start r).2 code now r
  | .searchPointInTimeEnd m operation start code now =>
    (m.BeginPointInTimeRequest operation start r).2 code now r
  | .apiEnd a start err now => (a.Begin start r).2 err now r
  | .serviceStarting m => m.ServiceStarting r
  | .serviceStopped m => m.ServiceStopped r
  | .fire entry => (logrusHook.Fire entry r).1

/-- The effect of a sequence of calls made one after another. -/
def AdapterOp.run (r : Registry) (ops : List AdapterOp) : Registry :=
  ops.foldl AdapterOp.apply r

/-- A unary handler that leaves the registry as it is and returns the response `pong`
with an error of status `NotFound`. -/
def notFoundHandler (r : Registry) : Registry × String × Option HandlerError :=
  (r, "pong", some (.status 5 "no such order"))

/-- The handler metric of the scenario with three concurrent requests. -/
def sampleHandler : httpHandlerMetric := NewHTTPHandlerMetric "GET" "/orders"

/-- Three goroutines, each serving one request on the handler of the scenario. -/
def sampleRequests : List (List Update) :=
  [sampleHandler.inFlightPair, sampleHandler.inFlightPair, sampleHandler.inFlightPair]

/-- One schedule of the three requests: the second starts before the first ends, the
third starts before the second ends. -/
def sampleSchedule : List Update :=
  [.gaugeInc ⟨"http_requests_in_flight", sampleHandler.labels⟩,
   .gaugeInc ⟨"http_requests_in_flight", sampleHandler.labels⟩,
   .gaugeDec ⟨"http_requests_in_flight", sampleHandler.labels⟩,
   .gaugeInc ⟨"http_requests_in_flight", sampleHandler.labels⟩,
   .gaugeDec ⟨"http_requests_in_flight", sampleHandler.labels⟩,
   .gaugeDec ⟨"http_requests_in_flight", sampleHandler.labels⟩]

/-- A log entry at level info with an HTTP context only. -/
def httpEntry : Entry :=
  { Level := InfoLevel,
    Data := [("method", .str "GET"), ("handler", .str "/orders")] }

/-- A log entry at level info with a service name, no method name, and an HTTP
context. -/
def halfRPCEntry : Entry :=
  { Level := InfoLevel,
    Data := [("grpc_service", .str "orders"), ("method", .str "GET"),
      ("handler", .str "/orders")] }

/-- A log entry at level info that carries both an RPC context and an HTTP
context. -/
def rpcEntry : Entry :=
  { Level := InfoLevel,
    Data := [("grpc_service", .str "orders"), ("grpc_method", .str "get"),
      ("method", .str "GET"), ("handler", .str "/orders")] }

/-- A database whose pool statistics never change: 10 connections allowed, 4 open,
3 in use, 1 idle. -/
def sampleDB : DB :=
  DB.mk (fun _ => DBStats.mk 10 4 3 1 0 (Duration.mk 0 0) 0 0)

end Prom

/-! ## internal/monitoring/metrics.go -/

namespace Monitoring

open Prom

/-- Go struct `APIRequestMetric`. -/
structure APIRequestMetric where
  id : String
  start : Int
deriving DecidableEq, Repr

/-- Go `NewAPIRequestMetric`, called at time `now`; `%d` prints like
`strconv.FormatInt(id, 10)`. -/
def NewAPIRequestMetric (id : Int) (now : Int) : APIRequestMetric :=
  { id := FormatDecimalInt id, start := now }

/-- Go `APIRequestMetric.Begin`: the registry after the increment of the gauge, and
the returned closure, which takes the time of its call. -/
def APIRequestMetric.Begin (m : APIRequestMetric) (r : Registry) :
    Registry × (Int → Registry → Registry) :=
  let r1 := r.gaugeInc ⟨"api_requests_in_flight", [("ID", m.id)]⟩
  (r1, fun now r2 =>
    let r3 := r2.gaugeDec ⟨"api_requests_in_flight", [("ID", m.id)]⟩
    r3.observe ⟨"api_request_duration_seconds", [("ID", m.id)]⟩ (now - m.start))

end Monitoring

/-! # Properties -/

namespace Prom

/-! ## Reading a series after an update -/

theorem Series.read_update_same {α : Type} (d : α) (f : α → α) (k : SeriesKey)
    (s : Series α) : Series.read d k (Series.update d f k s) = f (Series.read d k s) := by
  induction s with
  | nil => simp [Series.read, Series.update]
  | cons p rest ih =>
    obtain ⟨k', v⟩ := p
    by_cases h : k' = k
    · simp [Series.read, Series.update, h]
    · simp [Series.read, Series.update, h, ih]

theorem Series.read_update_ne {α : Type} (d : α) (f : α → α) {k k' : SeriesKey}
    (hne : k' ≠ k) (s : Series α) :
    Series.read d k' (Series.update d f k s) = Series.read d k' s := by
  induction s with
  | nil => simp [Series.read, Series.update, Ne.symm hne]
  | cons p rest ih =>
    obtain ⟨k1, v⟩ := p
    by_cases h : k1 = k
    · subst h
      simp [Series.read, Series.update, Ne.symm hne]
    · by_cases h1 : k1 = k'
      · subst h1
        simp [Series.read, Series.update, h]
      · simp [Series.read, Series.update, h, h1, ih]

theorem Registry.gauge_gaugeInc (r : Registry) (k k' : SeriesKey) :
    (r.gaugeInc k).gauge k' = if k' = k then r.gauge k' + 1 else r.gauge k' := by
  by_cases h : k' = k
  · subst h
    simp [Registry.gauge, Registry.gaugeInc, Series.read_update_same]
  · simp [Registry.gauge, Registry.gaugeInc, Series.read_update_ne _ _ h, h]

theorem Registry.gauge_gaugeDec (r : Registry) (k k' : SeriesKey) :
    (r.gaugeDec k).gauge k' = if k' = k then r.gauge k' - 1 else r.gauge k' := by
  by_cases h : k' = k
  · subst h
    simp [Registry.gauge, Registry.gaugeDec, Series.read_update_same]
  · simp [Registry.gauge, Registry.gaugeDec, Series.read_update_ne _ _ h, h]

theorem Registry.gauge_gaugeSet (r : Registry) (k k' : SeriesKey) (x : Int) :
    (r.gaugeSet k x).gauge k' = if k' = k then x else r.gauge k' := by
  by_cases h : k' = k
  · subst h
    simp [Registry.gauge, Registry.gaugeSet, Series.read_update_same]
  · simp [Registry.gauge, Registry.gaugeSet, Series.read_update_ne _ _ h, h]

theorem Registry.counter_counterInc (r : Registry) (k k' : SeriesKey) :
    (r.counterInc k).counter k' = if k' = k then r.counter k' + 1 else r.counter k' := by
  by_cases h : k' = k
  · subst h
    simp [Registry.counter, Registry.counterInc, Series.read_update_same]
  · simp [Registry.counter, Registry.counterInc, Series.read_update_ne _ _ h, h]

theorem Registry.histogram_observe (r : Registry) (k k' : SeriesKey) (x : Int) :
    (r.observe k x).histogram k' =
      if k' = k then r.histogram k' ++ [x] else r.histogram k' := by
  by_cases h : k' = k
  · subst h
    simp [Registry.histogram, Registry.observe, Series.read_update_same]
  · simp [Registry.histogram, Registry.observe, Series.read_update_ne _ _ h, h]

@[simp]
theorem Registry.counter_gaugeInc (r : Registry) (k k' : SeriesKey) :
    (r.gaugeInc k).counter k' = r.counter k' := rfl

@[simp]
theorem Registry.counter_gaugeDec (r : Registry) (k k' : SeriesKey) :
    (r.gaugeDec k).counter k' = r.counter k' := rfl

@[simp]
theorem Registry.counter_gaugeSet (r : Registry) (k k' : SeriesKey) (x : Int) :
    (r.gaugeSet k x).counter k' = r.counter k' := rfl

@[simp]
theorem Registry.counter_observe (r : Registry) (k k' : SeriesKey) (x : Int) :
    (r.observe k x).counter k' = r.counter k' := rfl

@[simp]
theorem Registry.gauge_counterInc (r : Registry) (k k' : SeriesKey) :
    (r.counterInc k).gauge k' = r.gauge k' := rfl

@[simp]
theorem Registry.gauge_observe (r : Registry) (k k' : SeriesKey) (x : Int) :
    (r.observe k x).gauge k' = r.gauge k' := rfl

@[simp]
theorem Registry.histogram_gaugeInc (r : Registry) (k k' : SeriesKey) :
    (r.gaugeInc k).histogram k' = r.histogram k' := rfl

@[simp]
theorem Registry.histogram_gaugeDec (r : Registry) (k k' : SeriesKey) :
    (r.gaugeDec k).histogram k' = r.histogram k' := rfl

@[simp]
theorem Registry.histogram_gaugeSet (r : Registry) (k k' : SeriesKey) (x : Int) :
    (r.gaugeSet k x).histogram k' = r.histogram k' := rfl

@[simp]
theorem Registry.histogram_counterInc (r : Registry) (k k' : SeriesKey) :
    (r.counterInc k).histogram k' = r.histogram k' := rfl

/-! ## worker.go: sessions -/

/-- C1: `End(code)` on a `WorkerMetrics` whose begin flag is not set (no `Begin` yet,
or the last session already ended) returns with the registry unchanged, so that no
gauge, counter or histogram series is mutated, and with the `WorkerMetrics` value
unchanged, its begin flag still false. -/
theorem WorkerMetrics.End_without_Begin (m : WorkerMetrics) (code : String) (now : Int)
    (r : Registry) (h : m.begin = false) :
    m.End code now r = (m, r) ∧ (m.End code now r).1.begin = false := by
  have h1 : m.End code now r = (m, r) := by simp [WorkerMetrics.End, h]
  exact ⟨h1, by rw [h1]; exact h⟩

/-- C1 at a fresh `WorkerMetrics` for queue `Jobs` and the empty registry. -/
theorem WorkerMetrics.End_without_Begin_witness :
    (NewWorkerMetrics "Jobs" 5).begin = false ∧
    (NewWorkerMetrics "Jobs" 5).End "ok" 9 Registry.empty =
      (NewWorkerMetrics "Jobs" 5, Registry.empty) ∧
    ((NewWorkerMetrics "Jobs" 5).End "ok" 9 Registry.empty).1.begin = false :=
  ⟨rfl, WorkerMetrics.End_without_Begin (NewWorkerMetrics "Jobs" 5) "ok" 9 Registry.empty rfl⟩

/-- C2: after `Begin; End(c1)` a further `End(c2)` changes neither the registry nor
the `WorkerMetrics` value, whatever the value, the codes, the registry and the times
of the three calls. -/
theorem WorkerMetrics.End_idempotent (m : WorkerMetrics) (c1 c2 : String)
    (t0 t1 t2 : Int) (r : Registry) :
    ((m.Begin t0 r).1.End c1 t1 (m.Begin t0 r).2).1.End c2 t2
        ((m.Begin t0 r).1.End c1 t1 (m.Begin t0 r).2).2 =
      (m.Begin t0 r).1.End c1 t1 (m.Begin t0 r).2 := by
  cases hb : m.begin <;> simp [WorkerMetrics.Begin, WorkerMetrics.End, hb]

theorem WorkerMetrics.run_cons (s : WorkerMetrics × Registry) (c : WorkerCall)
    (rest : List WorkerCall) :
    WorkerMetrics.run s (c :: rest) = WorkerMetrics.run (WorkerMetrics.call s c) rest := rfl

/-- The tally of a paired sequence of calls from any state: the counters of the queue
rise by the number of matching calls, the begin flag ends unset and the gauge ends one
lower exactly when the sequence started inside a session. -/
theorem WorkerMetrics.run_paired (calls : List WorkerCall) :
    ∀ (m : WorkerMetrics) (r : Registry), WorkerCall.paired m.begin calls = true →
      (WorkerMetrics.run (m, r) calls).1.queue = m.queue ∧
      (WorkerMetrics.run (m, r) calls).1.begin = false ∧
      (∀ c, (WorkerMetrics.run (m, r) calls).2.counter
          ⟨"worker_messages_total", [("queue", toLower m.queue), ("code", c)]⟩ =
        r.counter ⟨"worker_messages_total", [("queue", toLower m.queue), ("code", c)]⟩ +
          WorkerCall.codeCount c calls) ∧
      (WorkerMetrics.run (m, r) calls).2.counter
          ⟨"worker_dead_letter_messages_total", [("queue", toLower m.queue)]⟩ =
        r.counter ⟨"worker_dead_letter_messages_total", [("queue", toLower m.queue)]⟩ +
          WorkerCall.deadLetters calls ∧
      (WorkerMetrics.run (m, r) calls).2.gauge
          ⟨"worker_messages_in_flight", [("queue", toLower m.queue)]⟩ =
        r.gauge ⟨"worker_messages_in_flight", [("queue", toLower m.queue)]⟩ -
          (if m.begin then 1 else 0) := by
  induction calls with
  | nil =>
    intro m r hp
    have hb : m.begin = false := by simpa [WorkerCall.paired] using hp
    simp [WorkerMetrics.run, WorkerCall.codeCount, WorkerCall.deadLetters, hb]
  | cons call rest ih =>
    intro m r hp
    cases call with
    | Begin now =>
      have hb : m.begin = false := by
        cases hm : m.begin
        · rfl
        · simp [WorkerCall.paired, hm] at hp
      have hrest : WorkerCall.paired true rest = true := by
        simpa [WorkerCall.paired, hb] using hp
      have hstep : WorkerMetrics.call (m, r) (.Begin now) =
          ({ queue := m.queue, t := now, begin := true },
            r.gaugeInc ⟨"worker_messages_in_flight", [("queue", toLower m.queue)]⟩) := by
        simp [WorkerMetrics.call, WorkerMetrics.Begin, hb, WorkerMetrics.incInFlight,
          WorkerMetrics.label]
      rw [WorkerMetrics.run_cons, hstep]
      obtain ⟨h1, h2, h3, h4, h5⟩ := ih { queue := m.queue, t := now, begin := true }
        (r.gaugeInc ⟨"worker_messages_in_flight", [("queue", toLower m.queue)]⟩) hrest
      refine ⟨h1, h2, ?_, ?_, ?_⟩
      · intro c
        rw [h3 c]
        simp [WorkerCall.codeCount]
      · rw [h4]
        simp [WorkerCall.deadLetters]
      · rw [h5]
        simp [Registry.gauge_gaugeInc, hb]
    | End code now =>
      have hb : m.begin = true := by
        cases hm : m.begin
        · simp [WorkerCall.paired, hm] at hp
        · rfl
      have hrest : WorkerCall.paired false rest = true := by
        simpa [WorkerCall.paired, hb] using hp
      have hstep : WorkerMetrics.call (m, r) (.End code now) =
          ({ queue := m.queue, t := m.t, begin := false },
            ((r.gaugeDec ⟨"worker_messages_in_flight", [("queue", toLower m.queue)]⟩).counterInc
              ⟨"worker_messages_total",
                [("queue", toLower m.queue), ("code", toLower code)]⟩).observe
              ⟨"worker_messages_processing_duration_seconds",
                [("queue", toLower m.queue), ("code", toLower code)]⟩ (now - m.t)) := by
        simp [WorkerMetrics.call, WorkerMetrics.End, hb, WorkerMetrics.decInFlight,
          WorkerMetrics.processed, WorkerMetrics.observeProcessingTime,
          WorkerMetrics.labelWithCode, WorkerMetrics.label]
      rw [WorkerMetrics.run_cons, hstep]
      obtain ⟨h1, h2, h3, h4, h5⟩ := ih { queue := m.queue, t := m.t, begin := false }
        _ hrest
      refine ⟨h1, h2, ?_, ?_, ?_⟩
      · intro c
        rw [h3 c]
        by_cases hc : toLower code = c
        · subst hc
          simp [WorkerCall.codeCount, Registry.counter_counterInc]
          omega
        · have hc1 : ¬ c = toLower code := fun h => hc h.symm
          simp [WorkerCall.codeCount, Registry.counter_counterInc, hc, hc1]
      · rw [h4]
        simp [WorkerCall.deadLetters, Registry.counter_counterInc]
      · rw [h5]
        simp [Registry.gauge_gaugeDec, hb]
    | IncDeadLetter =>
      have hrest : WorkerCall.paired m.begin rest = true := by
        simpa [WorkerCall.paired] using hp
      have hstep : WorkerMetrics.call (m, r) .IncDeadLetter =
          (m, r.counterInc
            ⟨"worker_dead_letter_messages_total", [("queue", toLower m.queue)]⟩) := by
        simp [WorkerMetrics.call, WorkerMetrics.IncDeadLetter, WorkerMetrics.label]
      rw [WorkerMetrics.run_cons, hstep]
      obtain ⟨h1, h2, h3, h4, h5⟩ := ih m _ hrest
      refine ⟨h1, h2, ?_, ?_, ?_⟩
      · intro c
        rw [h3 c]
        simp [WorkerCall.codeCount, Registry.counter_counterInc]
      · rw [h4]
        simp [WorkerCall.deadLetters, Registry.counter_counterInc]
        omega
      · rw [h5]
        simp

/-- C7: from a registry in which the series of queue `q` read zero, after any sequence
of `Begin`/`End(code)` pairs run one after another on a fresh `WorkerMetrics` for `q`,
with `IncDeadLetter` calls anywhere between them, `worker_messages_total{q, c}` is the
number of `End` calls whose lowercased code is `c`, for every `c`,
`worker_dead_letter_messages_total{q}` is the number of `IncDeadLetter` calls and
`worker_messages_in_flight{q}` is 0; the series of `q` carry the lowercased queue
name. -/
theorem WorkerMetrics.tally (q : String) (t0 : Int) (calls : List WorkerCall)
    (r : Registry) (hp : WorkerCall.paired false calls = true)
    (hg : r.gauge ⟨"worker_messages_in_flight", [("queue", toLower q)]⟩ = 0)
    (hd : r.counter ⟨"worker_dead_letter_messages_total", [("queue", toLower q)]⟩ = 0)
    (ht : ∀ c, r.counter
      ⟨"worker_messages_total", [("queue", toLower q), ("code", c)]⟩ = 0) :
    (∀ c, (WorkerMetrics.run (NewWorkerMetrics q t0, r) calls).2.counter
        ⟨"worker_messages_total", [("queue", toLower q), ("code", c)]⟩ =
      WorkerCall.codeCount c calls) ∧
    (WorkerMetrics.run (NewWorkerMetrics q t0, r) calls).2.counter
        ⟨"worker_dead_letter_messages_total", [("queue", toLower q)]⟩ =
      WorkerCall.deadLetters calls ∧
    (WorkerMetrics.run (NewWorkerMetrics q t0, r) calls).2.gauge
        ⟨"worker_messages_in_flight", [("queue", toLower q)]⟩ = 0 := by
  obtain ⟨_, _, h3, h4, h5⟩ := WorkerMetrics.run_paired calls (NewWorkerMetrics q t0) r hp
  refine ⟨?_, ?_, ?_⟩
  · intro c
    exact (h3 c).trans (by simp [NewWorkerMetrics, ht c])
  · exact h4.trans (by simp [NewWorkerMetrics, hd])
  · exact h5.trans (by simp [NewWorkerMetrics, hg])

/-- C7 on the scenario of the specification: seven ok, two failed and one dead-letter
on queue `Jobs` from the empty registry give 7, 2, 1 and a gauge of 0. -/
theorem WorkerMetrics.tally_witness :
    WorkerCall.paired false tallyScenario = true ∧
    (WorkerMetrics.run (NewWorkerMetrics "Jobs" 0, Registry.empty) tallyScenario).2.counter
      ⟨"worker_messages_total", [("queue", "jobs"), ("code", "ok")]⟩ = 7 ∧
    (WorkerMetrics.run (NewWorkerMetrics "Jobs" 0, Registry.empty) tallyScenario).2.counter
      ⟨"worker_messages_total", [("queue", "jobs"), ("code", "failed")]⟩ = 2 ∧
    (WorkerMetrics.run (NewWorkerMetrics "Jobs" 0, Registry.empty) tallyScenario).2.counter
      ⟨"worker_dead_letter_messages_total", [("queue", "jobs")]⟩ = 1 ∧
    (WorkerMetrics.run (NewWorkerMetrics "Jobs" 0, Registry.empty) tallyScenario).2.gauge
      ⟨"worker_messages_in_flight", [("queue", "jobs")]⟩ = 0 := by
  have hq : toLower "Jobs" = "jobs" := by decide
  have h := WorkerMetrics.tally "Jobs" 0 tallyScenario Registry.empty (by decide) rfl rfl
    (fun _ => rfl)
  rw [hq] at h
  exact ⟨by decide, (h.1 "ok").trans (by decide), (h.1 "failed").trans (by decide),
    h.2.1.trans (by decide), h.2.2⟩

/-! ## http.go: labels -/

/-- C5: whatever function lowercases, when the lowercasings of the methods agree and
those of the handlers agree, `NewHTTPHandlerMetric` builds the same value, whose label
set is the lowercased method and handler, so that `IncInFlight`, `DecInFlight`, `Inc`
and the three `Observe*` operations of the two have the same effect on every
registry. -/
theorem NewHTTPHandlerMetric_case_insensitive (ToLower : String → String)
    (m1 h1 m2 h2 : String)
    (hm : ToLower m1 = ToLower m2) (hh : ToLower h1 = ToLower h2) :
    NewHTTPHandlerMetricUsing ToLower m1 h1 = NewHTTPHandlerMetricUsing ToLower m2 h2 ∧
    (NewHTTPHandlerMetricUsing ToLower m1 h1).labels =
      [("method", ToLower m2), ("handler", ToLower h2)] ∧
    (NewHTTPHandlerMetricUsing ToLower m2 h2).labels =
      [("method", ToLower m2), ("handler", ToLower h2)] ∧
    (∀ r, (NewHTTPHandlerMetricUsing ToLower m1 h1).IncInFlight r =
      (NewHTTPHandlerMetricUsing ToLower m2 h2).IncInFlight r) ∧
    (∀ r, (NewHTTPHandlerMetricUsing ToLower m1 h1).DecInFlight r =
      (NewHTTPHandlerMetricUsing ToLower m2 h2).DecInFlight r) ∧
    (∀ code r, (NewHTTPHandlerMetricUsing ToLower m1 h1).Inc code r =
      (NewHTTPHandlerMetricUsing ToLower m2 h2).Inc code r) ∧
    (∀ n r, (NewHTTPHandlerMetricUsing ToLower m1 h1).ObserveRequestSize n r =
      (NewHTTPHandlerMetricUsing ToLower m2 h2).ObserveRequestSize n r) ∧
    (∀ n r, (NewHTTPHandlerMetricUsing ToLower m1 h1).ObserveResponseSize n r =
      (NewHTTPHandlerMetricUsing ToLower m2 h2).ObserveResponseSize n r) ∧
    (∀ d r, (NewHTTPHandlerMetricUsing ToLower m1 h1).ObserveDuration d r =
      (NewHTTPHandlerMetricUsing ToLower m2 h2).ObserveDuration d r) ∧
    (∀ r, ((NewHTTPHandlerMetricUsing ToLower m1 h1).IncInFlight r).gauge
        ⟨"http_requests_in_flight", [("method", ToLower m2), ("handler", ToLower h2)]⟩ =
      r.gauge
        ⟨"http_requests_in_flight", [("method", ToLower m2), ("handler", ToLower h2)]⟩ +
        1) := by
  have he : NewHTTPHandlerMetricUsing ToLower m1 h1 =
      NewHTTPHandlerMetricUsing ToLower m2 h2 := by
    simp [NewHTTPHandlerMetricUsing, hm, hh]
  refine ⟨he, ?_, ?_, ?_, ?_, ?_, ?_, ?_, ?_, ?_⟩
  · simp [NewHTTPHandlerMetricUsing, hm, hh]
  · simp [NewHTTPHandlerMetricUsing]
  · intro r
    rw [he]
  · intro r
    rw [he]
  · intro code r
    rw [he]
  · intro n r
    rw [he]
  · intro n r
    rw [he]
  · intro d r
    rw [he]
  · intro r
    simp [NewHTTPHandlerMetricUsing, httpHandlerMetric.IncInFlight,
      Registry.gauge_gaugeInc, hm, hh]

/-- C5 at `("GET", "/Foo")` and `("get", "/foo")`, lowercased with `toLower`. -/
theorem NewHTTPHandlerMetric_case_insensitive_witness :
    toLower "GET" = toLower "get" ∧ toLower "/Foo" = toLower "/foo" ∧
    NewHTTPHandlerMetric "GET" "/Foo" = NewHTTPHandlerMetric "get" "/foo" ∧
    (∀ r, (NewHTTPHandlerMetric "GET" "/Foo").IncInFlight r =
      (NewHTTPHandlerMetric "get" "/foo").IncInFlight r) :=
  ⟨by decide, by decide,
    (NewHTTPHandlerMetric_case_insensitive toLower "GET" "/Foo" "get" "/foo" (by decide)
      (by decide)).1,
    (NewHTTPHandlerMetric_case_insensitive toLower "GET" "/Foo" "get" "/foo" (by decide)
      (by decide)).2.2.2.1⟩

/-! ## cache.go, search.go, db_stats.go: labels used as given -/

theorem Labels.value_head (name v : String) (rest : Labels) :
    Labels.value ((name, v) :: rest) name = v := by
  simp [Labels.value, List.lookup]

/-- C6, refuted: the names `Users` and `users` have the same lowercasing, yet one
`IncGet` on each leaves `cache_hits_total` at 1 in two series; the provider names
`ES` and `es` address two series of `search_create_index_total`; and the tick of
`WatchDBStats` for the name `Main` sets `database_stats_in_use{database="Main"}` and
leaves `{database="main"}` alone. -/
theorem label_case_counterexample :
    toLower "Users" = toLower "users" ∧
    ((NewCacheMetrics "users").IncGet none
        ((NewCacheMetrics "Users").IncGet none Registry.empty)).counter
      ⟨"cache_hits_total", [("cache_name", "users")]⟩ = 1 ∧
    ((NewCacheMetrics "users").IncGet none
        ((NewCacheMetrics "Users").IncGet none Registry.empty)).counter
      ⟨"cache_hits_total", [("cache_name", "Users")]⟩ = 1 ∧
    toLower "ES" = toLower "es" ∧
    (((NewSearchMetrics "ES").BeginCreateIndex "idx" 0 Registry.empty).2 "ok" 1
        ((NewSearchMetrics "ES").BeginCreateIndex "idx" 0 Registry.empty).1).counter
      ⟨"search_create_index_total",
        [("provider", "es"), ("index", "idx"), ("code", "ok")]⟩ = 0 ∧
    (((NewSearchMetrics "ES").BeginCreateIndex "idx" 0 Registry.empty).2 "ok" 1
        ((NewSearchMetrics "ES").BeginCreateIndex "idx" 0 Registry.empty).1).counter
      ⟨"search_create_index_total",
        [("provider", "ES"), ("index", "idx"), ("code", "ok")]⟩ = 1 ∧
    toLower "Main" = "main" ∧
    (refreshDBStatsMetricFunc sampleDB "Main" 0 Registry.empty).gauge
      ⟨"database_stats_in_use", [("database", "main")]⟩ = 0 ∧
    (refreshDBStatsMetricFunc sampleDB "Main" 0 Registry.empty).gauge
      ⟨"database_stats_in_use", [("database", "Main")]⟩ = 3 := by
  decide

/-- C6, amended: a label value is lowercased where the adapter applies
`strings.ToLower`, as `BeginCreateIndex` does for the index and the code: for every
lowercasing function `ToLower`, with one provider, indexes and codes that agree after
lowercasing update the identical series, and the gauge raised is the one at the
lowercased index. `CacheMetrics` and the tick of `WatchDBStats` use the name as given:
`IncGet` raises `cache_hits_total` (no error) or `cache_misses_total` (an error) at its
own name `n1` by one, `IncSet` raises `cache_sets_total` at its own name and the result
`success` (no error) or `failure` (an error) by one, `IncGet` and `IncSet` leave every
series whose `cache_name` is another name `n2` unchanged, and the tick sets the eight
gauges at `database = n1` to the statistics, the wait duration as the number of
seconds that `Seconds()` returns, and leaves every gauge whose `database` is another
name unchanged. -/
theorem label_case_amended (ToLower : String → String) (n1 n2 : String) (err : Error)
    (db : DB) (now : Int) (p i1 i2 c1 c2 : String) (r : Registry)
    (hn : n1 ≠ n2) (hi : ToLower i1 = ToLower i2) (hc : ToLower c1 = ToLower c2) :
    ((NewCacheMetrics n1).IncGet none r).counter
        ⟨"cache_hits_total", [("cache_name", n1)]⟩ =
      r.counter ⟨"cache_hits_total", [("cache_name", n1)]⟩ + 1 ∧
    (∀ e : GoError, ((NewCacheMetrics n1).IncGet (some e) r).counter
        ⟨"cache_misses_total", [("cache_name", n1)]⟩ =
      r.counter ⟨"cache_misses_total", [("cache_name", n1)]⟩ + 1) ∧
    ((NewCacheMetrics n1).IncSet none r).counter
        ⟨"cache_sets_total", [("cache_name", n1), ("result", "success")]⟩ =
      r.counter ⟨"cache_sets_total", [("cache_name", n1), ("result", "success")]⟩ + 1 ∧
    (∀ e : GoError, ((NewCacheMetrics n1).IncSet (some e) r).counter
        ⟨"cache_sets_total", [("cache_name", n1), ("result", "failure")]⟩ =
      r.counter ⟨"cache_sets_total", [("cache_name", n1), ("result", "failure")]⟩ + 1) ∧
    (∀ k : SeriesKey, k.labels.value "cache_name" = n2 →
      ((NewCacheMetrics n1).IncGet err r).counter k = r.counter k ∧
      ((NewCacheMetrics n1).IncSet err r).counter k = r.counter k) ∧
    (refreshDBStatsMetricFunc db n1 now r).gauge
        ⟨"database_stats_max_open_connections", [("database", n1)]⟩ =
      (db.Stats now).MaxOpenConnections ∧
    (refreshDBStatsMetricFunc db n1 now r).gauge
        ⟨"database_stats_open_connections", [("database", n1)]⟩ =
      (db.Stats now).OpenConnections ∧
    (refreshDBStatsMetricFunc db n1 now r).gauge
        ⟨"database_stats_in_use", [("database", n1)]⟩ = (db.Stats now).InUse ∧
    (refreshDBStatsMetricFunc db n1 now r).gauge
        ⟨"database_stats_idle", [("database", n1)]⟩ = (db.Stats now).Idle ∧
    (refreshDBStatsMetricFunc db n1 now r).gauge
        ⟨"database_stats_wait_count", [("database", n1)]⟩ = (db.Stats now).WaitCount ∧
    (refreshDBStatsMetricFunc db n1 now r).gauge
        ⟨"database_stats_wait_duration_in_seconds", [("database", n1)]⟩ =
      (db.Stats now).WaitDuration.Seconds ∧
    (refreshDBStatsMetricFunc db n1 now r).gauge
        ⟨"database_stats_max_idle_closed", [("database", n1)]⟩ =
      (db.Stats now).MaxIdleClosed ∧
    (refreshDBStatsMetricFunc db n1 now r).gauge
        ⟨"database_stats_max_lifetime_closed", [("database", n1)]⟩ =
      (db.Stats now).MaxLifetimeClosed ∧
    (∀ k : SeriesKey, k.labels.value "database" = n2 →
      (refreshDBStatsMetricFunc db n1 now r).gauge k = r.gauge k) ∧
    ((NewSearchMetrics p).BeginCreateIndexUsing ToLower i1 now r).1 =
      ((NewSearchMetrics p).BeginCreateIndexUsing ToLower i2 now r).1 ∧
    ((NewSearchMetrics p).BeginCreateIndexUsing ToLower i1 now r).1.gauge
        ⟨"search_create_index_in_flight", [("provider", p), ("index", ToLower i2)]⟩ =
      r.gauge
        ⟨"search_create_index_in_flight", [("provider", p), ("index", ToLower i2)]⟩ + 1 ∧
    (∀ t r1, ((NewSearchMetrics p).BeginCreateIndexUsing ToLower i1 now r).2 c1 t r1 =
      ((NewSearchMetrics p).BeginCreateIndexUsing ToLower i2 now r).2 c2 t r1) ∧
    (∀ t r1, (((NewSearchMetrics p).BeginCreateIndexUsing ToLower i1 now r).2 c1 t
        r1).counter
        ⟨"search_create_index_total",
          [("provider", p), ("index", ToLower i2), ("code", ToLower c2)]⟩ =
      r1.counter
        ⟨"search_create_index_total",
          [("provider", p), ("index", ToLower i2), ("code", ToLower c2)]⟩ + 1) := by
  refine ⟨?_, ?_, ?_, ?_, ?_, ?_, ?_, ?_, ?_, ?_, ?_, ?_, ?_, ?_, ?_, ?_, ?_, ?_⟩
  · simp [CacheMetrics.IncGet, NewCacheMetrics, Registry.counter_counterInc]
  · intro e
    simp [CacheMetrics.IncGet, NewCacheMetrics, Registry.counter_counterInc]
  · simp [CacheMetrics.IncSet, NewCacheMetrics, Registry.counter_counterInc, success]
  · intro e
    simp [CacheMetrics.IncSet, NewCacheMetrics, Registry.counter_counterInc, failure]
  · intro k hk
    have hne : ∀ name rest, k ≠ ⟨name, ("cache_name", n1) :: rest⟩ := by
      intro name rest h
      rw [h, Labels.value_head] at hk
      exact hn hk
    cases err <;>
      simp [CacheMetrics.IncGet, CacheMetrics.IncSet, NewCacheMetrics,
        Registry.counter_counterInc, hne]
  · simp [refreshDBStatsMetricFunc, Registry.gauge_gaugeSet]
  · simp [refreshDBStatsMetricFunc, Registry.gauge_gaugeSet]
  · simp [refreshDBStatsMetricFunc, Registry.gauge_gaugeSet]
  · simp [refreshDBStatsMetricFunc, Registry.gauge_gaugeSet]
  · simp [refreshDBStatsMetricFunc, Registry.gauge_gaugeSet]
  · simp [refreshDBStatsMetricFunc, Registry.gauge_gaugeSet]
  · simp [refreshDBStatsMetricFunc, Registry.gauge_gaugeSet]
  · simp [refreshDBStatsMetricFunc, Registry.gauge_gaugeSet]
  · intro k hk
    have hne : ∀ name, k ≠ ⟨name, [("database", n1)]⟩ := by
      intro name h
      rw [h, Labels.value_head] at hk
      exact hn hk
    simp [refreshDBStatsMetricFunc, Registry.gauge_gaugeSet, hne]
  · simp [SearchMetrics.BeginCreateIndexUsing, NewSearchMetrics, hi]
  · simp [SearchMetrics.BeginCreateIndexUsing, NewSearchMetrics, hi,
      Registry.gauge_gaugeInc]
  · simp [SearchMetrics.BeginCreateIndexUsing, NewSearchMetrics, hi, hc]
  · intro t r1
    simp [SearchMetrics.BeginCreateIndexUsing, NewSearchMetrics, hi, hc,
      Registry.counter_counterInc, Registry.counter_gaugeDec, Registry.counter_observe]

/-- C6, amended, at the cache names `Users` and `users`, the indexes `Idx` and `idx`
and the codes `OK` and `ok`, with the lowercasing `toLower`. -/
theorem label_case_amended_witness :
    "Users" ≠ "users" ∧ toLower "Idx" = toLower "idx" ∧ toLower "OK" = toLower "ok" ∧
    (∀ k : SeriesKey, k.labels.value "cache_name" = "users" →
      ((NewCacheMetrics "Users").IncGet none Registry.empty).counter k =
        Registry.empty.counter k ∧
      ((NewCacheMetrics "Users").IncSet none Registry.empty).counter k =
        Registry.empty.counter k) ∧
    ((NewSearchMetrics "es").BeginCreateIndex "Idx" 0 Registry.empty).1 =
      ((NewSearchMetrics "es").BeginCreateIndex "idx" 0 Registry.empty).1 :=
  ⟨by decide, by decide, by decide,
    (label_case_amended toLower "Users" "users" none sampleDB 0 "es" "Idx" "idx" "OK" "ok"
      Registry.empty (by decide) (by decide) (by decide)).2.2.2.2.1,
    (label_case_amended toLower "Users" "users" none sampleDB 0 "es" "Idx" "idx" "OK" "ok"
      Registry.empty (by decide) (by decide) (by decide)).2.2.2.2.2.2.2.2.2.2.2.2.2.2.1⟩

/-! ## db_stats.go: arguments of WatchDBStats -/

/-- C8: `WatchDBStats` returns a non-nil error exactly when the handle is nil or the
interval is not positive. In that case the cancel function is nil and the runtime is
unchanged, no goroutine being started; otherwise the error is nil, the cancel
function is not nil and exactly one goroutine has been started. -/
theorem WatchDBStats_error_iff (db : Option DB) (name : String) (refreshInterval : Int)
    (rt : Runtime) :
    ((WatchDBStats db name refreshInterval rt).2.2.isSome = true ↔
      (db.isNone = true ∨ refreshInterval ≤ 0)) ∧
    (if db.isNone = true ∨ refreshInterval ≤ 0 then
      (WatchDBStats db name refreshInterval rt).2.1 = none ∧
      (WatchDBStats db name refreshInterval rt).1 = rt
    else
      (WatchDBStats db name refreshInterval rt).2.2 = none ∧
      (WatchDBStats db name refreshInterval rt).2.1 = some rt.tickers.length ∧
      (WatchDBStats db name refreshInterval rt).1.tickers.length =
        rt.tickers.length + 1) := by
  cases db with
  | none => simp [WatchDBStats]
  | some d =>
    by_cases hi : refreshInterval ≤ 0
    · simp [WatchDBStats, hi]
    · simp [WatchDBStats, hi, startTick]

/-! ## logs.go: the hook -/

/-- C9: `Fire` returns a nil error for every entry, whatever its level and its
fields, and from every registry. -/
theorem logrusHook.Fire_returns_nil (entry : Entry) (r : Registry) :
    (logrusHook.Fire entry r).2 = none := rfl

/-- C10: for an entry whose fields hold the strings `s` under `grpc_service` and `m`
under `grpc_method`, `Fire` raises `grpc_logrus_logs_total` at the level of the entry
and the lowercased `s` and `m` by one, raises `logrus_logs_total` at the level by one,
leaves every series of `http_logrus_logs_total` unchanged, as well as every other
counter series, and touches no gauge and no histogram; other fields of the entry,
such as `method` and `handler`, play no part. -/
theorem logrusHook.Fire_rpc (entry : Entry) (s m : String) (r : Registry)
    (hs : entry.stringField "grpc_service" = some s)
    (hm : entry.stringField "grpc_method" = some m) :
    (logrusHook.Fire entry r).1.counter ⟨"grpc_logrus_logs_total",
        [("level", toLower entry.Level.String), ("grpc_service", toLower s),
         ("grpc_method", toLower m)]⟩ =
      r.counter ⟨"grpc_logrus_logs_total",
        [("level", toLower entry.Level.String), ("grpc_service", toLower s),
         ("grpc_method", toLower m)]⟩ + 1 ∧
    (logrusHook.Fire entry r).1.counter
        ⟨"logrus_logs_total", [("level", toLower entry.Level.String)]⟩ =
      r.counter ⟨"logrus_logs_total", [("level", toLower entry.Level.String)]⟩ + 1 ∧
    (∀ k : SeriesKey, k.name = "http_logrus_logs_total" →
      (logrusHook.Fire entry r).1.counter k = r.counter k) ∧
    (∀ k : SeriesKey, k.name ≠ "grpc_logrus_logs_total" → k.name ≠ "logrus_logs_total" →
      (logrusHook.Fire entry r).1.counter k = r.counter k) ∧
    (logrusHook.Fire entry r).1.gauges = r.gauges ∧
    (logrusHook.Fire entry r).1.histograms = r.histograms := by
  have hf : (logrusHook.Fire entry r).1 =
      logrusMetricReporter.IncRPC entry.Level s m
        (logrusMetricReporter.Inc entry.Level r) := by
    simp [logrusHook.Fire, hs, hm]
  rw [hf]
  refine ⟨?_, ?_, ?_, ?_, rfl, rfl⟩
  · simp [logrusMetricReporter.IncRPC, logrusMetricReporter.Inc,
      Registry.counter_counterInc]
  · simp [logrusMetricReporter.IncRPC, logrusMetricReporter.Inc,
      Registry.counter_counterInc]
  · intro k hk
    have h1 : ∀ l, k ≠ ⟨"grpc_logrus_logs_total", l⟩ := by
      intro l h; rw [h] at hk; simp at hk
    have h2 : ∀ l, k ≠ ⟨"logrus_logs_total", l⟩ := by
      intro l h; rw [h] at hk; simp at hk
    simp [logrusMetricReporter.IncRPC, logrusMetricReporter.Inc,
      Registry.counter_counterInc, h1, h2]
  · intro k hk1 hk2
    have h1 : ∀ l, k ≠ ⟨"grpc_logrus_logs_total", l⟩ := by
      intro l h; rw [h] at hk1; exact hk1 rfl
    have h2 : ∀ l, k ≠ ⟨"logrus_logs_total", l⟩ := by
      intro l h; rw [h] at hk2; exact hk2 rfl
    simp [logrusMetricReporter.IncRPC, logrusMetricReporter.Inc,
      Registry.counter_counterInc, h1, h2]

/-- C10 at the entry with `grpc_service = orders`, `grpc_method = get` and an HTTP
context besides, from the empty registry. -/
theorem logrusHook.Fire_rpc_witness :
    rpcEntry.stringField "grpc_service" = some "orders" ∧
    rpcEntry.stringField "grpc_method" = some "get" ∧
    rpcEntry.stringField "method" = some "GET" ∧
    rpcEntry.stringField "handler" = some "/orders" ∧
    (logrusHook.Fire rpcEntry Registry.empty).1.counter ⟨"grpc_logrus_logs_total",
        [("level", "info"), ("grpc_service", "orders"), ("grpc_method", "get")]⟩ = 1 ∧
    (∀ k : SeriesKey, k.name = "http_logrus_logs_total" →
      (logrusHook.Fire rpcEntry Registry.empty).1.counter k =
        Registry.empty.counter k) :=
  ⟨by decide, by decide, by decide, by decide, by decide,
    (logrusHook.Fire_rpc rpcEntry "orders" "get" Registry.empty (by decide)
      (by decide)).2.2.1⟩

/-! ## logs.go: how many counters fire -/

theorem Series.total_update (s : Series Nat) (k : SeriesKey) (name : String) :
    (((Series.update 0 (fun v => v + 1) k s).filter
        (fun p => p.1.name = name)).map Prod.snd).sum =
      ((s.filter (fun p => p.1.name = name)).map Prod.snd).sum +
        (if k.name = name then 1 else 0) := by
  induction s with
  | nil =>
    by_cases hn : k.name = name <;> simp [Series.update, List.filter_cons, hn]
  | cons p rest ih =>
    obtain ⟨k1, v⟩ := p
    by_cases h : k1 = k
    · subst h
      by_cases hn : k1.name = name
      · simp [Series.update, List.filter_cons, hn]
        omega
      · simp [Series.update, List.filter_cons, hn]
    · by_cases hn : k1.name = name
      · simp only [Series.update, h, if_false, List.filter_cons, hn, decide_True, if_true,
          List.map_cons, List.sum_cons, ih]
        omega
      · simp only [Series.update, h, if_false, List.filter_cons, hn, decide_False]
        exact ih

theorem Registry.counterTotal_counterInc (r : Registry) (k : SeriesKey) (name : String) :
    (r.counterInc k).counterTotal name =
      r.counterTotal name + (if k.name = name then 1 else 0) := by
  simp only [Registry.counterTotal, Registry.counterInc]
  exact Series.total_update r.counters k name

/-- The three shapes of the effect of `Fire`: the global counter alone, or the
global counter followed by the RPC counter or by the HTTP counter, the latter with
the value of `handler` as first argument and the value of `method` as second. -/
theorem logrusHook.Fire_cases (entry : Entry) (r : Registry) :
    (logrusHook.Fire entry r).1 = logrusMetricReporter.Inc entry.Level r ∨
    (∃ s m, entry.stringField "grpc_service" = some s ∧
      entry.stringField "grpc_method" = some m ∧
      (logrusHook.Fire entry r).1 =
        logrusMetricReporter.IncRPC entry.Level s m
          (logrusMetricReporter.Inc entry.Level r)) ∨
    (∃ h m, entry.stringField "grpc_service" = none ∧
      entry.stringField "handler" = some h ∧ entry.stringField "method" = some m ∧
      (logrusHook.Fire entry r).1 =
        logrusMetricReporter.IncHTTP entry.Level h m
          (logrusMetricReporter.Inc entry.Level r)) := by
  cases h1 : entry.stringField "grpc_service" <;>
    cases h2 : entry.stringField "grpc_method" <;>
    cases h3 : entry.stringField "handler" <;>
    cases h4 : entry.stringField "method" <;>
    simp [logrusHook.Fire, h1, h2, h3, h4]

theorem logrusHook.global_counter_after_Fire (entry : Entry) (r : Registry) :
    (logrusHook.Fire entry r).1.counter
        ⟨"logrus_logs_total", [("level", toLower entry.Level.String)]⟩ =
      r.counter ⟨"logrus_logs_total", [("level", toLower entry.Level.String)]⟩ + 1 := by
  rcases logrusHook.Fire_cases entry r with hf | ⟨s, m, _, _, hf⟩ | ⟨h, m, _, _, _, hf⟩ <;>
    rw [hf] <;>
    simp [logrusMetricReporter.Inc, logrusMetricReporter.IncRPC,
      logrusMetricReporter.IncHTTP, Registry.counter_counterInc]

/-- C11: for every entry and registry, one call of `Fire` raises
`logrus_logs_total{level}` by one and the whole vector `logrus_logs_total` by one,
raises the vectors `grpc_logrus_logs_total` and `http_logrus_logs_total` together by
at most one and lowers neither, and, when the entry has neither an RPC context nor an
HTTP context, has the effect of the increment of the global counter alone; it never
touches a gauge or a histogram. -/
theorem logrusHook.Fire_counts (entry : Entry) (r : Registry) :
    (logrusHook.Fire entry r).1.counter
        ⟨"logrus_logs_total", [("level", toLower entry.Level.String)]⟩ =
      r.counter ⟨"logrus_logs_total", [("level", toLower entry.Level.String)]⟩ + 1 ∧
    (logrusHook.Fire entry r).1.counterTotal "logrus_logs_total" =
      r.counterTotal "logrus_logs_total" + 1 ∧
    (logrusHook.Fire entry r).1.counterTotal "grpc_logrus_logs_total" +
        (logrusHook.Fire entry r).1.counterTotal "http_logrus_logs_total" ≤
      r.counterTotal "grpc_logrus_logs_total" +
        r.counterTotal "http_logrus_logs_total" + 1 ∧
    r.counterTotal "grpc_logrus_logs_total" ≤
      (logrusHook.Fire entry r).1.counterTotal "grpc_logrus_logs_total" ∧
    r.counterTotal "http_logrus_logs_total" ≤
      (logrusHook.Fire entry r).1.counterTotal "http_logrus_logs_total" ∧
    (entry.hasRPCContext = false → entry.hasHTTPContext = false →
      (logrusHook.Fire entry r).1 = logrusMetricReporter.Inc entry.Level r) ∧
    (logrusHook.Fire entry r).1.gauges = r.gauges ∧
    (logrusHook.Fire entry r).1.histograms = r.histograms := by
  rcases logrusHook.Fire_cases entry r with hf | ⟨s, m, hs, hm, hf⟩ | ⟨h, m, hs, hh, hm, hf⟩
  · rw [hf]
    refine ⟨?_, ?_, ?_, ?_, ?_, fun _ _ => rfl, rfl, rfl⟩ <;>
      simp [logrusMetricReporter.Inc, Registry.counter_counterInc,
        Registry.counterTotal_counterInc]
  · rw [hf]
    refine ⟨?_, ?_, ?_, ?_, ?_, ?_, rfl, rfl⟩
    · simp [logrusMetricReporter.Inc, logrusMetricReporter.IncRPC,
        Registry.counter_counterInc]
    · simp [logrusMetricReporter.Inc, logrusMetricReporter.IncRPC,
        Registry.counterTotal_counterInc]
    · simp [logrusMetricReporter.Inc, logrusMetricReporter.IncRPC,
        Registry.counterTotal_counterInc]
      omega
    · simp [logrusMetricReporter.Inc, logrusMetricReporter.IncRPC,
        Registry.counterTotal_counterInc]
    · simp [logrusMetricReporter.Inc, logrusMetricReporter.IncRPC,
        Registry.counterTotal_counterInc]
    · intro hr
      simp [Entry.hasRPCContext, hs, hm] at hr
  · rw [hf]
    refine ⟨?_, ?_, ?_, ?_, ?_, ?_, rfl, rfl⟩
    · simp [logrusMetricReporter.Inc, logrusMetricReporter.IncHTTP,
        Registry.counter_counterInc]
    · simp [logrusMetricReporter.Inc, logrusMetricReporter.IncHTTP,
        Registry.counterTotal_counterInc]
    · simp [logrusMetricReporter.Inc, logrusMetricReporter.IncHTTP,
        Registry.counterTotal_counterInc]
      omega
    · simp [logrusMetricReporter.Inc, logrusMetricReporter.IncHTTP,
        Registry.counterTotal_counterInc]
    · simp [logrusMetricReporter.Inc, logrusMetricReporter.IncHTTP,
        Registry.counterTotal_counterInc]
    · intro _ hh1
      simp [Entry.hasHTTPContext, hh, hm] at hh1

/-- C12, the code at an entry of level info with `method = GET` and
`handler = /orders` and no RPC field, from the empty registry: the series of
`http_logrus_logs_total` with method label `get` and handler label `/orders` stays at
0, and the series whose method label is `/orders` and whose handler label is `get` is
raised to 1. -/
theorem logrusHook.Fire_http_labels_swapped :
    httpEntry.stringField "grpc_service" = none ∧
    httpEntry.stringField "method" = some "GET" ∧
    httpEntry.stringField "handler" = some "/orders" ∧
    (logrusHook.Fire httpEntry Registry.empty).1.counter ⟨"http_logrus_logs_total",
      [("level", "info"), ("method", "get"), ("handler", "/orders")]⟩ = 0 ∧
    (logrusHook.Fire httpEntry Registry.empty).1.counter ⟨"http_logrus_logs_total",
      [("level", "info"), ("method", "/orders"), ("handler", "get")]⟩ = 1 ∧
    (logrusHook.Fire httpEntry Registry.empty).1.counterTotal "http_logrus_logs_total" =
      1 := by
  decide

/-- C13, refuted: the entry of level info with `grpc_service = orders`, no
`grpc_method`, `method = GET` and `handler = /orders` leaves the whole vector
`http_logrus_logs_total` at 0 and raises only `logrus_logs_total{info}`. -/
theorem logrusHook.Fire_no_fall_through_counterexample :
    halfRPCEntry.stringField "grpc_service" = some "orders" ∧
    halfRPCEntry.stringField "grpc_method" = none ∧
    halfRPCEntry.hasHTTPContext = true ∧
    (logrusHook.Fire halfRPCEntry Registry.empty).1.counterTotal
      "http_logrus_logs_total" = 0 ∧
    (logrusHook.Fire halfRPCEntry Registry.empty).1.counterTotal
      "grpc_logrus_logs_total" = 0 ∧
    (logrusHook.Fire halfRPCEntry Registry.empty).1.counter
      ⟨"logrus_logs_total", [("level", "info")]⟩ = 1 := by
  decide

/-- C13, amended: an entry with a string `grpc_service` field and no string
`grpc_method` field is taken by the RPC branch and does not reach the HTTP case:
`Fire` has the effect of the increment of the global counter alone, so that every
series of `http_logrus_logs_total` and of `grpc_logrus_logs_total` is unchanged, also
when the entry carries `method` and `handler` fields. -/
theorem logrusHook.Fire_service_without_method (entry : Entry) (s : String)
    (r : Registry) (hs : entry.stringField "grpc_service" = some s)
    (hm : entry.stringField "grpc_method" = none) :
    (logrusHook.Fire entry r).1 = logrusMetricReporter.Inc entry.Level r ∧
    (∀ k : SeriesKey, k.name = "http_logrus_logs_total" →
      (logrusHook.Fire entry r).1.counter k = r.counter k) ∧
    (∀ k : SeriesKey, k.name = "grpc_logrus_logs_total" →
      (logrusHook.Fire entry r).1.counter k = r.counter k) ∧
    (logrusHook.Fire entry r).1.counter
        ⟨"logrus_logs_total", [("level", toLower entry.Level.String)]⟩ =
      r.counter ⟨"logrus_logs_total", [("level", toLower entry.Level.String)]⟩ + 1 := by
  have hf : (logrusHook.Fire entry r).1 = logrusMetricReporter.Inc entry.Level r := by
    simp [logrusHook.Fire, hs, hm]
  rw [hf]
  refine ⟨rfl, ?_, ?_, ?_⟩
  · intro k hk
    have h1 : ∀ l, k ≠ ⟨"logrus_logs_total", l⟩ := by
      intro l h; rw [h] at hk; simp at hk
    simp [logrusMetricReporter.Inc, Registry.counter_counterInc, h1]
  · intro k hk
    have h1 : ∀ l, k ≠ ⟨"logrus_logs_total", l⟩ := by
      intro l h; rw [h] at hk; simp at hk
    simp [logrusMetricReporter.Inc, Registry.counter_counterInc, h1]
  · simp [logrusMetricReporter.Inc, Registry.counter_counterInc]

/-- C13, amended, at the entry with `grpc_service = orders`, no `grpc_method` and an
HTTP context, from the empty registry. -/
theorem logrusHook.Fire_service_without_method_witness :
    halfRPCEntry.stringField "grpc_service" = some "orders" ∧
    halfRPCEntry.stringField "grpc_method" = none ∧
    halfRPCEntry.hasHTTPContext = true ∧
    (logrusHook.Fire halfRPCEntry Registry.empty).1 =
      logrusMetricReporter.Inc halfRPCEntry.Level Registry.empty :=
  ⟨by decide, by decide, by decide,
    (logrusHook.Fire_service_without_method halfRPCEntry "orders" Registry.empty
      (by decide) (by decide)).1⟩

/-- C14, refuted: trace is a level of the logger and is not among `Levels()`; an
entry emitted at trace level does not run the hook and leaves the registry as it
is, while the six other levels are among `Levels()`. -/
theorem logrusHook.Levels_counterexample :
    TraceLevel ∈ AllLevels ∧ TraceLevel ∉ logrusHook.Levels ∧
    logrusHook.Levels.length = 6 ∧
    fireHooks (Entry.mk TraceLevel []) Registry.empty = Registry.empty ∧
    (fireHooks (Entry.mk TraceLevel []) Registry.empty).counter
      ⟨"logrus_logs_total", [("level", "trace")]⟩ = 0 := by
  decide

/-- C14, amended: `Levels()` holds exactly the levels of the logger other than
trace, that is panic, fatal, error, warn, info and debug. An entry emitted at one of
these levels runs `Fire` and raises `logrus_logs_total` at its level by one; an entry
emitted at trace level does not run the hook and changes nothing. -/
theorem logrusHook.Levels_spec (lv : Level) (entry : Entry) (r : Registry) :
    (lv ∈ logrusHook.Levels ↔ lv ∈ AllLevels ∧ lv ≠ TraceLevel) ∧
    fireHooks entry r =
      (if entry.Level ∈ AllLevels ∧ entry.Level ≠ TraceLevel then
        (logrusHook.Fire entry r).1 else r) ∧
    (fireHooks entry r).counter
        ⟨"logrus_logs_total", [("level", toLower entry.Level.String)]⟩ =
      r.counter ⟨"logrus_logs_total", [("level", toLower entry.Level.String)]⟩ +
        (if entry.Level ∈ AllLevels ∧ entry.Level ≠ TraceLevel then 1 else 0) := by
  have hn : ∀ l : Nat, l ∈ [5, 4, 3, 2, 1, 0] ↔ l ∈ [0, 1, 2, 3, 4, 5, 6] ∧ l ≠ 6 := by
    intro l
    simp only [List.mem_cons, List.mem_singleton, List.not_mem_nil, or_false]
    omega
  have hl : ∀ l : Level, l ∈ logrusHook.Levels ↔ l ∈ AllLevels ∧ l ≠ TraceLevel :=
    fun l => hn l
  refine ⟨hl lv, ?_, ?_⟩
  · by_cases h : entry.Level ∈ logrusHook.Levels
    · simp [fireHooks, h, (hl entry.Level).1 h]
    · have h1 : ¬ (entry.Level ∈ AllLevels ∧ entry.Level ≠ TraceLevel) :=
        fun hc => h ((hl entry.Level).2 hc)
      simp only [fireHooks, h, h1, if_false]
  · by_cases h : entry.Level ∈ logrusHook.Levels
    · have h1 := (hl entry.Level).1 h
      rw [if_pos h1]
      simp only [fireHooks, h, if_true]
      exact logrusHook.global_counter_after_Fire entry r
    · have h1 : ¬ (entry.Level ∈ AllLevels ∧ entry.Level ≠ TraceLevel) :=
        fun hc => h ((hl entry.Level).2 hc)
      rw [if_neg h1]
      simp only [fireHooks, h, if_false, Nat.add_zero]

/-! ## s3.go: the bucket label -/

/-- The closures returned by `BeginPut` and `BeginGet` of `S3Metrics` are the same for
every bucket name. -/
theorem S3Metrics.Begin_ignores_bucket (b1 b2 : String) (now : Int) :
    (NewS3Metrics b1).BeginPut now = (NewS3Metrics b2).BeginPut now ∧
    (NewS3Metrics b1).BeginGet now = (NewS3Metrics b2).BeginGet now :=
  ⟨rfl, rfl⟩

/-- C15, the code at bucket `Assets` and code `OK`, begun at time 0 and ended at time
5 from the empty registry: `BeginPut` leaves `s3_objects_put_total` and
`s3_objects_put_duration_seconds` at `{bucket="assets", code="ok"}` untouched and
writes the increment and the observation under the empty bucket label; `BeginGet`
does the same with `s3_objects_get_total` and `s3_objects_got_duration_seconds`; the
DynamoDB adapter, its sibling, writes under the lowercased table name. -/
theorem S3Metrics.Begin_bucket_label :
    ((NewS3Metrics "Assets").BeginPut 0 "OK" 5 Registry.empty).counter
      ⟨"s3_objects_put_total", [("bucket", "assets"), ("code", "ok")]⟩ = 0 ∧
    ((NewS3Metrics "Assets").BeginPut 0 "OK" 5 Registry.empty).counter
      ⟨"s3_objects_put_total", [("bucket", ""), ("code", "ok")]⟩ = 1 ∧
    ((NewS3Metrics "Assets").BeginPut 0 "OK" 5 Registry.empty).histogram
      ⟨"s3_objects_put_duration_seconds", [("bucket", "assets"), ("code", "ok")]⟩ = [] ∧
    ((NewS3Metrics "Assets").BeginPut 0 "OK" 5 Registry.empty).histogram
      ⟨"s3_objects_put_duration_seconds", [("bucket", ""), ("code", "ok")]⟩ = [5] ∧
    ((NewS3Metrics "Assets").BeginGet 0 "OK" 5 Registry.empty).counter
      ⟨"s3_objects_get_total", [("bucket", "assets"), ("code", "ok")]⟩ = 0 ∧
    ((NewS3Metrics "Assets").BeginGet 0 "OK" 5 Registry.empty).counter
      ⟨"s3_objects_get_total", [("bucket", ""), ("code", "ok")]⟩ = 1 ∧
    ((NewS3Metrics "Assets").BeginGet 0 "OK" 5 Registry.empty).histogram
      ⟨"s3_objects_got_duration_seconds", [("bucket", "assets"), ("code", "ok")]⟩ = [] ∧
    ((NewS3Metrics "Assets").BeginGet 0 "OK" 5 Registry.empty).histogram
      ⟨"s3_objects_got_duration_seconds", [("bucket", ""), ("code", "ok")]⟩ = [5] ∧
    ((NewDynamoDBMetrics "Assets").BeginPut 0 "OK" 5 Registry.empty).counter
      ⟨"dynamo_put_total", [("table", "assets"), ("code", "ok")]⟩ = 1 := by
  decide

/-! ## worker.go: the dead-letter counter -/

/-- C16: for every `WorkerMetrics` value, begun or not, and every registry,
`IncDeadLetter` raises `worker_dead_letter_messages_total` at the lowercased queue
name by one, leaves every other counter series unchanged, among them those of
`worker_messages_total`, touches no gauge and no histogram, and leaves the
`WorkerMetrics` value, its begin flag included, as it is. -/
theorem WorkerMetrics.IncDeadLetter_frame (m : WorkerMetrics) (r : Registry) :
    (m.IncDeadLetter r).counter
        ⟨"worker_dead_letter_messages_total", [("queue", toLower m.queue)]⟩ =
      r.counter ⟨"worker_dead_letter_messages_total", [("queue", toLower m.queue)]⟩ + 1 ∧
    (∀ k : SeriesKey,
      k ≠ ⟨"worker_dead_letter_messages_total", [("queue", toLower m.queue)]⟩ →
      (m.IncDeadLetter r).counter k = r.counter k) ∧
    (∀ l, (m.IncDeadLetter r).counter ⟨"worker_messages_total", l⟩ =
      r.counter ⟨"worker_messages_total", l⟩) ∧
    (m.IncDeadLetter r).gauges = r.gauges ∧
    (m.IncDeadLetter r).histograms = r.histograms ∧
    WorkerMetrics.call (m, r) .IncDeadLetter = (m, m.IncDeadLetter r) := by
  refine ⟨?_, ?_, ?_, rfl, rfl, rfl⟩
  · simp [WorkerMetrics.IncDeadLetter, WorkerMetrics.label, Registry.counter_counterInc]
  · intro k hk
    simp [WorkerMetrics.IncDeadLetter, WorkerMetrics.label, Registry.counter_counterInc, hk]
  · intro l
    simp [WorkerMetrics.IncDeadLetter, WorkerMetrics.label, Registry.counter_counterInc]

/-! ## db.go and worker.go: a second Begin -/

/-- C17: on a `WorkerMetrics` and on a `DBQueryMetrics` that are not in a session, a
second `Begin` before `End` returns the state of the first `Begin` unchanged, so that
`Begin; Begin` raises the in-flight gauge by exactly one and `Begin; Begin; End` brings
it back to its value before. -/
theorem Begin_twice_guarded (w : WorkerMetrics) (d : DBQueryMetrics) (code : String)
    (t1 t2 t3 : Int) (r : Registry) (hw : w.begin = false) (hd : d.begin = false) :
    (w.Begin t1 r).1.Begin t2 (w.Begin t1 r).2 = w.Begin t1 r ∧
    ((w.Begin t1 r).1.Begin t2 (w.Begin t1 r).2).2.gauge
        ⟨"worker_messages_in_flight", [("queue", toLower w.queue)]⟩ =
      r.gauge ⟨"worker_messages_in_flight", [("queue", toLower w.queue)]⟩ + 1 ∧
    (((w.Begin t1 r).1.Begin t2 (w.Begin t1 r).2).1.End code t3
        ((w.Begin t1 r).1.Begin t2 (w.Begin t1 r).2).2).2.gauge
        ⟨"worker_messages_in_flight", [("queue", toLower w.queue)]⟩ =
      r.gauge ⟨"worker_messages_in_flight", [("queue", toLower w.queue)]⟩ ∧
    (d.Begin t1 r).1.Begin t2 (d.Begin t1 r).2 = d.Begin t1 r ∧
    ((d.Begin t1 r).1.Begin t2 (d.Begin t1 r).2).2.gauge
        ⟨"database_queries_in_flight",
          [("database", toLower d.database), ("method", toLower d.method)]⟩ =
      r.gauge ⟨"database_queries_in_flight",
          [("database", toLower d.database), ("method", toLower d.method)]⟩ + 1 ∧
    (((d.Begin t1 r).1.Begin t2 (d.Begin t1 r).2).1.End
        ((d.Begin t1 r).1.Begin t2 (d.Begin t1 r).2).2).2.gauge
        ⟨"database_queries_in_flight",
          [("database", toLower d.database), ("method", toLower d.method)]⟩ =
      r.gauge ⟨"database_queries_in_flight",
          [("database", toLower d.database), ("method", toLower d.method)]⟩ := by
  refine ⟨?_, ?_, ?_, ?_, ?_, ?_⟩
  · simp [WorkerMetrics.Begin, hw]
  · simp [WorkerMetrics.Begin, hw, WorkerMetrics.incInFlight, WorkerMetrics.label,
      Registry.gauge_gaugeInc]
  · simp [WorkerMetrics.Begin, WorkerMetrics.End, hw, WorkerMetrics.incInFlight,
      WorkerMetrics.decInFlight, WorkerMetrics.processed,
      WorkerMetrics.observeProcessingTime, WorkerMetrics.label,
      Registry.gauge_gaugeInc, Registry.gauge_gaugeDec]
  · simp [DBQueryMetrics.Begin, hd]
  · simp [DBQueryMetrics.Begin, hd, DBQueryMetrics.incInFlight, DBQueryMetrics.label,
      Registry.gauge_gaugeInc]
  · simp [DBQueryMetrics.Begin, DBQueryMetrics.End, hd, DBQueryMetrics.incInFlight,
      DBQueryMetrics.decInFlight, DBQueryMetrics.label, Registry.gauge_gaugeInc,
      Registry.gauge_gaugeDec]

/-- C17 at a fresh `WorkerMetrics` for queue `Jobs` and a fresh `DBQueryMetrics` for
database `Main` and method `GetUser`, from the empty registry. -/
theorem Begin_twice_guarded_witness :
    (NewWorkerMetrics "Jobs" 0).begin = false ∧
    (NewDBQueryMetrics "Main" "GetUser" 0).begin = false ∧
    ((NewWorkerMetrics "Jobs" 0).Begin 1 Registry.empty).1.Begin 2
        ((NewWorkerMetrics "Jobs" 0).Begin 1 Registry.empty).2 =
      (NewWorkerMetrics "Jobs" 0).Begin 1 Registry.empty ∧
    ((NewDBQueryMetrics "Main" "GetUser" 0).Begin 1 Registry.empty).1.Begin 2
        ((NewDBQueryMetrics "Main" "GetUser" 0).Begin 1 Registry.empty).2 =
      (NewDBQueryMetrics "Main" "GetUser" 0).Begin 1 Registry.empty :=
  ⟨rfl, rfl,
    (Begin_twice_guarded (NewWorkerMetrics "Jobs" 0) (NewDBQueryMetrics "Main" "GetUser" 0)
      "ok" 1 2 3 Registry.empty rfl rfl).1,
    (Begin_twice_guarded (NewWorkerMetrics "Jobs" 0) (NewDBQueryMetrics "Main" "GetUser" 0)
      "ok" 1 2 3 Registry.empty rfl rfl).2.2.2.1⟩

/-! ## db.go: the documented usage -/

/-- C18: the documented usage `Begin`, `Processed(code)`, `End` on
`NewDBQueryMetrics(d, m)` leaves every gauge series at its value before, raises
`database_queries_total` at the lowercased database, method and code by one and no
other counter series, appends to `database_queries_duration_seconds` at the lowercased
database and method the time from `Begin` to `Processed` and changes no other
histogram series, and ends with the begin flag unset. -/
theorem DBQueryMetrics.documentedUsage_effect (d m code : String) (t0 t1 t2 : Int)
    (r : Registry) :
    (∀ k : SeriesKey,
      ((NewDBQueryMetrics d m t0).documentedUsage code t1 t2 r).2.gauge k = r.gauge k) ∧
    ((NewDBQueryMetrics d m t0).documentedUsage code t1 t2 r).2.counter
        ⟨"database_queries_total",
          [("database", toLower d), ("method", toLower m), ("code", toLower code)]⟩ =
      r.counter ⟨"database_queries_total",
          [("database", toLower d), ("method", toLower m), ("code", toLower code)]⟩ + 1 ∧
    (∀ k : SeriesKey, k ≠ ⟨"database_queries_total",
          [("database", toLower d), ("method", toLower m), ("code", toLower code)]⟩ →
      ((NewDBQueryMetrics d m t0).documentedUsage code t1 t2 r).2.counter k =
        r.counter k) ∧
    ((NewDBQueryMetrics d m t0).documentedUsage code t1 t2 r).2.histogram
        ⟨"database_queries_duration_seconds",
          [("database", toLower d), ("method", toLower m)]⟩ =
      r.histogram ⟨"database_queries_duration_seconds",
          [("database", toLower d), ("method", toLower m)]⟩ ++ [t2 - t1] ∧
    (∀ k : SeriesKey, k ≠ ⟨"database_queries_duration_seconds",
          [("database", toLower d), ("method", toLower m)]⟩ →
      ((NewDBQueryMetrics d m t0).documentedUsage code t1 t2 r).2.histogram k =
        r.histogram k) ∧
    ((NewDBQueryMetrics d m t0).documentedUsage code t1 t2 r).1.begin = false := by
  have hu : (NewDBQueryMetrics d m t0).documentedUsage code t1 t2 r =
      ({ database := d, method := m, t := t1, begin := false },
        (((r.gaugeInc ⟨"database_queries_in_flight",
            [("database", toLower d), ("method", toLower m)]⟩).counterInc
          ⟨"database_queries_total",
            [("database", toLower d), ("method", toLower m),
              ("code", toLower code)]⟩).observe
          ⟨"database_queries_duration_seconds",
            [("database", toLower d), ("method", toLower m)]⟩ (t2 - t1)).gaugeDec
          ⟨"database_queries_in_flight",
            [("database", toLower d), ("method", toLower m)]⟩) := by
    simp [DBQueryMetrics.documentedUsage, NewDBQueryMetrics, DBQueryMetrics.Begin,
      DBQueryMetrics.End, DBQueryMetrics.Processed, DBQueryMetrics.processed,
      DBQueryMetrics.observeProcessingTime, DBQueryMetrics.incInFlight,
      DBQueryMetrics.decInFlight, DBQueryMetrics.label]
  rw [hu]
  refine ⟨?_, ?_, ?_, ?_, ?_, rfl⟩
  · intro k
    by_cases hk : k = ⟨"database_queries_in_flight",
        [("database", toLower d), ("method", toLower m)]⟩
    · subst hk
      simp [Registry.gauge_gaugeDec, Registry.gauge_gaugeInc]
    · simp [Registry.gauge_gaugeDec, Registry.gauge_gaugeInc, hk]
  · have hc : ∀ (r1 : Registry) (k1 k2 : SeriesKey),
        (r1.gaugeDec k1).counter k2 = r1.counter k2 := fun _ _ _ => rfl
    simp [hc, Registry.counter_counterInc]
  · intro k hk
    have hc : ∀ (r1 : Registry) (k1 k2 : SeriesKey),
        (r1.gaugeDec k1).counter k2 = r1.counter k2 := fun _ _ _ => rfl
    simp [hc, Registry.counter_counterInc, hk]
  · simp [Registry.histogram_observe]
  · intro k hk
    simp [Registry.histogram_observe, hk]

/-! ## cache.go: hits, misses and sets -/

/-- C19: for every cache name, `IncGet(nil)` raises `cache_hits_total` of the name by
one and `IncGet` of a non-nil error raises `cache_misses_total` of the name by one;
`IncSet(nil)` raises `cache_sets_total` of the name under result `success` by one and
`IncSet` of a non-nil error raises it under result `failure`. Each call leaves every
other counter series unchanged, so neither operation touches a series of the other,
and touches no gauge and no histogram. -/
theorem CacheMetrics.classification (name : String) (e : GoError) (r : Registry) :
    ((NewCacheMetrics name).IncGet none r).counter
        ⟨"cache_hits_total", [("cache_name", name)]⟩ =
      r.counter ⟨"cache_hits_total", [("cache_name", name)]⟩ + 1 ∧
    (∀ k : SeriesKey, k ≠ ⟨"cache_hits_total", [("cache_name", name)]⟩ →
      ((NewCacheMetrics name).IncGet none r).counter k = r.counter k) ∧
    ((NewCacheMetrics name).IncGet (some e) r).counter
        ⟨"cache_misses_total", [("cache_name", name)]⟩ =
      r.counter ⟨"cache_misses_total", [("cache_name", name)]⟩ + 1 ∧
    (∀ k : SeriesKey, k ≠ ⟨"cache_misses_total", [("cache_name", name)]⟩ →
      ((NewCacheMetrics name).IncGet (some e) r).counter k = r.counter k) ∧
    ((NewCacheMetrics name).IncSet none r).counter
        ⟨"cache_sets_total", [("cache_name", name), ("result", "success")]⟩ =
      r.counter
        ⟨"cache_sets_total", [("cache_name", name), ("result", "success")]⟩ + 1 ∧
    (∀ k : SeriesKey,
      k ≠ ⟨"cache_sets_total", [("cache_name", name), ("result", "success")]⟩ →
      ((NewCacheMetrics name).IncSet none r).counter k = r.counter k) ∧
    ((NewCacheMetrics name).IncSet (some e) r).counter
        ⟨"cache_sets_total", [("cache_name", name), ("result", "failure")]⟩ =
      r.counter
        ⟨"cache_sets_total", [("cache_name", name), ("result", "failure")]⟩ + 1 ∧
    (∀ k : SeriesKey,
      k ≠ ⟨"cache_sets_total", [("cache_name", name), ("result", "failure")]⟩ →
      ((NewCacheMetrics name).IncSet (some e) r).counter k = r.counter k) ∧
    (∀ err : Error, ((NewCacheMetrics name).IncGet err r).gauges = r.gauges ∧
      ((NewCacheMetrics name).IncGet err r).histograms = r.histograms ∧
      ((NewCacheMetrics name).IncSet err r).gauges = r.gauges ∧
      ((NewCacheMetrics name).IncSet err r).histograms = r.histograms) := by
  refine ⟨?_, ?_, ?_, ?_, ?_, ?_, ?_, ?_, ?_⟩
  · simp [CacheMetrics.IncGet, NewCacheMetrics, Registry.counter_counterInc]
  · intro k hk
    simp [CacheMetrics.IncGet, NewCacheMetrics, Registry.counter_counterInc, hk]
  · simp [CacheMetrics.IncGet, NewCacheMetrics, Registry.counter_counterInc]
  · intro k hk
    simp [CacheMetrics.IncGet, NewCacheMetrics, Registry.counter_counterInc, hk]
  · simp [CacheMetrics.IncSet, NewCacheMetrics, Registry.counter_counterInc, success]
  · intro k hk
    simp [CacheMetrics.IncSet, NewCacheMetrics, Registry.counter_counterInc, success, hk]
  · simp [CacheMetrics.IncSet, NewCacheMetrics, Registry.counter_counterInc, failure]
  · intro k hk
    simp [CacheMetrics.IncSet, NewCacheMetrics, Registry.counter_counterInc, failure, hk]
  · intro err
    cases err <;> simp [CacheMetrics.IncGet, CacheMetrics.IncSet, Registry.counterInc]

/-! ## Counters never go down -/

theorem Registry.counter_congr {r1 r2 : Registry} (h : r1.counters = r2.counters)
    (k : SeriesKey) : r1.counter k = r2.counter k := by
  simp [Registry.counter, h]

theorem Registry.counter_step_same {r1 r : Registry} (h : r1.counters = r.counters)
    (k : SeriesKey) : r1.counter k = r.counter k ∨ r1.counter k = r.counter k + 1 :=
  Or.inl (Registry.counter_congr h k)

theorem Registry.counter_step_inc {r1 r : Registry} (key : SeriesKey)
    (h : r1.counters = (r.counterInc key).counters) (k : SeriesKey) :
    r1.counter k = r.counter k ∨ r1.counter k = r.counter k + 1 := by
  rw [Registry.counter_congr h k, Registry.counter_counterInc]
  by_cases hk : k = key
  · right; simp [hk]
  · left; simp [hk]

theorem Registry.counter_step_inc_inc {r1 r : Registry} (key1 key2 : SeriesKey)
    (hne : key1 ≠ key2)
    (h : r1.counters = ((r.counterInc key1).counterInc key2).counters) (k : SeriesKey) :
    r1.counter k = r.counter k ∨ r1.counter k = r.counter k + 1 := by
  rw [Registry.counter_congr h k, Registry.counter_counterInc, Registry.counter_counterInc]
  by_cases hk2 : k = key2
  · have hk1 : k ≠ key1 := fun h1 => hne (h1.symm.trans hk2)
    right; simp [hk2, hk1, Ne.symm hne]
  · by_cases hk1 : k = key1
    · right; simp [hk2, hk1, hne]
    · left; simp [hk2, hk1]

/-- One call of any operation leaves a counter series as it is or raises it by
one. -/
theorem AdapterOp.counter_apply (op : AdapterOp) (r : Registry) (k : SeriesKey) :
    (AdapterOp.apply r op).counter k = r.counter k ∨
      (AdapterOp.apply r op).counter k = r.counter k + 1 := by
  cases op with
  | workerBegin m now =>
    refine Registry.counter_step_same ?_ k
    cases hb : m.begin <;> simp [AdapterOp.apply, WorkerMetrics.Begin, hb,
      WorkerMetrics.incInFlight, Registry.gaugeInc]
  | workerEnd m code now =>
    cases hb : m.begin
    · refine Registry.counter_step_same ?_ k
      simp [AdapterOp.apply, WorkerMetrics.End, hb]
    · refine Registry.counter_step_inc ⟨"worker_messages_total", m.labelWithCode code⟩ ?_ k
      simp [AdapterOp.apply, WorkerMetrics.End, hb, WorkerMetrics.decInFlight,
        WorkerMetrics.processed, WorkerMetrics.observeProcessingTime, Registry.gaugeDec,
        Registry.observe, Registry.counterInc]
  | workerIncDeadLetter m =>
    exact Registry.counter_step_inc ⟨"worker_dead_letter_messages_total", m.label⟩ rfl k
  | dbBegin m now =>
    refine Registry.counter_step_same ?_ k
    cases hb : m.begin <;> simp [AdapterOp.apply, DBQueryMetrics.Begin, hb,
      DBQueryMetrics.incInFlight, Registry.gaugeInc]
  | dbEnd m =>
    refine Registry.counter_step_same ?_ k
    cases hb : m.begin <;> simp [AdapterOp.apply, DBQueryMetrics.End, hb,
      DBQueryMetrics.decInFlight, Registry.gaugeDec]
  | dbProcessed m code now =>
    exact Registry.counter_step_inc
      ⟨"database_queries_total", m.label ++ [("code", toLower code)]⟩ rfl k
  | cacheIncGet c err =>
    cases err with
    | none =>
      exact Registry.counter_step_inc ⟨"cache_hits_total", [("cache_name", c.cacheName)]⟩
        rfl k
    | some e =>
      exact Registry.counter_step_inc ⟨"cache_misses_total", [("cache_name", c.cacheName)]⟩
        rfl k
  | cacheIncSet c err =>
    exact Registry.counter_step_inc ⟨"cache_sets_total",
      [("cache_name", c.cacheName), ("result", if err.isSome then failure else success)]⟩
      rfl k
  | httpInc m statusCode =>
    exact Registry.counter_step_inc ⟨"http_requests_total",
      [("method", m.labels.value "method"), ("handler", m.labels.value "handler"),
       ("code", FormatDecimalInt statusCode)]⟩ rfl k
  | s3PutEnd m start code now =>
    exact Registry.counter_step_inc
      ⟨"s3_objects_put_total", [("bucket", toLower ""), ("code", toLower code)]⟩ rfl k
  | s3GetEnd m start code now =>
    exact Registry.counter_step_inc
      ⟨"s3_objects_get_total", [("bucket", toLower ""), ("code", toLower code)]⟩ rfl k
  | dynamoPutEnd m start code now =>
    exact Registry.counter_step_inc
      ⟨"dynamo_put_total", [("table", toLower m.table), ("code", toLower code)]⟩ rfl k
  | dynamoGetEnd m start code now =>
    exact Registry.counter_step_inc
      ⟨"dynamo_get_total", [("table", toLower m.table), ("code", toLower code)]⟩ rfl k
  | searchCreateIndexEnd m index start code now =>
    exact Registry.counter_step_inc ⟨"search_create_index_total",
      [("provider", m.providerName), ("index", toLower index), ("code", toLower code)]⟩
      rfl k
  | searchIndexDocumentEnd m index start code now =>
    exact Registry.counter_step_inc ⟨"search_index_document_total",
      [("provider", m.providerName), ("index", toLower index), ("code", toLower code)]⟩
      rfl k
  | searchGetDocumentEnd m index start code now =>
    exact Registry.counter_step_inc ⟨"search_get_document_total",
      [("provider", m.providerName), ("index", toLower index), ("code", toLower code)]⟩
      rfl k
  | searchSearchDocumentsEnd m indexes start code now =>
    exact Registry.counter_step_inc ⟨"search_query_documents_total",
      [("provider", m.providerName), ("index", strFromSlice indexes),
       ("code", toLower code)]⟩ rfl k
  | searchPointInTimeEnd m operation start code now =>
    exact Registry.counter_step_inc ⟨"search_point_in_time_requests_total",
      [("provider", m.providerName), ("operation", toLower operation),
       ("code", toLower code)]⟩ rfl k
  | apiEnd a start err now =>
    exact Registry.counter_step_inc ⟨"third_party_api_requests_total",
      [("api_name", a.apiName), ("api_method", a.apiMethod),
       ("result", apiCallResultFromError err)]⟩ rfl k
  | serviceStarting m =>
    exact Registry.counter_step_inc ⟨"service_activities_total",
      m.labels ++ [("activity", ActivityStarting)]⟩ rfl k
  | serviceStopped m =>
    exact Registry.counter_step_inc ⟨"service_activities_total",
      m.labels ++ [("activity", ActivityStopped)]⟩ rfl k
  | fire entry =>
    rcases logrusHook.Fire_cases entry r with hf | ⟨s, m, _, _, hf⟩ | ⟨h, m, _, _, _, hf⟩
    · exact Registry.counter_step_inc
        ⟨"logrus_logs_total", [("level", toLower entry.Level.String)]⟩
        (by simp [AdapterOp.apply, hf, logrusMetricReporter.Inc]) k
    · refine Registry.counter_step_inc_inc
        ⟨"logrus_logs_total", [("level", toLower entry.Level.String)]⟩
        ⟨"grpc_logrus_logs_total",
          [("level", toLower entry.Level.String), ("grpc_service", toLower s),
           ("grpc_method", toLower m)]⟩ (by simp) ?_ k
      simp [AdapterOp.apply, hf, logrusMetricReporter.Inc, logrusMetricReporter.IncRPC]
    · refine Registry.counter_step_inc_inc
        ⟨"logrus_logs_total", [("level", toLower entry.Level.String)]⟩
        ⟨"http_logrus_logs_total",
          [("level", toLower entry.Level.String), ("method", toLower h),
           ("handler", toLower m)]⟩ (by simp) ?_ k
      simp [AdapterOp.apply, hf, logrusMetricReporter.Inc, logrusMetricReporter.IncHTTP]

theorem AdapterOp.run_counter_le (ops : List AdapterOp) :
    ∀ (r : Registry) (k : SeriesKey), r.counter k ≤ (AdapterOp.run r ops).counter k := by
  induction ops with
  | nil => intro r k; exact Nat.le_refl _
  | cons op rest ih =>
    intro r k
    have h1 := AdapterOp.counter_apply op r k
    have h2 := ih (AdapterOp.apply r op) k
    have h3 : AdapterOp.run r (op :: rest) = AdapterOp.run (AdapterOp.apply r op) rest := rfl
    rw [h3]
    omega

theorem AdapterOp.run_append (r : Registry) (ops1 ops2 : List AdapterOp) :
    AdapterOp.run r (ops1 ++ ops2) = AdapterOp.run (AdapterOp.run r ops1) ops2 := by
  simp [AdapterOp.run, List.foldl_append]

/-- C20: every operation of the adapters (worker `Begin`, `End`, `IncDeadLetter`;
database `Begin`, `End`, `Processed`; cache `IncGet`, `IncSet`; HTTP `Inc`; the
closures returned by the S3, DynamoDB, search and third-party API `Begin*` methods;
`ServiceStarting`, `ServiceStopped`; the log hook `Fire`) leaves each counter series
as it is or raises it by one, from every registry. So along every sequence of
operations run from the registry with all counters at zero, no counter series ever
goes down: its value after more operations is at least its value after fewer, and
at least zero. -/
theorem AdapterOp.counters_monotonic (op : AdapterOp) (ops1 ops2 : List AdapterOp)
    (r : Registry) (k : SeriesKey) :
    ((AdapterOp.apply r op).counter k = r.counter k ∨
      (AdapterOp.apply r op).counter k = r.counter k + 1) ∧
    Registry.empty.counter k = 0 ∧
    (AdapterOp.run Registry.empty ops1).counter k ≤
      (AdapterOp.run Registry.empty (ops1 ++ ops2)).counter k ∧
    ((AdapterOp.run Registry.empty (ops1 ++ [op])).counter k =
        (AdapterOp.run Registry.empty ops1).counter k ∨
      (AdapterOp.run Registry.empty (ops1 ++ [op])).counter k =
        (AdapterOp.run Registry.empty ops1).counter k + 1) := by
  refine ⟨AdapterOp.counter_apply op r k, rfl, ?_, ?_⟩
  · rw [AdapterOp.run_append]
    exact AdapterOp.run_counter_le ops2 _ k
  · rw [AdapterOp.run_append]
    exact AdapterOp.counter_apply op _ k

/-! ## worker.go: the gauge follows the begin flag -/

/-- After any sequence of calls from any state, the gauge of the queue has moved by
the difference between the begin flag after and the begin flag before. -/
theorem WorkerMetrics.run_gauge_flag (calls : List WorkerCall) :
    ∀ (m : WorkerMetrics) (r : Registry),
      (WorkerMetrics.run (m, r) calls).1.queue = m.queue ∧
      (WorkerMetrics.run (m, r) calls).2.gauge
          ⟨"worker_messages_in_flight", [("queue", toLower m.queue)]⟩ +
          (if m.begin then 1 else 0) =
        r.gauge ⟨"worker_messages_in_flight", [("queue", toLower m.queue)]⟩ +
          (if (WorkerMetrics.run (m, r) calls).1.begin then 1 else 0) := by
  induction calls with
  | nil => intro m r; simp [WorkerMetrics.run]
  | cons call rest ih =>
    intro m r
    rw [WorkerMetrics.run_cons]
    cases call with
    | Begin now =>
      cases hb : m.begin
      · have hstep : WorkerMetrics.call (m, r) (.Begin now) =
            ({ queue := m.queue, t := now, begin := true },
              r.gaugeInc ⟨"worker_messages_in_flight", [("queue", toLower m.queue)]⟩) := by
          simp [WorkerMetrics.call, WorkerMetrics.Begin, hb, WorkerMetrics.incInFlight,
            WorkerMetrics.label]
        rw [hstep]
        obtain ⟨h1, h2⟩ := ih { queue := m.queue, t := now, begin := true }
          (r.gaugeInc ⟨"worker_messages_in_flight", [("queue", toLower m.queue)]⟩)
        refine ⟨h1, ?_⟩
        simp only [Registry.gauge_gaugeInc, if_true] at h2
        simp only [Bool.false_eq_true, if_false]
        omega
      · have hstep : WorkerMetrics.call (m, r) (.Begin now) = (m, r) := by
          simp [WorkerMetrics.call, WorkerMetrics.Begin, hb]
        rw [hstep]
        have h := ih m r
        rw [hb] at h
        exact h
    | End code now =>
      cases hb : m.begin
      · have hstep : WorkerMetrics.call (m, r) (.End code now) = (m, r) := by
          simp [WorkerMetrics.call, WorkerMetrics.End, hb]
        rw [hstep]
        have h := ih m r
        rw [hb] at h
        exact h
      · have hstep : WorkerMetrics.call (m, r) (.End code now) =
            ({ queue := m.queue, t := m.t, begin := false },
              ((r.gaugeDec
                  ⟨"worker_messages_in_flight", [("queue", toLower m.queue)]⟩).counterInc
                ⟨"worker_messages_total",
                  [("queue", toLower m.queue), ("code", toLower code)]⟩).observe
                ⟨"worker_messages_processing_duration_seconds",
                  [("queue", toLower m.queue), ("code", toLower code)]⟩ (now - m.t)) := by
          simp [WorkerMetrics.call, WorkerMetrics.End, hb, WorkerMetrics.decInFlight,
            WorkerMetrics.processed, WorkerMetrics.observeProcessingTime,
            WorkerMetrics.labelWithCode, WorkerMetrics.label]
        rw [hstep]
        obtain ⟨h1, h2⟩ := ih { queue := m.queue, t := m.t, begin := false }
          (((r.gaugeDec
              ⟨"worker_messages_in_flight", [("queue", toLower m.queue)]⟩).counterInc
            ⟨"worker_messages_total",
              [("queue", toLower m.queue), ("code", toLower code)]⟩).observe
            ⟨"worker_messages_processing_duration_seconds",
              [("queue", toLower m.queue), ("code", toLower code)]⟩ (now - m.t))
        refine ⟨h1, ?_⟩
        simp only [Registry.gauge_observe, Registry.gauge_counterInc,
          Registry.gauge_gaugeDec, if_true, Bool.false_eq_true, if_false] at h2
        simp only [if_true]
        omega
    | IncDeadLetter =>
      have hstep : WorkerMetrics.call (m, r) .IncDeadLetter =
          (m, r.counterInc
            ⟨"worker_dead_letter_messages_total", [("queue", toLower m.queue)]⟩) := by
        simp [WorkerMetrics.call, WorkerMetrics.IncDeadLetter, WorkerMetrics.label]
      rw [hstep]
      obtain ⟨h1, h2⟩ := ih m (r.counterInc
        ⟨"worker_dead_letter_messages_total", [("queue", toLower m.queue)]⟩)
      refine ⟨h1, ?_⟩
      simpa using h2

/-- C24: for a `WorkerMetrics` that is not in a session when the sequence starts, as
`NewWorkerMetrics` returns it, and after every finite sequence of `Begin`,
`End(code)` and `IncDeadLetter` calls on it, the in-flight gauge of its queue is its
value before the sequence plus 1 when the begin flag is set and plus 0 when it is not;
so the gauge is never below its value before and never more than one above it. -/
theorem WorkerMetrics.gauge_follows_flag (m : WorkerMetrics) (calls : List WorkerCall)
    (r : Registry) (hb : m.begin = false) :
    (WorkerMetrics.run (m, r) calls).2.gauge
        ⟨"worker_messages_in_flight", [("queue", toLower m.queue)]⟩ =
      r.gauge ⟨"worker_messages_in_flight", [("queue", toLower m.queue)]⟩ +
        (if (WorkerMetrics.run (m, r) calls).1.begin then 1 else 0) ∧
    r.gauge ⟨"worker_messages_in_flight", [("queue", toLower m.queue)]⟩ ≤
      (WorkerMetrics.run (m, r) calls).2.gauge
        ⟨"worker_messages_in_flight", [("queue", toLower m.queue)]⟩ ∧
    (WorkerMetrics.run (m, r) calls).2.gauge
        ⟨"worker_messages_in_flight", [("queue", toLower m.queue)]⟩ ≤
      r.gauge ⟨"worker_messages_in_flight", [("queue", toLower m.queue)]⟩ + 1 := by
  obtain ⟨_, h⟩ := WorkerMetrics.run_gauge_flag calls m r
  rw [hb] at h
  simp only [Bool.false_eq_true, if_false, add_zero] at h
  refine ⟨h, ?_, ?_⟩
  · rw [h]; split <;> omega
  · rw [h]; split <;> omega

/-- C24 on a fresh `WorkerMetrics` for queue `Jobs` and the calls `End`, `Begin`,
`Begin`, `IncDeadLetter`, which leave it in a session with the gauge at 1. -/
theorem WorkerMetrics.gauge_follows_flag_witness :
    (NewWorkerMetrics "Jobs" 0).begin = false ∧
    (WorkerMetrics.run (NewWorkerMetrics "Jobs" 0, Registry.empty)
        [.End "ok" 1, .Begin 2, .Begin 3, .IncDeadLetter]).1.begin = true ∧
    (WorkerMetrics.run (NewWorkerMetrics "Jobs" 0, Registry.empty)
        [.End "ok" 1, .Begin 2, .Begin 3, .IncDeadLetter]).2.gauge
        ⟨"worker_messages_in_flight", [("queue", toLower (NewWorkerMetrics "Jobs" 0).queue)]⟩ =
      Registry.empty.gauge
          ⟨"worker_messages_in_flight",
            [("queue", toLower (NewWorkerMetrics "Jobs" 0).queue)]⟩ +
        (if (WorkerMetrics.run (NewWorkerMetrics "Jobs" 0, Registry.empty)
          [.End "ok" 1, .Begin 2, .Begin 3, .IncDeadLetter]).1.begin then 1 else 0) :=
  ⟨rfl, by decide,
    (WorkerMetrics.gauge_follows_flag (NewWorkerMetrics "Jobs" 0)
      [.End "ok" 1, .Begin 2, .Begin 3, .IncDeadLetter] Registry.empty rfl).1⟩

/-! ## search.go: the key of a list of indexes -/

theorem charsLess_irrefl (a : List Char) : charsLess a a = false := by
  induction a with
  | nil => rfl
  | cons c rest ih => simp [charsLess, ih]

theorem charsLess_asymm (a : List Char) :
    ∀ b, charsLess a b = true → charsLess b a = false := by
  induction a with
  | nil => intro b _; cases b <;> rfl
  | cons c rest ih =>
    intro b h
    cases b with
    | nil => simp [charsLess] at h
    | cons d rest2 =>
      by_cases h1 : c.toNat < d.toNat
      · have h2 : ¬ d.toNat < c.toNat := by omega
        simp [charsLess, h1, h2]
      · by_cases h2 : d.toNat < c.toNat
        · simp [charsLess, h1, h2] at h
        · simp only [charsLess, h1, h2, if_false] at h ⊢
          exact ih rest2 h

theorem charsLess_cotrans (c : List Char) :
    ∀ a b, charsLess c a = true → charsLess c b = true ∨ charsLess b a = true := by
  induction c with
  | nil =>
    intro a b h
    cases a with
    | nil => simp [charsLess] at h
    | cons x xs =>
      cases b with
      | nil => right; rfl
      | cons y ys => left; rfl
  | cons z zs ih =>
    intro a b h
    cases a with
    | nil => simp [charsLess] at h
    | cons x xs =>
      cases b with
      | nil => right; rfl
      | cons y ys =>
        by_cases hzy : z.toNat < y.toNat
        · left; simp [charsLess, hzy]
        · by_cases hyz : y.toNat < z.toNat
          · right
            by_cases hzx : z.toNat < x.toNat
            · have : y.toNat < x.toNat := by omega
              simp [charsLess, this]
            · by_cases hxz : x.toNat < z.toNat
              · simp [charsLess, hzx, hxz] at h
              · have : y.toNat < x.toNat := by omega
                simp [charsLess, this]
          · by_cases hzx : z.toNat < x.toNat
            · right
              have : y.toNat < x.toNat := by omega
              simp [charsLess, this]
            · by_cases hxz : x.toNat < z.toNat
              · simp [charsLess, hzx, hxz] at h
              · simp only [charsLess, hzx, hxz, if_false] at h
                have hyx : ¬ y.toNat < x.toNat := by omega
                have hxy : ¬ x.toNat < y.toNat := by omega
                simp only [charsLess, hzy, hyz, hyx, hxy, if_false]
                exact ih xs ys h

theorem charsLess_connected (a : List Char) :
    ∀ b, charsLess a b = false → charsLess b a = false → a = b := by
  induction a with
  | nil =>
    intro b h1 _
    cases b with
    | nil => rfl
    | cons d rest => simp [charsLess] at h1
  | cons c rest ih =>
    intro b h1 h2
    cases b with
    | nil => simp [charsLess] at h2
    | cons d rest2 =>
      by_cases hcd : c.toNat < d.toNat
      · simp [charsLess, hcd] at h1
      · by_cases hdc : d.toNat < c.toNat
        · simp [charsLess, hdc] at h2
        · simp only [charsLess, hcd, hdc, if_false] at h1 h2
          have hn : c.toNat = d.toNat := by omega
          have hc : c = d := by
            rw [← Char.ofNat_toNat c, ← Char.ofNat_toNat d, hn]
          rw [hc, ih rest2 h1 h2]

theorem stringLess_total : IsTotal String (fun a b => stringLess b a = false) :=
  ⟨fun a b => by
    cases h : stringLess b a
    · left; rfl
    · right; exact charsLess_asymm _ _ h⟩

theorem stringLess_trans : IsTrans String (fun a b => stringLess b a = false) :=
  ⟨fun a b c hab hbc => by
    cases h : stringLess c a
    · rfl
    · rcases charsLess_cotrans _ _ b.data h with h1 | h1
      · have : stringLess c b = true := h1
        rw [this] at hbc; cases hbc
      · have : stringLess b a = true := h1
        rw [this] at hab; cases hab⟩

theorem stringLess_antisymm : IsAntisymm String (fun a b => stringLess b a = false) :=
  ⟨fun _ _ hab hba => String.ext (charsLess_connected _ _ hba hab)⟩

theorem sortStrings_sorted (l : List String) :
    List.Sorted (fun a b => stringLess b a = false) (sortStrings l) :=
  @List.sorted_insertionSort _ _ _ stringLess_total stringLess_trans l

theorem sortStrings_perm (l : List String) : (sortStrings l).Perm l :=
  List.perm_insertionSort _ l

theorem sortStrings_eq_of_perm {l1 l2 : List String} (h : l1.Perm l2) :
    sortStrings l1 = sortStrings l2 :=
  @List.eq_of_perm_of_sorted _ _ stringLess_antisymm _ _
    (((sortStrings_perm l1).trans h).trans (sortStrings_perm l2).symm)
    (sortStrings_sorted l1) (sortStrings_sorted l2)

/-! ### strFromSlice over the memory -/

theorem heap_index_append (h : Heap) (a : List String) (s : Slice) (i : Nat)
    (hs : s.array < h.length) : Heap.index (h ++ [a]) s i = Heap.index h s i := by
  simp [Heap.index, List.getD_eq_getElem?_getD, List.getElem?_append_left hs]

theorem heap_setIndex_fresh (h : Heap) (a : List String) (n i : Nat) (v : String) :
    Heap.setIndex (h ++ [a]) ⟨h.length, 0, n⟩ i v = h ++ [a.set i v] := by
  simp [Heap.setIndex, List.getD_eq_getElem?_getD]

theorem heap_read_fresh (h : Heap) (a : List String) :
    Heap.read (h ++ [a]) ⟨h.length, 0, a.length⟩ = a := by
  apply List.ext_getElem
  · simp [Heap.read]
  · intro i h1 h2
    simp [Heap.read, Heap.index, List.getD_eq_getElem?_getD, List.getElem?_eq_getElem h2]

theorem heap_sortStrings_fresh (h : Heap) (a : List String) :
    Heap.sortStrings (h ++ [a]) ⟨h.length, 0, a.length⟩ = h ++ [sortStrings a] := by
  have hr := heap_read_fresh h a
  simp [Heap.sortStrings, hr, List.getD_eq_getElem?_getD]

theorem heap_read_append (h : Heap) (a : List String) (s : Slice)
    (hs : s.array < h.length) : Heap.read (h ++ [a]) s = Heap.read h s := by
  simp only [Heap.read]
  apply List.map_congr_left
  intro i _
  exact heap_index_append h a s i hs

theorem heap_strFromSlice_loop (ToLower : String → String) (h : Heap) (slice : Slice)
    (hs : slice.array < h.length) (n : Nat) : ∀ k, k ≤ n →
    (List.range k).foldl
      (fun hh i => Heap.setIndex hh ⟨h.length, 0, n⟩ i (ToLower (Heap.index hh slice i)))
      (h ++ [List.replicate n ""]) =
    h ++ [(List.range k).map (fun j => ToLower (Heap.index h slice j)) ++
      List.replicate (n - k) ""] := by
  intro k
  induction k with
  | zero => intro _; simp
  | succ k ih =>
    intro hk
    rw [List.range_succ, List.foldl_append, ih (by omega)]
    simp only [List.foldl_cons, List.foldl_nil]
    rw [heap_setIndex_fresh, heap_index_append _ _ _ _ hs]
    congr 1
    congr 1
    have hrep : List.replicate (n - k) "" = "" :: List.replicate (n - (k + 1)) "" := by
      have : n - k = (n - (k + 1)) + 1 := by omega
      rw [this, List.replicate_succ]
    rw [hrep, List.map_append]
    have hl : ((List.range k).map (fun j => ToLower (Heap.index h slice j))).length = k := by
      simp
    rw [List.set_append_right _ _ (by rw [hl])]
    simp [hl]

theorem heap_strFromSlice_eq (ToLower : String → String) (h : Heap) (slice : Slice)
    (hs : slice.array < h.length) :
    Heap.strFromSlice ToLower h slice =
      (h ++ [sortStrings ((Heap.read h slice).map ToLower)],
        strFromSliceUsing ToLower (Heap.read h slice)) := by
  have hloop := heap_strFromSlice_loop ToLower h slice hs slice.len slice.len (Nat.le_refl _)
  simp only [Nat.sub_self, List.replicate_zero, List.append_nil] at hloop
  have hmap : (List.range slice.len).map (fun j => ToLower (Heap.index h slice j)) =
      (Heap.read h slice).map ToLower := by
    simp [Heap.read]
  rw [hmap] at hloop
  have hlen : ((Heap.read h slice).map ToLower).length = slice.len := by
    simp [Heap.read]
  have hsort : Heap.sortStrings (h ++ [(Heap.read h slice).map ToLower])
      ⟨h.length, 0, slice.len⟩ = h ++ [sortStrings ((Heap.read h slice).map ToLower)] := by
    have := heap_sortStrings_fresh h ((Heap.read h slice).map ToLower)
    rw [hlen] at this
    exact this
  have hlen2 : (sortStrings ((Heap.read h slice).map ToLower)).length = slice.len := by
    rw [(sortStrings_perm _).length_eq, hlen]
  have hread : Heap.read (h ++ [sortStrings ((Heap.read h slice).map ToLower)])
      ⟨h.length, 0, slice.len⟩ = sortStrings ((Heap.read h slice).map ToLower) := by
    have := heap_read_fresh h (sortStrings ((Heap.read h slice).map ToLower))
    rw [hlen2] at this
    exact this
  simp only [Heap.strFromSlice, Heap.make, hloop, hsort, hread, strFromSliceUsing]

/-- C25: for every lowercasing function `ToLower` and every slice in the memory, the
string that `strFromSlice` returns is the join with `,` of a list that holds the
lowercased names, each as often as the slice does, in ascending order. Two slices
whose lowercased names are a permutation of each other, in particular a permutation
of the slice or a re-casing of its elements, give the same string, and
`BeginSearchDocuments` then addresses the same series. At the return the slice of the
caller reads as before, and so does every array that the memory held at the call: the
function writes to the array that it makes only. A slice of length zero gives the
empty string. -/
theorem strFromSlice_canonical (ToLower : String → String) (h1 h2 : Heap)
    (s1 s2 : Slice) (m : SearchMetrics) (now : Int) (r : Registry)
    (hs1 : s1.array < h1.length) (hs2 : s2.array < h2.length)
    (hp : ((Heap.read h1 s1).map ToLower).Perm ((Heap.read h2 s2).map ToLower)) :
    (Heap.strFromSlice ToLower h1 s1).2 =
      stringsJoin (sortStrings ((Heap.read h1 s1).map ToLower)) "," ∧
    List.Sorted (fun a b => stringLess b a = false)
      (sortStrings ((Heap.read h1 s1).map ToLower)) ∧
    (sortStrings ((Heap.read h1 s1).map ToLower)).Perm ((Heap.read h1 s1).map ToLower) ∧
    (Heap.strFromSlice ToLower h1 s1).2 = (Heap.strFromSlice ToLower h2 s2).2 ∧
    (∀ (h3 : Heap) (s3 : Slice), s3.array < h3.length →
      (Heap.read h1 s1).Perm (Heap.read h3 s3) →
      (Heap.strFromSlice ToLower h1 s1).2 = (Heap.strFromSlice ToLower h3 s3).2) ∧
    (∀ (h3 : Heap) (s3 : Slice), s3.array < h3.length →
      (Heap.read h1 s1).map ToLower = (Heap.read h3 s3).map ToLower →
      (Heap.strFromSlice ToLower h1 s1).2 = (Heap.strFromSlice ToLower h3 s3).2) ∧
    (Heap.strFromSlice ToLower h1 s1).2 = strFromSliceUsing ToLower (Heap.read h1 s1) ∧
    m.BeginSearchDocumentsUsing ToLower (Heap.read h1 s1) now r =
      m.BeginSearchDocumentsUsing ToLower (Heap.read h2 s2) now r ∧
    Heap.read (Heap.strFromSlice ToLower h1 s1).1 s1 = Heap.read h1 s1 ∧
    (∀ s : Slice, s.array < h1.length →
      Heap.read (Heap.strFromSlice ToLower h1 s1).1 s = Heap.read h1 s) ∧
    (∀ a : Nat, a < h1.length →
      (Heap.strFromSlice ToLower h1 s1).1.get? a = h1.get? a) ∧
    (∀ (h : Heap) (s : Slice), s.len = 0 → (Heap.strFromSlice ToLower h s).2 = "") := by
  have he : ∀ (h3 : Heap) (s3 : Slice), s3.array < h3.length →
      ((Heap.read h1 s1).map ToLower).Perm ((Heap.read h3 s3).map ToLower) →
      (Heap.strFromSlice ToLower h1 s1).2 = (Heap.strFromSlice ToLower h3 s3).2 := by
    intro h3 s3 hs3 h
    rw [heap_strFromSlice_eq ToLower h1 s1 hs1, heap_strFromSlice_eq ToLower h3 s3 hs3]
    simp only [strFromSliceUsing, sortStrings_eq_of_perm h]
  have hu : ∀ s : Slice, s.array < h1.length →
      Heap.read (Heap.strFromSlice ToLower h1 s1).1 s = Heap.read h1 s := by
    intro s hs
    rw [heap_strFromSlice_eq ToLower h1 s1 hs1]
    exact heap_read_append h1 _ s hs
  refine ⟨?_, sortStrings_sorted _, sortStrings_perm _, he h2 s2 hs2 hp, ?_, ?_, ?_, ?_,
    hu s1 hs1, hu, ?_, ?_⟩
  · rw [heap_strFromSlice_eq ToLower h1 s1 hs1]
    rfl
  · intro h3 s3 hs3 h
    exact he h3 s3 hs3 (h.map ToLower)
  · intro h3 s3 hs3 h
    exact he h3 s3 hs3 (by rw [h])
  · rw [heap_strFromSlice_eq ToLower h1 s1 hs1]
  · have h := he h2 s2 hs2 hp
    rw [heap_strFromSlice_eq ToLower h1 s1 hs1, heap_strFromSlice_eq ToLower h2 s2 hs2] at h
    have h' : strFromSliceUsing ToLower (Heap.read h1 s1) =
        strFromSliceUsing ToLower (Heap.read h2 s2) := h
    simp only [SearchMetrics.BeginSearchDocumentsUsing, h']
  · intro a ha
    rw [heap_strFromSlice_eq ToLower h1 s1 hs1]
    simp [List.getElem?_append_left ha]
  · intro h s hs
    simp [Heap.strFromSlice, Heap.make, Heap.sortStrings, Heap.read, hs, stringsJoin]

/-- C25 at the slices `users, Orders` and `ORDERS, Users`, whose key is
`orders,users`, with the lowercasing `toLower`. -/
theorem strFromSlice_canonical_witness :
    (0 : Nat) < [["users", "Orders"]].length ∧ (0 : Nat) < [["ORDERS", "Users"]].length ∧
    ((Heap.read [["users", "Orders"]] ⟨0, 0, 2⟩).map toLower).Perm
      ((Heap.read [["ORDERS", "Users"]] ⟨0, 0, 2⟩).map toLower) ∧
    (Heap.strFromSlice toLower [["users", "Orders"]] ⟨0, 0, 2⟩).2 =
      (Heap.strFromSlice toLower [["ORDERS", "Users"]] ⟨0, 0, 2⟩).2 ∧
    Heap.strFromSlice toLower [["users", "Orders"]] ⟨0, 0, 2⟩ =
      ([["users", "Orders"], ["orders", "users"]], "orders,users") :=
  ⟨by decide, by decide, by decide,
    (strFromSlice_canonical toLower [["users", "Orders"]] [["ORDERS", "Users"]]
      ⟨0, 0, 2⟩ ⟨0, 0, 2⟩ (NewSearchMetrics "es") 0 Registry.empty
      (by decide) (by decide) (by decide)).2.2.2.1,
    by decide⟩

/-! ## rpc.go: the unary interceptor -/

/-- C21: for a handler that returns and that itself leaves the three series of the
call as it finds them, the interceptor returns the response and the error of the
handler; `grpc_unary_requests_in_flight` at the lowercased service and method is back
at its value before the call; `grpc_unary_requests_total` at these labels and at the
lowercased name of the status code derived from the error is up by one; and
`grpc_unary_requests_duration_seconds` has gained the one observation of the time
from the start of the call to the return of the handler. -/
theorem RPCMetrics.UnaryServerInterceptor_spec {α : Type} (fullMethod : String)
    (handler : Registry → Registry × α × Option HandlerError) (now0 now1 : Int)
    (r : Registry)
    (hg : (handler ((newRPCReporter fullMethod now0).IncInFlight r)).1.gauge
        ⟨"grpc_unary_requests_in_flight", (newRPCReporter fullMethod now0).label⟩ =
      ((newRPCReporter fullMethod now0).IncInFlight r).gauge
        ⟨"grpc_unary_requests_in_flight", (newRPCReporter fullMethod now0).label⟩)
    (hc : ∀ code, (handler ((newRPCReporter fullMethod now0).IncInFlight r)).1.counter
        ⟨"grpc_unary_requests_total", (newRPCReporter fullMethod now0).labelCode code⟩ =
      r.counter
        ⟨"grpc_unary_requests_total", (newRPCReporter fullMethod now0).labelCode code⟩)
    (hh : (handler ((newRPCReporter fullMethod now0).IncInFlight r)).1.histogram
        ⟨"grpc_unary_requests_duration_seconds", (newRPCReporter fullMethod now0).label⟩ =
      r.histogram
        ⟨"grpc_unary_requests_duration_seconds",
          (newRPCReporter fullMethod now0).label⟩) :
    (RPCMetrics.UnaryServerInterceptor fullMethod handler now0 now1 r).2 =
      (handler ((newRPCReporter fullMethod now0).IncInFlight r)).2 ∧
    (RPCMetrics.UnaryServerInterceptor fullMethod handler now0 now1 r).1.gauge
        ⟨"grpc_unary_requests_in_flight",
          [("grpc_service", toLower (grpcSplitMethodName fullMethod).1),
           ("grpc_method", toLower (grpcSplitMethodName fullMethod).2)]⟩ =
      r.gauge ⟨"grpc_unary_requests_in_flight",
          [("grpc_service", toLower (grpcSplitMethodName fullMethod).1),
           ("grpc_method", toLower (grpcSplitMethodName fullMethod).2)]⟩ ∧
    (RPCMetrics.UnaryServerInterceptor fullMethod handler now0 now1 r).1.counter
        ⟨"grpc_unary_requests_total",
          [("grpc_service", toLower (grpcSplitMethodName fullMethod).1),
           ("grpc_method", toLower (grpcSplitMethodName fullMethod).2),
           ("grpc_code", toLower (Code.String (statusCodeFromError
              (handler ((newRPCReporter fullMethod now0).IncInFlight r)).2.2)))]⟩ =
      r.counter ⟨"grpc_unary_requests_total",
          [("grpc_service", toLower (grpcSplitMethodName fullMethod).1),
           ("grpc_method", toLower (grpcSplitMethodName fullMethod).2),
           ("grpc_code", toLower (Code.String (statusCodeFromError
              (handler ((newRPCReporter fullMethod now0).IncInFlight r)).2.2)))]⟩ + 1 ∧
    (RPCMetrics.UnaryServerInterceptor fullMethod handler now0 now1 r).1.histogram
        ⟨"grpc_unary_requests_duration_seconds",
          [("grpc_service", toLower (grpcSplitMethodName fullMethod).1),
           ("grpc_method", toLower (grpcSplitMethodName fullMethod).2)]⟩ =
      r.histogram ⟨"grpc_unary_requests_duration_seconds",
          [("grpc_service", toLower (grpcSplitMethodName fullMethod).1),
           ("grpc_method", toLower (grpcSplitMethodName fullMethod).2)]⟩ ++
        [now1 - now0] := by
  refine ⟨rfl, ?_, ?_, ?_⟩
  · have h1 : (RPCMetrics.UnaryServerInterceptor fullMethod handler now0 now1 r).1.gauge
        ⟨"grpc_unary_requests_in_flight", (newRPCReporter fullMethod now0).label⟩ =
        (handler ((newRPCReporter fullMethod now0).IncInFlight r)).1.gauge
          ⟨"grpc_unary_requests_in_flight", (newRPCReporter fullMethod now0).label⟩ - 1 := by
      simp [RPCMetrics.UnaryServerInterceptor, rpcReporter.DecInFlight,
        rpcReporter.Handled, Registry.gauge_gaugeDec]
    rw [hg] at h1
    simp only [rpcReporter.IncInFlight, Registry.gauge_gaugeInc, if_true] at h1
    have h2 : (newRPCReporter fullMethod now0).label =
        [("grpc_service", toLower (grpcSplitMethodName fullMethod).1),
         ("grpc_method", toLower (grpcSplitMethodName fullMethod).2)] := rfl
    rw [h2] at h1
    rw [h1]
    omega
  · have h1 := hc (statusCodeFromError
      (handler ((newRPCReporter fullMethod now0).IncInFlight r)).2.2)
    have h2 : (RPCMetrics.UnaryServerInterceptor fullMethod handler now0 now1 r).1.counter
        ⟨"grpc_unary_requests_total", (newRPCReporter fullMethod now0).labelCode
          (statusCodeFromError
            (handler ((newRPCReporter fullMethod now0).IncInFlight r)).2.2)⟩ =
        (handler ((newRPCReporter fullMethod now0).IncInFlight r)).1.counter
          ⟨"grpc_unary_requests_total", (newRPCReporter fullMethod now0).labelCode
            (statusCodeFromError
              (handler ((newRPCReporter fullMethod now0).IncInFlight r)).2.2)⟩ + 1 := by
      simp [RPCMetrics.UnaryServerInterceptor, rpcReporter.DecInFlight,
        rpcReporter.Handled, Registry.counter_counterInc]
    rw [h1] at h2
    exact h2
  · have h2 : (RPCMetrics.UnaryServerInterceptor fullMethod handler now0 now1 r).1.histogram
        ⟨"grpc_unary_requests_duration_seconds", (newRPCReporter fullMethod now0).label⟩ =
        (handler ((newRPCReporter fullMethod now0).IncInFlight r)).1.histogram
          ⟨"grpc_unary_requests_duration_seconds",
            (newRPCReporter fullMethod now0).label⟩ ++ [now1 - now0] := by
      simp [RPCMetrics.UnaryServerInterceptor, rpcReporter.DecInFlight,
        rpcReporter.Handled, Registry.histogram_observe, rpcReporter.since,
        newRPCReporter]
    rw [hh] at h2
    exact h2

/-- C21 at the method `/pkg.Orders/Get` and a handler that returns `pong` with a
`NotFound` status: the pair comes back as it is and the call is counted under the
code `notfound`. -/
theorem RPCMetrics.UnaryServerInterceptor_spec_witness :
    (RPCMetrics.UnaryServerInterceptor "/pkg.Orders/Get" notFoundHandler 0 7
        Registry.empty).2 =
      (notFoundHandler
        ((newRPCReporter "/pkg.Orders/Get" 0).IncInFlight Registry.empty)).2 ∧
    (RPCMetrics.UnaryServerInterceptor "/pkg.Orders/Get" notFoundHandler 0 7
        Registry.empty).1.counter
      ⟨"grpc_unary_requests_total",
        [("grpc_service", "pkg.orders"), ("grpc_method", "get"),
         ("grpc_code", "notfound")]⟩ = 1 ∧
    (RPCMetrics.UnaryServerInterceptor "/pkg.Orders/Get" notFoundHandler 0 7
        Registry.empty).1.gauge
      ⟨"grpc_unary_requests_in_flight",
        [("grpc_service", "pkg.orders"), ("grpc_method", "get")]⟩ = 0 ∧
    (RPCMetrics.UnaryServerInterceptor "/pkg.Orders/Get" notFoundHandler 0 7
        Registry.empty).1.histogram
      ⟨"grpc_unary_requests_duration_seconds",
        [("grpc_service", "pkg.orders"), ("grpc_method", "get")]⟩ = [7] :=
  ⟨(RPCMetrics.UnaryServerInterceptor_spec "/pkg.Orders/Get" notFoundHandler 0 7
      Registry.empty (by decide) (fun _ => rfl) (by decide)).1,
    by decide, by decide, by decide⟩

/-! ## rpc.go: splitting the full method name -/

theorem indexSlash_of_not_mem (l : List Char) (h : '/' ∉ l) : indexSlash l = none := by
  induction l with
  | nil => rfl
  | cons c rest ih =>
    have hc : c ≠ '/' := fun e => h (by simp [e])
    have hr : '/' ∉ rest := fun e => h (List.mem_cons_of_mem _ e)
    simp [indexSlash, hc, ih hr]

theorem indexSlash_append (l r : List Char) (h : '/' ∉ l) :
    indexSlash (l ++ '/' :: r) = some l.length := by
  induction l with
  | nil => simp [indexSlash]
  | cons c rest ih =>
    have hc : c ≠ '/' := fun e => h (by simp [e])
    have hr : '/' ∉ rest := fun e => h (List.mem_cons_of_mem _ e)
    simp [indexSlash, hc, ih hr]

theorem indexSlash_split (l : List Char) :
    ∀ i, indexSlash l = some i → l.take i ++ '/' :: l.drop (i + 1) = l := by
  induction l with
  | nil => intro i h; simp [indexSlash] at h
  | cons c rest ih =>
    intro i h
    by_cases hc : c = '/'
    · simp [indexSlash, hc] at h
      subst h
      simp [hc]
    · simp only [indexSlash, hc, if_false, Option.map_eq_some'] at h
      obtain ⟨j, hj, hij⟩ := h
      subst hij
      simp [ih j hj]

theorem indexSlash_of_mem (l : List Char) (h : '/' ∈ l) : ∃ i, indexSlash l = some i := by
  cases hi : indexSlash l with
  | some i => exact ⟨i, rfl⟩
  | none =>
    exfalso
    induction l with
    | nil => simp at h
    | cons c rest ih =>
      by_cases hc : c = '/'
      · simp [indexSlash, hc] at hi
      · simp only [indexSlash, hc, if_false, Option.map_eq_none'] at hi
        rcases List.mem_cons.1 h with e | e
        · exact hc e.symm
        · exact ih e hi

theorem take_drop_at_slash (a b : List Char) :
    (a ++ '/' :: b).take a.length = a ∧ (a ++ '/' :: b).drop (a.length + 1) = b := by
  induction a with
  | nil => simp
  | cons c rest ih => simp

theorem trimLeadingSlash_of_not_mem (l : List Char) (h : '/' ∉ l) :
    trimLeadingSlash l = l := by
  cases l with
  | nil => rfl
  | cons c rest =>
    have hc : c ≠ '/' := fun e => h (by simp [e])
    unfold trimLeadingSlash
    split
    · rename_i heq
      injection heq with h1 _
      exact absurd h1 hc
    · rfl

/-- C26: for a service `s` without `/` and any method `m`, the full name
`"/" + s + "/" + m` splits into `(s, m)`; a name `n` without `/` gives
`("unknown", n)` with or without one leading `/`; and whenever the input with one
leading `/` removed still contains a `/`, service, `/` and method put together give
that trimmed input again. -/
theorem grpcSplitMethodName_spec (s m n x : String) (hs : '/' ∉ s.data)
    (hn : '/' ∉ n.data) :
    grpcSplitMethodName ("/" ++ s ++ "/" ++ m) = (s, m) ∧
    grpcSplitMethodName n = ("unknown", n) ∧
    grpcSplitMethodName ("/" ++ n) = ("unknown", n) ∧
    ('/' ∈ trimLeadingSlash x.data →
      (grpcSplitMethodName x).1 ++ "/" ++ (grpcSplitMethodName x).2 =
        String.mk (trimLeadingSlash x.data)) := by
  refine ⟨?_, ?_, ?_, ?_⟩
  · have hd : ("/" ++ s ++ "/" ++ m).data = '/' :: (s.data ++ '/' :: m.data) := by
      simp [String.data_append]
    simp only [grpcSplitMethodName, hd, trimLeadingSlash, indexSlash_append _ _ hs,
      (take_drop_at_slash s.data m.data).1, (take_drop_at_slash s.data m.data).2]
  · simp only [grpcSplitMethodName, trimLeadingSlash_of_not_mem _ hn,
      indexSlash_of_not_mem _ hn]
  · have hd : ("/" ++ n).data = '/' :: n.data := by simp [String.data_append]
    simp only [grpcSplitMethodName, hd, trimLeadingSlash, indexSlash_of_not_mem _ hn]
  · intro hx
    obtain ⟨i, hi⟩ := indexSlash_of_mem _ hx
    have hsplit := indexSlash_split _ i hi
    simp only [grpcSplitMethodName, hi]
    apply String.ext
    simpa [String.data_append] using hsplit

/-- C26 at the service `pkg.Orders`, the method `Get`, the bare name `Get` and the
input `//a/b`. -/
theorem grpcSplitMethodName_spec_witness :
    '/' ∉ "pkg.Orders".data ∧ '/' ∉ "Get".data ∧
    '/' ∈ trimLeadingSlash "//a/b".data ∧
    grpcSplitMethodName ("/" ++ "pkg.Orders" ++ "/" ++ "Get") = ("pkg.Orders", "Get") ∧
    grpcSplitMethodName "Get" = ("unknown", "Get") ∧
    grpcSplitMethodName ("/" ++ "Get") = ("unknown", "Get") ∧
    (grpcSplitMethodName "//a/b").1 ++ "/" ++ (grpcSplitMethodName "//a/b").2 =
      String.mk (trimLeadingSlash "//a/b".data) :=
  ⟨by decide, by decide, by decide,
    (grpcSplitMethodName_spec "pkg.Orders" "Get" "Get" "//a/b" (by decide) (by decide)).1,
    (grpcSplitMethodName_spec "pkg.Orders" "Get" "Get" "//a/b" (by decide)
      (by decide)).2.1,
    (grpcSplitMethodName_spec "pkg.Orders" "Get" "Get" "//a/b" (by decide)
      (by decide)).2.2.1,
    (grpcSplitMethodName_spec "pkg.Orders" "Get" "Get" "//a/b" (by decide)
      (by decide)).2.2.2 (by decide)⟩

/-! ## internal/strconv: the decimal round trip -/

theorem digitChar_toNat (d : Nat) (h : d < 10) : (Nat.digitChar d).toNat = 48 + d := by
  interval_cases d <;> rfl

theorem toDigitsCore_append (fuel : Nat) : ∀ (n : Nat) (ds : List Char),
    Nat.toDigitsCore 10 fuel n ds = Nat.toDigitsCore 10 fuel n [] ++ ds := by
  induction fuel with
  | zero => intro n ds; simp [Nat.toDigitsCore]
  | succ f ih =>
    intro n ds
    simp only [Nat.toDigitsCore]
    split
    · simp
    · rw [ih (n / 10) (Nat.digitChar (n % 10) :: ds), ih (n / 10) [Nat.digitChar (n % 10)]]
      simp

theorem digitsValue_nil (acc : Nat) : digitsValue acc [] = acc := rfl

theorem digitsValue_cons (acc : Nat) (x : Char) (xs : List Char) :
    digitsValue acc (x :: xs) = digitsValue (acc * 10 + (x.toNat - 48)) xs := rfl

theorem digitsValue_append (l : List Char) : ∀ (acc : Nat) (c : Char),
    digitsValue acc (l ++ [c]) = digitsValue acc l * 10 + (c.toNat - 48) := by
  induction l with
  | nil => intro acc c; rfl
  | cons x xs ih =>
    intro acc c
    have h := ih (acc * 10 + (x.toNat - 48)) c
    rw [List.cons_append, digitsValue_cons, digitsValue_cons]
    exact h

theorem digitsValue_ge (l : List Char) : ∀ acc : Nat, acc ≤ digitsValue acc l := by
  induction l with
  | nil => intro acc; exact Nat.le_refl _
  | cons x xs ih =>
    intro acc
    have := ih (acc * 10 + (x.toNat - 48))
    rw [digitsValue_cons]
    omega

theorem toDigitsCore_spec (n : Nat) : ∀ fuel, n < fuel →
    IsDigits (Nat.toDigitsCore 10 fuel n []) ∧
    Nat.toDigitsCore 10 fuel n [] ≠ [] ∧
    digitsValue 0 (Nat.toDigitsCore 10 fuel n []) = n := by
  induction n using Nat.strong_induction_on with
  | _ n ih =>
    intro fuel hf
    cases fuel with
    | zero => omega
    | succ f =>
      have hd : (Nat.digitChar (n % 10)).toNat = 48 + n % 10 :=
        digitChar_toNat _ (Nat.mod_lt _ (by decide))
      simp only [Nat.toDigitsCore]
      by_cases h0 : n / 10 = 0
      · simp only [h0, if_true]
        refine ⟨?_, by simp, ?_⟩
        · intro c hc
          simp only [List.mem_singleton] at hc
          subst hc
          omega
        · rw [digitsValue_cons, digitsValue_nil, hd]
          omega
      · simp only [h0, if_false]
        rw [toDigitsCore_append]
        have hlt : n / 10 < n := by omega
        obtain ⟨h1, h2, h3⟩ := ih (n / 10) hlt f (by omega)
        refine ⟨?_, by simp, ?_⟩
        · intro c hc
          rcases List.mem_append.1 hc with hc | hc
          · exact h1 c hc
          · simp only [List.mem_singleton] at hc
            subst hc
            omega
        · rw [digitsValue_append, h3, hd]
          omega

theorem parseUintLoop_digits (l : List Char) : ∀ n : Nat, IsDigits l →
    digitsValue n l < 2 ^ 64 → parseUintLoop n l = (digitsValue n l, none) := by
  induction l with
  | nil => intro n _ _; rfl
  | cons c rest ih =>
    intro n hd hv
    have hc := hd c (List.mem_cons_self _ _)
    have hrest : IsDigits rest := fun x hx => hd x (List.mem_cons_of_mem _ hx)
    rw [digitsValue_cons] at hv ⊢
    have hge := digitsValue_ge rest (n * 10 + (c.toNat - 48))
    have h1 : ¬ (c.toNat < 48 ∨ 57 < c.toNat) := by omega
    have h2 : ¬ (n ≥ (2 ^ 64 - 1) / 10 + 1) := by omega
    have h3 : (n * 10 + (c.toNat - 48)) % 2 ^ 64 = n * 10 + (c.toNat - 48) :=
      Nat.mod_eq_of_lt (by omega)
    have h4 : ¬ (n * 10 + (c.toNat - 48) < n * 10 ∨ n * 10 + (c.toNat - 48) > 2 ^ 64 - 1) := by
      omega
    simp only [parseUintLoop, h1, h2, h3, h4, if_false]
    exact ih _ hrest hv

theorem toDigits_spec (n : Nat) :
    IsDigits (Nat.toDigits 10 n) ∧ Nat.toDigits 10 n ≠ [] ∧
      digitsValue 0 (Nat.toDigits 10 n) = n :=
  toDigitsCore_spec n (n + 1) (Nat.lt_succ_self n)

theorem ParseUint_toDigits (n : Nat) (h : n < 2 ^ 64) :
    ParseUint (Nat.toDigits 10 n) = (n, none) := by
  obtain ⟨h1, h2, h3⟩ := toDigits_spec n
  simp only [ParseUint, h2, if_false]
  rw [parseUintLoop_digits _ 0 h1 (by rw [h3]; exact h), h3]

theorem ParseInt_digits (l : List Char) (hd : IsDigits l) (hne : l ≠ [])
    (hv : digitsValue 0 l < 2 ^ 63) : ParseInt l = (((digitsValue 0 l : Nat) : Int), none) := by
  have hu : ParseUint l = (digitsValue 0 l, none) := by
    simp only [ParseUint, hne, if_false]
    exact parseUintLoop_digits l 0 hd (by omega)
  cases l with
  | nil => exact absurd rfl hne
  | cons c rest =>
    have hc := hd c (List.mem_cons_self _ _)
    have hp : c ≠ '+' := by
      intro h
      rw [h] at hc
      exact absurd hc.1 (by decide)
    have hm : c ≠ '-' := by
      intro h
      rw [h] at hc
      exact absurd hc.1 (by decide)
    have hcut : ¬ (digitsValue 0 (c :: rest) ≥ 2 ^ 63) := by omega
    unfold ParseInt
    rw [if_neg hne]
    split
    · rename_i heq
      exact absurd (List.cons.inj heq).1 hp
    · rename_i heq
      exact absurd (List.cons.inj heq).1 hm
    · simp [hu]
      omega

theorem ParseInt_minus_digits (l : List Char) (hd : IsDigits l) (hne : l ≠ [])
    (hv : digitsValue 0 l ≤ 2 ^ 63) :
    ParseInt ('-' :: l) = (-((digitsValue 0 l : Nat) : Int), none) := by
  have hu : ParseUint l = (digitsValue 0 l, none) := by
    simp only [ParseUint, hne, if_false]
    exact parseUintLoop_digits l 0 hd (by omega)
  have hcut : ¬ (digitsValue 0 l > 2 ^ 63) := by omega
  unfold ParseInt
  simp [hu]
  omega

theorem ParseDecimalInt_of_FormatDecimalInt (i : Int) (hlo : -(2 ^ 63) ≤ i) (hhi : i < 2 ^ 63) :
    ParseDecimalInt (FormatDecimalInt i) = (i, none) := by
  obtain ⟨h1, h2, h3⟩ := toDigits_spec i.natAbs
  by_cases hneg : i < 0
  · have hdata : (FormatDecimalInt i).data = '-' :: Nat.toDigits 10 i.natAbs := by
      simp [FormatDecimalInt, hneg]
    rw [ParseDecimalInt, hdata, ParseInt_minus_digits _ h1 h2 (by rw [h3]; omega), h3]
    congr 1
    omega
  · have hdata : (FormatDecimalInt i).data = Nat.toDigits 10 i.natAbs := by
      simp [FormatDecimalInt, hneg]
    rw [ParseDecimalInt, hdata, ParseInt_digits _ h1 h2 (by rw [h3]; omega), h3]
    congr 1
    omega

theorem FormatDecimalInt_injective_on (i j : Int) (hi : -(2 ^ 63) ≤ i ∧ i < 2 ^ 63)
    (hj : -(2 ^ 63) ≤ j ∧ j < 2 ^ 63) (h : FormatDecimalInt i = FormatDecimalInt j) :
    i = j := by
  have h1 := ParseDecimalInt_of_FormatDecimalInt i hi.1 hi.2
  have h2 := ParseDecimalInt_of_FormatDecimalInt j hj.1 hj.2
  rw [h] at h1
  exact (Prod.mk.inj (h1.symm.trans h2)).1

/-- C27: for every 64-bit signed integer `i`, the minimum and the maximum included,
`ParseDecimalInt (FormatDecimalInt i)` returns `i` and no error; hence `FormatDecimalInt`
is injective on the 64-bit integers, and for distinct status codes `i` and `j`
`httpHandlerMetric.Inc` addresses distinct series of `http_requests_total`: `Inc i` raises
the series with the code label of `i` by one and leaves the series with the code label of
`j` unchanged. -/
theorem FormatDecimalInt_round_trip (i j : Int) (hi : -(2 ^ 63) ≤ i ∧ i < 2 ^ 63)
    (hj : -(2 ^ 63) ≤ j ∧ j < 2 ^ 63) :
    ParseDecimalInt (FormatDecimalInt i) = (i, none) ∧
    (FormatDecimalInt i = FormatDecimalInt j → i = j) ∧
    (i ≠ j → FormatDecimalInt i ≠ FormatDecimalInt j ∧
      ∀ (m : httpHandlerMetric) (r : Registry),
        (m.Inc i r).counter ⟨"http_requests_total",
            [("method", m.labels.value "method"), ("handler", m.labels.value "handler"),
             ("code", FormatDecimalInt i)]⟩ =
          r.counter ⟨"http_requests_total",
            [("method", m.labels.value "method"), ("handler", m.labels.value "handler"),
             ("code", FormatDecimalInt i)]⟩ + 1 ∧
        (m.Inc i r).counter ⟨"http_requests_total",
            [("method", m.labels.value "method"), ("handler", m.labels.value "handler"),
             ("code", FormatDecimalInt j)]⟩ =
          r.counter ⟨"http_requests_total",
            [("method", m.labels.value "method"), ("handler", m.labels.value "handler"),
             ("code", FormatDecimalInt j)]⟩) := by
  refine ⟨ParseDecimalInt_of_FormatDecimalInt i hi.1 hi.2,
    FormatDecimalInt_injective_on i j hi hj, ?_⟩
  intro hne
  have hf : FormatDecimalInt i ≠ FormatDecimalInt j :=
    fun h => hne (FormatDecimalInt_injective_on i j hi hj h)
  refine ⟨hf, ?_⟩
  intro m r
  constructor
  · simp [httpHandlerMetric.Inc, Registry.counter_counterInc]
  · have hk : (⟨"http_requests_total",
        [("method", m.labels.value "method"), ("handler", m.labels.value "handler"),
         ("code", FormatDecimalInt j)]⟩ : SeriesKey) ≠
        ⟨"http_requests_total",
        [("method", m.labels.value "method"), ("handler", m.labels.value "handler"),
         ("code", FormatDecimalInt i)]⟩ := by
      intro h
      simp at h
      exact hf h.symm
    simp only [httpHandlerMetric.Inc, Registry.counter_counterInc, if_neg hk]

theorem FormatDecimalInt_round_trip_witness :
    ((-(2 ^ 63) ≤ (-9223372036854775808 : Int) ∧ (-9223372036854775808 : Int) < 2 ^ 63) ∧
      (-(2 ^ 63) ≤ (9223372036854775807 : Int) ∧ (9223372036854775807 : Int) < 2 ^ 63)) ∧
    ParseDecimalInt (FormatDecimalInt (-9223372036854775808)) =
      (-9223372036854775808, none) ∧
    FormatDecimalInt (-9223372036854775808) ≠ FormatDecimalInt 9223372036854775807 :=
  ⟨⟨by decide, by decide⟩,
    (FormatDecimalInt_round_trip (-9223372036854775808) 9223372036854775807
      (by decide) (by decide)).1,
    ((FormatDecimalInt_round_trip (-9223372036854775808) 9223372036854775807
      (by decide) (by decide)).2.2 (by decide)).1⟩

/-! ## Concurrent Begin/End pairs -/

theorem httpHandlerMetric.inFlightPair_run (m : httpHandlerMetric) (r : Registry) :
    Update.run m.inFlightPair r = m.DecInFlight (m.IncInFlight r) := rfl

theorem SearchMetrics.createIndexPair_run (m : SearchMetrics) (index code : String)
    (start finish : Int) (r : Registry) :
    Update.run (m.createIndexPair index code start finish) r =
      (m.BeginCreateIndex index start r).2 code finish (m.BeginCreateIndex index start r).1 :=
  rfl

theorem SearchMetrics.indexDocumentPair_run (m : SearchMetrics) (index code : String)
    (start finish : Int) (r : Registry) :
    Update.run (m.indexDocumentPair index code start finish) r =
      (m.BeginIndexDocument index start r).2 code finish
        (m.BeginIndexDocument index start r).1 :=
  rfl

theorem SearchMetrics.getDocumentPair_run (m : SearchMetrics) (index code : String)
    (start finish : Int) (r : Registry) :
    Update.run (m.getDocumentPair index code start finish) r =
      (m.BeginGetDocument index start r).2 code finish (m.BeginGetDocument index start r).1 :=
  rfl

theorem SearchMetrics.searchDocumentsPair_run (m : SearchMetrics) (indexes : List String)
    (code : String) (start finish : Int) (r : Registry) :
    Update.run (m.searchDocumentsPair indexes code start finish) r =
      (m.BeginSearchDocuments indexes start r).2 code finish
        (m.BeginSearchDocuments indexes start r).1 :=
  rfl

theorem SearchMetrics.pointInTimePair_run (m : SearchMetrics) (operation code : String)
    (start finish : Int) (r : Registry) :
    Update.run (m.pointInTimePair operation code start finish) r =
      (m.BeginPointInTimeRequest operation start r).2 code finish
        (m.BeginPointInTimeRequest operation start r).1 :=
  rfl

theorem Update.gauge_apply (u : Update) (r : Registry) (g : SeriesKey) :
    (u.apply r).gauge g = r.gauge g + u.gaugeDelta g := by
  cases u with
  | gaugeInc k =>
    simp only [Update.apply, Update.gaugeDelta, Registry.gauge_gaugeInc]
    split <;> simp
  | gaugeDec k =>
    simp only [Update.apply, Update.gaugeDelta, Registry.gauge_gaugeDec]
    split
    · omega
    · simp
  | counterInc k => simp [Update.apply, Update.gaugeDelta]
  | observe k x => simp [Update.apply, Update.gaugeDelta]

theorem Update.gauge_run (us : List Update) : ∀ (r : Registry) (g : SeriesKey),
    (Update.run us r).gauge g = r.gauge g + (us.map (Update.gaugeDelta g)).sum := by
  induction us with
  | nil => intro r g; simp [Update.run]
  | cons u rest ih =>
    intro r g
    have h := ih (u.apply r) g
    simp only [Update.run, List.foldl_cons, List.map_cons, List.sum_cons] at h ⊢
    rw [h, Update.gauge_apply]
    omega

theorem Interleaving.sum_gaugeDelta (g : SeriesKey) {ts : List (List Update)}
    {trace : List Update} (h : Interleaving ts trace) :
    (trace.map (Update.gaugeDelta g)).sum =
      (ts.map (fun t => (t.map (Update.gaugeDelta g)).sum)).sum := by
  induction h with
  | done ts hts =>
    symm
    apply List.sum_eq_zero
    intro x hx
    obtain ⟨t, ht, rfl⟩ := List.mem_map.1 hx
    rw [hts t ht]
    rfl
  | step ts1 ts2 u t trace _ ih =>
    simp only [List.map_cons, List.sum_cons, List.map_append, List.sum_append] at ih ⊢
    omega

theorem httpHandlerMetric.gauge_after_pair (m : httpHandlerMetric) (r : Registry)
    (g : SeriesKey) : (m.DecInFlight (m.IncInFlight r)).gauge g = r.gauge g := by
  simp only [httpHandlerMetric.DecInFlight, httpHandlerMetric.IncInFlight,
    Registry.gauge_gaugeDec, Registry.gauge_gaugeInc]
  split <;> simp

theorem SearchMetrics.gauge_after_createIndex (ToLower : String → String)
    (m : SearchMetrics) (index code : String) (start finish : Int) (r : Registry)
    (g : SeriesKey) :
    ((m.BeginCreateIndexUsing ToLower index start r).2 code finish
      (m.BeginCreateIndexUsing ToLower index start r).1).gauge g = r.gauge g := by
  simp only [SearchMetrics.BeginCreateIndexUsing, Registry.gauge_observe,
    Registry.gauge_counterInc, Registry.gauge_gaugeDec, Registry.gauge_gaugeInc]
  split <;> simp

theorem SearchMetrics.gauge_after_indexDocument (ToLower : String → String)
    (m : SearchMetrics) (index code : String) (start finish : Int) (r : Registry)
    (g : SeriesKey) :
    ((m.BeginIndexDocumentUsing ToLower index start r).2 code finish
      (m.BeginIndexDocumentUsing ToLower index start r).1).gauge g = r.gauge g := by
  simp only [SearchMetrics.BeginIndexDocumentUsing, Registry.gauge_observe,
    Registry.gauge_counterInc, Registry.gauge_gaugeDec, Registry.gauge_gaugeInc]
  split <;> simp

theorem SearchMetrics.gauge_after_getDocument (ToLower : String → String)
    (m : SearchMetrics) (index code : String) (start finish : Int) (r : Registry)
    (g : SeriesKey) :
    ((m.BeginGetDocumentUsing ToLower index start r).2 code finish
      (m.BeginGetDocumentUsing ToLower index start r).1).gauge g = r.gauge g := by
  simp only [SearchMetrics.BeginGetDocumentUsing, Registry.gauge_observe,
    Registry.gauge_counterInc, Registry.gauge_gaugeDec, Registry.gauge_gaugeInc]
  split <;> simp

theorem SearchMetrics.gauge_after_searchDocuments (ToLower : String → String)
    (m : SearchMetrics) (indexes : List String) (code : String) (start finish : Int)
    (r : Registry) (g : SeriesKey) :
    ((m.BeginSearchDocumentsUsing ToLower indexes start r).2 code finish
      (m.BeginSearchDocumentsUsing ToLower indexes start r).1).gauge g = r.gauge g := by
  simp only [SearchMetrics.BeginSearchDocumentsUsing, Registry.gauge_observe,
    Registry.gauge_counterInc, Registry.gauge_gaugeDec, Registry.gauge_gaugeInc]
  split <;> simp

theorem SearchMetrics.gauge_after_pointInTime (ToLower : String → String)
    (m : SearchMetrics) (operation code : String) (start finish : Int) (r : Registry)
    (g : SeriesKey) :
    ((m.BeginPointInTimeRequestUsing ToLower operation start r).2 code finish
      (m.BeginPointInTimeRequestUsing ToLower operation start r).1).gauge g =
      r.gauge g := by
  simp only [SearchMetrics.BeginPointInTimeRequestUsing, Registry.gauge_observe,
    Registry.gauge_counterInc, Registry.gauge_gaugeDec, Registry.gauge_gaugeInc]
  split <;> simp

theorem Update.gaugeDelta_zero_of_run (t : List Update) (g : SeriesKey)
    (h : (Update.run t Registry.empty).gauge g = Registry.empty.gauge g) :
    (t.map (Update.gaugeDelta g)).sum = 0 := by
  rw [Update.gauge_run] at h
  omega

theorem IsInFlightPair.gaugeDelta_zero (g : SeriesKey) {t : List Update}
    (h : IsInFlightPair t) : (t.map (Update.gaugeDelta g)).sum = 0 := by
  apply Update.gaugeDelta_zero_of_run
  cases h with
  | http m t h => rw [h]; exact httpHandlerMetric.gauge_after_pair m _ g
  | createIndex L m index code start finish t h =>
    rw [h]; exact SearchMetrics.gauge_after_createIndex L m index code start finish _ g
  | indexDocument L m index code start finish t h =>
    rw [h]; exact SearchMetrics.gauge_after_indexDocument L m index code start finish _ g
  | getDocument L m index code start finish t h =>
    rw [h]; exact SearchMetrics.gauge_after_getDocument L m index code start finish _ g
  | searchDocuments L m indexes code start finish t h =>
    rw [h]
    exact SearchMetrics.gauge_after_searchDocuments L m indexes code start finish _ g
  | pointInTime L m operation code start finish t h =>
    rw [h]
    exact SearchMetrics.gauge_after_pointInTime L m operation code start finish _ g

theorem httpHandlerMetric.inFlightPair_isPair (m : httpHandlerMetric) :
    IsInFlightPair m.inFlightPair :=
  IsInFlightPair.http m _ (fun _ => rfl)

theorem SearchMetrics.createIndexPair_isPair (m : SearchMetrics) (index code : String)
    (start finish : Int) : IsInFlightPair (m.createIndexPair index code start finish) :=
  IsInFlightPair.createIndex toLower m index code start finish _ (fun _ => rfl)

theorem SearchMetrics.indexDocumentPair_isPair (m : SearchMetrics) (index code : String)
    (start finish : Int) : IsInFlightPair (m.indexDocumentPair index code start finish) :=
  IsInFlightPair.indexDocument toLower m index code start finish _ (fun _ => rfl)

theorem SearchMetrics.getDocumentPair_isPair (m : SearchMetrics) (index code : String)
    (start finish : Int) : IsInFlightPair (m.getDocumentPair index code start finish) :=
  IsInFlightPair.getDocument toLower m index code start finish _ (fun _ => rfl)

theorem SearchMetrics.searchDocumentsPair_isPair (m : SearchMetrics)
    (indexes : List String) (code : String) (start finish : Int) :
    IsInFlightPair (m.searchDocumentsPair indexes code start finish) :=
  IsInFlightPair.searchDocuments toLower m indexes code start finish _ (fun _ => rfl)

theorem SearchMetrics.pointInTimePair_isPair (m : SearchMetrics)
    (operation code : String) (start finish : Int) :
    IsInFlightPair (m.pointInTimePair operation code start finish) :=
  IsInFlightPair.pointInTime toLower m operation code start finish _ (fun _ => rfl)

theorem Interleaving.sequential (ts : List (List Update)) :
    ∀ finished : List (List Update), (∀ t ∈ finished, t = []) →
      Interleaving (finished ++ ts) (ts.foldr (fun t acc => t ++ acc) []) := by
  induction ts with
  | nil =>
    intro finished hf
    exact Interleaving.done _ (by simpa using hf)
  | cons t ts ih =>
    intro finished hf
    induction t with
    | nil =>
      have h := ih (finished ++ [[]]) (by
        intro t ht
        rcases List.mem_append.1 ht with ht | ht
        · exact hf t ht
        · simpa using ht)
      simpa using h
    | cons u t iht => exact Interleaving.step finished ts u t _ iht

/-- C23: goroutines that each run one Begin/End pair of the code (`IsInFlightPair`: the
series updates of the goroutine, one after the other, give the registry that
`DecInFlight` after `IncInFlight` of a handler metric gives, or that a `Begin*` of the
search metrics followed by its returned function gives), scheduled in any interleaving
of their series updates: once all of them have completed, every in-flight gauge reads
what it read before they started; a gauge that read 0 reads 0. The updates of one
series are atomic, as the Prometheus client carries them out. -/
theorem inFlight_gauge_after_concurrent_pairs (ts : List (List Update))
    (trace : List Update) (r : Registry) (g : SeriesKey)
    (hts : ∀ t ∈ ts, IsInFlightPair t) (hi : Interleaving ts trace) :
    (r.gauge g = 0 → (Update.run trace r).gauge g = 0) ∧
    (Update.run trace r).gauge g = r.gauge g := by
  have hsum : (trace.map (Update.gaugeDelta g)).sum = 0 := by
    rw [Interleaving.sum_gaugeDelta g hi]
    apply List.sum_eq_zero
    intro x hx
    obtain ⟨t, ht, rfl⟩ := List.mem_map.1 hx
    exact IsInFlightPair.gaugeDelta_zero g (hts t ht)
  have hrun : (Update.run trace r).gauge g = r.gauge g := by
    rw [Update.gauge_run, hsum]
    omega
  exact ⟨fun h0 => hrun.trans h0, hrun⟩

theorem inFlight_gauge_after_concurrent_pairs_witness :
    (∀ t ∈ sampleRequests, IsInFlightPair t) ∧
    Interleaving sampleRequests sampleSchedule ∧
    (Update.run sampleSchedule Registry.empty).gauge
      ⟨"http_requests_in_flight", sampleHandler.labels⟩ = 0 :=
  have hts : ∀ t ∈ sampleRequests, IsInFlightPair t := by
    intro t ht
    simp only [sampleRequests, List.mem_cons, List.mem_singleton, List.mem_nil_iff,
      or_false, or_self] at ht
    rw [ht]
    exact IsInFlightPair.http sampleHandler _ (fun _ => rfl)
  have hi : Interleaving sampleRequests sampleSchedule :=
    Interleaving.step [] [sampleHandler.inFlightPair, sampleHandler.inFlightPair] _ _ _
      (Interleaving.step [[.gaugeDec ⟨"http_requests_in_flight", sampleHandler.labels⟩]]
        [sampleHandler.inFlightPair] _ _ _
        (Interleaving.step [] [[.gaugeDec ⟨"http_requests_in_flight", sampleHandler.labels⟩],
            sampleHandler.inFlightPair] _ _ _
          (Interleaving.step [[], [.gaugeDec ⟨"http_requests_in_flight", sampleHandler.labels⟩]]
            [] _ _ _
            (Interleaving.step [[]] [[.gaugeDec ⟨"http_requests_in_flight", sampleHandler.labels⟩]]
              _ _ _
              (Interleaving.step [[], []] [] _ _ _
                (Interleaving.done [[], [], []] (by decide)))))))
  ⟨hts, hi, (inFlight_gauge_after_concurrent_pairs sampleRequests sampleSchedule
    Registry.empty ⟨"http_requests_in_flight", sampleHandler.labels⟩ hts hi).1 (by decide)⟩

/-! ## db_stats.go: cancelling the loop of startTick -/

theorem TickLoop.step_invariant (s : TickLoop) (e : LoopEvent) (k : Nat)
    (h1 : s.runsAfterCancel ≤ s.runs)
    (h2 : s.runs + (if s.pending = true then 1 else 0) ≤ k) :
    (s.step e).runsAfterCancel ≤ (s.step e).runs ∧
    (s.step e).runs + (if (s.step e).pending = true then 1 else 0) ≤
      k + ticksDelivered [e] := by
  rcases s with ⟨ph, p, c, r, ra⟩
  cases e <;> cases ph <;> cases p <;> cases c <;>
    simp [TickLoop.step, ticksDelivered] at h1 h2 ⊢ <;> omega

theorem ticksDelivered_cons (e : LoopEvent) (es : List LoopEvent) :
    ticksDelivered (e :: es) = ticksDelivered [e] + ticksDelivered es := by
  cases e <;> simp [ticksDelivered, Nat.add_comm]

theorem TickLoop.exec_invariant (es : List LoopEvent) : ∀ (s : TickLoop) (k : Nat),
    s.runsAfterCancel ≤ s.runs → s.runs + (if s.pending = true then 1 else 0) ≤ k →
    (TickLoop.exec es s).runsAfterCancel ≤ (TickLoop.exec es s).runs ∧
    (TickLoop.exec es s).runs + (if (TickLoop.exec es s).pending = true then 1 else 0) ≤
      k + ticksDelivered es := by
  induction es with
  | nil => intro s k h1 h2; exact ⟨h1, by simpa [TickLoop.exec, ticksDelivered] using h2⟩
  | cons e rest ih =>
    intro s k h1 h2
    obtain ⟨g1, g2⟩ := TickLoop.step_invariant s e k h1 h2
    have h := ih (s.step e) (k + ticksDelivered [e]) g1 g2
    rw [ticksDelivered_cons]
    simp only [TickLoop.exec, List.foldl_cons] at h ⊢
    refine ⟨h.1, ?_⟩
    omega

theorem TickLoop.exec_overrunRuns (n : Nat) : ∀ a b : Nat,
    TickLoop.exec (overrunRuns n) (TickLoop.mk .running false true a b) =
      TickLoop.mk .returned false true (a + n) (b + n) := by
  induction n with
  | zero => intro a b; simp [overrunRuns, TickLoop.exec, TickLoop.step]
  | succ n ih =>
    intro a b
    have h := ih (a + 1) (b + 1)
    simp only [TickLoop.exec] at h
    simp [overrunRuns, TickLoop.exec, TickLoop.step, h]
    omega

theorem TickLoop.exec_overrunSchedule (n : Nat) :
    TickLoop.exec (overrunSchedule n) TickLoop.start =
      TickLoop.mk .returned false true (n + 1) n := by
  have h := TickLoop.exec_overrunRuns n 1 0
  simp only [TickLoop.exec] at h
  simp [overrunSchedule, TickLoop.exec, TickLoop.step, TickLoop.start, h]
  omega

/-- C22, the claim as stated fails: the first tick starts a call of `tickFunc`, cancel
is invoked during the call, and `tickFunc` outlasts the interval, so a tick is buffered
whenever a call returns; the `select` takes the tick twice before it takes
`<-ctx.Done()`. Two calls of `tickFunc` start after cancel. -/
theorem TickLoop.runs_after_cancel_counterexample :
    TickLoop.exec
      [.tick, .selectTick, .cancel, .tick, .finish, .selectTick, .tick, .finish,
       .selectTick, .finish, .selectDone] TickLoop.start =
      TickLoop.mk .returned false true 3 2 := by
  decide

/-- C22, amended: cancel never interrupts a call of `tickFunc` and starts none; the loop
returns only at a `select`, and there at once when the context is cancelled and no tick
is buffered; when a tick is buffered too, the `select` may take either case, and taking
the tick starts one more call. Every call consumes a tick the ticker delivered, and after
the return no call starts. The number of calls started after cancel is not bounded: for
every `n` the schedule `overrunSchedule n`, in which `tickFunc` outlasts the interval,
ends returned with exactly `n` calls started after cancel. -/
theorem TickLoop.cancellation (es : List LoopEvent) :
    (TickLoop.exec es TickLoop.start).runsAfterCancel ≤
      (TickLoop.exec es TickLoop.start).runs ∧
    (TickLoop.exec es TickLoop.start).runs ≤ ticksDelivered es ∧
    (∀ s : TickLoop, (s.step .cancel).phase = s.phase ∧ (s.step .cancel).runs = s.runs ∧
      (s.step .cancel).runsAfterCancel = s.runsAfterCancel ∧
      (s.step .cancel).cancelled = true) ∧
    (∀ s : TickLoop, s.phase = .selecting → s.cancelled = true → s.pending = false →
      s.step .selectTick = s ∧ (s.step .selectDone).phase = .returned ∧
      (s.step .selectDone).runs = s.runs) ∧
    (∀ s : TickLoop, s.phase = .selecting → s.cancelled = true → s.pending = true →
      (s.step .selectDone).phase = .returned ∧
      (s.step .selectTick).phase = .running ∧
      (s.step .selectTick).runsAfterCancel = s.runsAfterCancel + 1) ∧
    (∀ (s : TickLoop) (e : LoopEvent), s.phase = .running →
      e ≠ .finish → (s.step e).phase = .running ∧ (s.step e).runs = s.runs) ∧
    (∀ (s : TickLoop) (e : LoopEvent), s.phase = .returned → s.step e = s ∨
      (e = .cancel ∧ (s.step e).phase = .returned ∧ (s.step e).runs = s.runs)) ∧
    (∀ n : Nat, (TickLoop.exec (overrunSchedule n) TickLoop.start).phase = .returned ∧
      (TickLoop.exec (overrunSchedule n) TickLoop.start).runsAfterCancel = n) := by
  have hinv := TickLoop.exec_invariant es TickLoop.start 0 (by decide) (by decide)
  refine ⟨hinv.1, ?_, ?_, ?_, ?_, ?_, ?_, ?_⟩
  · have h := hinv.2
    omega
  · intro s
    simp [TickLoop.step]
  · intro s h1 h2 h3
    simp [TickLoop.step, h1, h2, h3]
  · intro s h1 h2 h3
    simp [TickLoop.step, h1, h2, h3]
  · intro s e h1 h2
    cases e <;> simp [TickLoop.step, h1] at h2 ⊢
  · intro s e h1
    cases e <;> simp [TickLoop.step, h1]
  · intro n
    rw [TickLoop.exec_overrunSchedule]
    exact ⟨rfl, rfl⟩

/-! ## api.go: the result of a call -/

mutual
theorem GoError.isCanceled_iff : ∀ e : GoError, e.isCanceled = true ↔ e.MatchesCanceled
  | .Canceled => by simp [GoError.isCanceled, GoError.MatchesCanceled.self]
  | .DeadlineExceeded => by
    simp only [GoError.isCanceled]
    constructor
    · intro h; cases h
    · intro h; cases h
  | .leaf _ => by
    simp only [GoError.isCanceled]
    constructor
    · intro h; cases h
    · intro h; cases h
  | .wrap msg e => by
    simp only [GoError.isCanceled]
    constructor
    · intro h
      exact GoError.MatchesCanceled.wrap msg e ((GoError.isCanceled_iff e).1 h)
    · intro h
      cases h with
      | wrap _ _ h1 => exact (GoError.isCanceled_iff e).2 h1
  | .join errs => by
    simp only [GoError.isCanceled]
    constructor
    · intro h
      obtain ⟨e, he, hw⟩ := (GoError.anyCanceled_iff errs).1 h
      exact GoError.MatchesCanceled.join errs e he hw
    · intro h
      cases h with
      | join _ e he hw => exact (GoError.anyCanceled_iff errs).2 ⟨e, he, hw⟩
  | .leafIs msg accepts => by
    simp only [GoError.isCanceled]
    constructor
    · intro h
      rw [h]
      exact GoError.MatchesCanceled.leafIs msg
    · intro h
      cases h with
      | leafIs _ => rfl
  | .wrapIs msg accepts e => by
    simp only [GoError.isCanceled, Bool.or_eq_true]
    constructor
    · rintro (h | h)
      · rw [h]
        exact GoError.MatchesCanceled.wrapIsSelf msg e
      · exact GoError.MatchesCanceled.wrapIs msg accepts e ((GoError.isCanceled_iff e).1 h)
    · intro h
      cases h with
      | wrapIsSelf _ _ => exact Or.inl rfl
      | wrapIs _ _ _ h1 => exact Or.inr ((GoError.isCanceled_iff e).2 h1)
  | .joinIs accepts errs => by
    simp only [GoError.isCanceled, Bool.or_eq_true]
    constructor
    · rintro (h | h)
      · rw [h]
        exact GoError.MatchesCanceled.joinIsSelf errs
      · obtain ⟨e, he, hw⟩ := (GoError.anyCanceled_iff errs).1 h
        exact GoError.MatchesCanceled.joinIs accepts errs e he hw
    · intro h
      cases h with
      | joinIsSelf _ => exact Or.inl rfl
      | joinIs _ _ e he hw => exact Or.inr ((GoError.anyCanceled_iff errs).2 ⟨e, he, hw⟩)
theorem GoError.anyCanceled_iff : ∀ errs : List GoError,
    GoError.anyCanceled errs = true ↔ ∃ e, e ∈ errs ∧ e.MatchesCanceled
  | [] => by simp [GoError.anyCanceled]
  | e :: rest => by
    simp only [GoError.anyCanceled, Bool.or_eq_true, List.mem_cons]
    rw [GoError.isCanceled_iff e, GoError.anyCanceled_iff rest]
    constructor
    · rintro (h | ⟨x, hx, hw⟩)
      · exact ⟨e, Or.inl rfl, h⟩
      · exact ⟨x, Or.inr hx, hw⟩
    · rintro ⟨x, hx | hx, hw⟩
      · left; rw [← hx]; exact hw
      · exact Or.inr ⟨x, hx, hw⟩
end

theorem GoError.WrapsCanceled.matches {e : GoError} (h : e.WrapsCanceled) :
    e.MatchesCanceled := by
  induction h with
  | self => exact GoError.MatchesCanceled.self
  | wrap msg e _ ih => exact GoError.MatchesCanceled.wrap msg e ih
  | join errs e he _ ih => exact GoError.MatchesCanceled.join errs e he ih
  | wrapIs msg accepts e _ ih => exact GoError.MatchesCanceled.wrapIs msg accepts e ih
  | joinIs accepts errs e he _ ih => exact GoError.MatchesCanceled.joinIs accepts errs e he ih

/-- C4, the claim as stated fails: an error that has no `Unwrap` method and whose own
`Is` method accepts `context.Canceled` (the error of a cancelled dial in package `net`
is one) is not `context.Canceled` and wraps nothing, and `apiCallResultFromError`
returns `"canceled"` for it, not `"failed"`. -/
theorem apiCallResultFromError_own_Is_counterexample :
    apiCallResultFromError (some (.leafIs "operation was canceled" true)) = "canceled" ∧
    ¬ (GoError.leafIs "operation was canceled" true).WrapsCanceled :=
  ⟨by decide, fun h => by cases h⟩

/-- C4, amended: `apiCallResultFromError` returns `"ok"` exactly for the nil error,
`"canceled"` exactly for the errors that `errors.Is` matches with `context.Canceled`
(the error is the sentinel, or it or an error in its unwrap chain has an `Is` method
that accepts the sentinel, or the chain reaches the sentinel), and `"failed"` exactly
for every other non-nil error. An error that is `context.Canceled` or wraps it gives
`"canceled"`; `context.DeadlineExceeded` gives `"failed"`; the three codes are
different strings. -/
theorem apiCallResultFromError_spec (err : Error) :
    (apiCallResultFromError err = "ok" ↔ err = none) ∧
    (apiCallResultFromError err = "canceled" ↔ ∃ e, err = some e ∧ e.MatchesCanceled) ∧
    (apiCallResultFromError err = "failed" ↔ ∃ e, err = some e ∧ ¬ e.MatchesCanceled) ∧
    (∀ e : GoError, e.WrapsCanceled → apiCallResultFromError (some e) = "canceled") ∧
    apiCallResultFromError (some .DeadlineExceeded) = "failed" := by
  have hd : apiCallResultFromError (some .DeadlineExceeded) = "failed" := by decide
  have hw : ∀ e : GoError, e.WrapsCanceled → apiCallResultFromError (some e) = "canceled" := by
    intro e h
    have hc := (GoError.isCanceled_iff e).2 h.matches
    simp [apiCallResultFromError, errorsIsCanceled, hc, apiCallCanceled]
  refine ⟨?_, ?_, ?_, hw, hd⟩
  all_goals
    cases err with
    | none => simp [apiCallResultFromError, apiCallOK]
    | some e =>
      by_cases hc : e.isCanceled = true
      · have hm := (GoError.isCanceled_iff e).1 hc
        simp [apiCallResultFromError, errorsIsCanceled, hc, hm, apiCallCanceled]
      · have hm : ¬ e.MatchesCanceled := fun h => hc ((GoError.isCanceled_iff e).2 h)
        simp [apiCallResultFromError, errorsIsCanceled, hc, hm, apiCallFailed]

end Prom

/-! ## internal/monitoring: the closure returned by Begin -/

namespace Monitoring

open Prom

/-- C3, refuted: for id 7 and the empty registry, the first call of the function
returned by `Begin` brings `api_requests_in_flight` back to 0 and records one
duration; the second call lowers the gauge to -1 and records a second duration. -/
theorem APIRequestMetric.end_twice_counterexample :
    (((NewAPIRequestMetric 7 0).Begin Registry.empty).2 10
        ((NewAPIRequestMetric 7 0).Begin Registry.empty).1).gauge
      ⟨"api_requests_in_flight", [("ID", "7")]⟩ = 0 ∧
    (((NewAPIRequestMetric 7 0).Begin Registry.empty).2 20
        (((NewAPIRequestMetric 7 0).Begin Registry.empty).2 10
          ((NewAPIRequestMetric 7 0).Begin Registry.empty).1)).gauge
      ⟨"api_requests_in_flight", [("ID", "7")]⟩ = -1 ∧
    (((NewAPIRequestMetric 7 0).Begin Registry.empty).2 10
        ((NewAPIRequestMetric 7 0).Begin Registry.empty).1).histogram
      ⟨"api_request_duration_seconds", [("ID", "7")]⟩ = [10] ∧
    (((NewAPIRequestMetric 7 0).Begin Registry.empty).2 20
        (((NewAPIRequestMetric 7 0).Begin Registry.empty).2 10
          ((NewAPIRequestMetric 7 0).Begin Registry.empty).1)).histogram
      ⟨"api_request_duration_seconds", [("ID", "7")]⟩ = [10, 20] := by
  decide

/-- C3, amended: the function returned by `Begin` keeps no completion flag. Every call
of it lowers `api_requests_in_flight{ID}` by one and appends one observation to
`api_request_duration_seconds{ID}`: after `Begin` and one call the gauge is back at
its value before `Begin`, after a second call it is one below that value and the
histogram holds two more observations than before. -/
theorem APIRequestMetric.end_twice (id now t1 t2 : Int) (r : Registry) :
    (((NewAPIRequestMetric id now).Begin r).2 t1
        ((NewAPIRequestMetric id now).Begin r).1).gauge
      ⟨"api_requests_in_flight", [("ID", FormatDecimalInt id)]⟩ =
      r.gauge ⟨"api_requests_in_flight", [("ID", FormatDecimalInt id)]⟩ ∧
    (((NewAPIRequestMetric id now).Begin r).2 t2
        (((NewAPIRequestMetric id now).Begin r).2 t1
          ((NewAPIRequestMetric id now).Begin r).1)).gauge
      ⟨"api_requests_in_flight", [("ID", FormatDecimalInt id)]⟩ =
      r.gauge ⟨"api_requests_in_flight", [("ID", FormatDecimalInt id)]⟩ - 1 ∧
    (((NewAPIRequestMetric id now).Begin r).2 t2
        (((NewAPIRequestMetric id now).Begin r).2 t1
          ((NewAPIRequestMetric id now).Begin r).1)).histogram
      ⟨"api_request_duration_seconds", [("ID", FormatDecimalInt id)]⟩ =
      r.histogram ⟨"api_request_duration_seconds", [("ID", FormatDecimalInt id)]⟩ ++
        [t1 - now, t2 - now] := by
  simp [APIRequestMetric.Begin, NewAPIRequestMetric, Registry.gauge_gaugeInc,
    Registry.gauge_gaugeDec, Registry.histogram_observe]

end Monitoring

